import Mathlib

/-! TerraConsole: run lifecycle, workspace lock and remote-state handlers

A shallow embedding of the request handlers of `api/internal/handlers`
(`run_handler.go`, `state_handler.go`, `workspace_handler.go`) over the row
types of `api/internal/models`.

The relational store reached through the object mapper is a record of row
lists. Every handler is a function from the store, the URL parameters, the
authenticated user and the request body to a response and the next store.
Reads of the clock, identifiers produced by the database and the verdict of
an INSERT are inputs of the handler (`Env`). Store writes whose error the
handler discards are applied as written.
-/

namespace TerraConsole

/-- Instants of `time.Time`, as an abstract count. -/
abbrev Time := Nat

/-- Go `[]byte`. -/
abbrev Bytes := List UInt8

/-! ## models/run.go -/

/-- Go `type RunStatus string`. -/
abbrev RunStatus := String

def RunStatusPending : RunStatus := "pending"
def RunStatusPlanning : RunStatus := "planning"
def RunStatusPlanned : RunStatus := "planned"
def RunStatusNeedsConfirm : RunStatus := "needs_confirmation"
def RunStatusApplying : RunStatus := "applying"
def RunStatusApplied : RunStatus := "applied"
def RunStatusErrored : RunStatus := "errored"
def RunStatusCancelled : RunStatus := "cancelled"
def RunStatusDiscarded : RunStatus := "discarded"
def RunStatusPlanOnly : RunStatus := "planned_and_finished"

/-- Go `type RunOperation string`. -/
abbrev RunOperation := String

def RunOperationPlan : RunOperation := "plan"
def RunOperationApply : RunOperation := "plan_and_apply"
def RunOperationDestroy : RunOperation := "destroy"
def RunOperationRefresh : RunOperation := "refresh"

/-- Columns of `models.Run` (the relation fields `Workspace` and `Creator`
are not columns). -/
structure Run where
  id : String
  workspaceID : String
  status : RunStatus
  operation : RunOperation
  message : String
  isDestroy : Bool
  autoApply : Bool
  terraformVersion : String
  createdBy : String
  planLog : String
  planJSON : String
  applyLog : String
  resourcesAdded : Int
  resourcesChanged : Int
  resourcesDeleted : Int
  startedAt : Option Time
  planCompletedAt : Option Time
  appliedAt : Option Time
  completedAt : Option Time
  createdAt : Time
  updatedAt : Time
  deriving DecidableEq, Repr

/-- Columns of `models.StateVersion`. -/
structure StateVersion where
  id : String
  workspaceID : String
  runID : Option String
  serial : Int
  lineage : String
  state : Bytes
  stateHash : String
  outputs : String
  resourceCount : Int
  createdAt : Time
  createdBy : String
  deriving DecidableEq, Repr

/-! ## models/workspace.go -/

/-- Columns of `models.Workspace`; `deletedAt` is the soft-delete column
`gorm.DeletedAt`. -/
structure Workspace where
  id : String
  name : String
  description : String
  projectID : String
  terraformVersion : String
  workingDirectory : String
  autoApply : Bool
  executionMode : String
  locked : Bool
  lockedBy : Option String
  lockedAt : Option Time
  vcsRepoURL : String
  vcsBranch : String
  createdAt : Time
  updatedAt : Time
  deletedAt : Option Time
  currentStateID : Option String
  deriving DecidableEq, Repr

/-- Columns of `models.Variable`. -/
structure Variable where
  id : String
  workspaceID : String
  key : String
  value : String
  description : String
  category : String
  hcl : Bool
  sensitive : Bool
  createdAt : Time
  updatedAt : Time
  deriving DecidableEq, Repr

/-! ## models/user.go -/

/-- The part of `models.User` the handlers read: its primary key. -/
structure User where
  id : String
  deriving DecidableEq, Repr

/-! ## The store -/

/-- Tables of the relational store the handlers reach through `h.db`. -/
structure Store where
  workspaces : List Workspace
  runs : List Run
  stateVersions : List StateVersion
  variableRows : List Variable
  deriving DecidableEq, Repr

/-- Inputs a request takes from outside the store: `now` is the reading of
`time.Now()` in the handler, `dbNow` the timestamp the object mapper writes
into `created_at` and `updated_at`, `newId` the value of
`gen_random_uuid()` for a row inserted by this request, and `insertOk`
whether the store accepts the INSERT. -/
structure Env where
  now : Time
  dbNow : Time
  newId : String
  insertOk : Bool
  deriving DecidableEq, Repr

/-- Values of Go `interface{}` produced by `encoding/json`; a number keeps
its literal text. -/
inductive JSONValue where
  | null
  | bool (b : Bool)
  | number (literal : String)
  | string (s : String)
  | array (xs : List JSONValue)
  | object (kvs : List (String × JSONValue))

mutual
/-- Equality of JSON values is decidable. -/
def JSONValue.decEq : (a b : JSONValue) → Decidable (a = b)
  | .null, .null => isTrue rfl
  | .bool a, .bool b =>
    if h : a = b then isTrue (by rw [h]) else isFalse (by intro h2; cases h2; exact h rfl)
  | .number a, .number b =>
    if h : a = b then isTrue (by rw [h]) else isFalse (by intro h2; cases h2; exact h rfl)
  | .string a, .string b =>
    if h : a = b then isTrue (by rw [h]) else isFalse (by intro h2; cases h2; exact h rfl)
  | .array a, .array b =>
    match JSONValue.decEqList a b with
    | isTrue h => isTrue (by rw [h])
    | isFalse h => isFalse (by intro h2; cases h2; exact h rfl)
  | .object a, .object b =>
    match JSONValue.decEqFields a b with
    | isTrue h => isTrue (by rw [h])
    | isFalse h => isFalse (by intro h2; cases h2; exact h rfl)
  | .null, .bool _ | .null, .number _ | .null, .string _ | .null, .array _ | .null, .object _
  | .bool _, .null | .bool _, .number _ | .bool _, .string _ | .bool _, .array _
  | .bool _, .object _
  | .number _, .null | .number _, .bool _ | .number _, .string _ | .number _, .array _
  | .number _, .object _
  | .string _, .null | .string _, .bool _ | .string _, .number _ | .string _, .array _
  | .string _, .object _
  | .array _, .null | .array _, .bool _ | .array _, .number _ | .array _, .string _
  | .array _, .object _
  | .object _, .null | .object _, .bool _ | .object _, .number _ | .object _, .string _
  | .object _, .array _ =>
    isFalse (by intro h; cases h)
/-- Equality of lists of JSON values is decidable. -/
def JSONValue.decEqList : (a b : List JSONValue) → Decidable (a = b)
  | [], [] => isTrue rfl
  | [], _ :: _ | _ :: _, [] => isFalse (by intro h; cases h)
  | x :: xs, y :: ys =>
    match JSONValue.decEq x y, JSONValue.decEqList xs ys with
    | isTrue h1, isTrue h2 => isTrue (by rw [h1, h2])
    | isFalse h1, _ => isFalse (by intro h; cases h; exact h1 rfl)
    | _, isFalse h2 => isFalse (by intro h; cases h; exact h2 rfl)
/-- Equality of the field lists of JSON objects is decidable. -/
def JSONValue.decEqFields : (a b : List (String × JSONValue)) → Decidable (a = b)
  | [], [] => isTrue rfl
  | [], _ :: _ | _ :: _, [] => isFalse (by intro h; cases h)
  | (k, x) :: xs, (l, y) :: ys =>
    if hk : k = l then
      match JSONValue.decEq x y, JSONValue.decEqFields xs ys with
      | isTrue h1, isTrue h2 => isTrue (by rw [hk, h1, h2])
      | isFalse h1, _ => isFalse (by intro h; cases h; exact h1 rfl)
      | _, isFalse h2 => isFalse (by intro h; cases h; exact h2 rfl)
    else isFalse (by intro h; cases h; exact hk rfl)
end

instance : DecidableEq JSONValue := JSONValue.decEq

/-- Response bodies written by `writeJSON` and `w.Write`; `raw` carries the
`Content-Type` header the handler set before writing the bytes, `json` a
value of type `interface{}` handed to `writeJSON`. -/
inductive Body where
  | empty
  | error (msg : String)
  | message (msg : String)
  | status (msg : String)
  | run (r : Run)
  | raw (contentType : String) (b : Bytes)
  | json (v : JSONValue)
  | runs (rs : List Run)
  | stateVersions (vs : List StateVersion)
  | variableList (vs : List Variable)
  | workspace (w : Workspace)
  deriving DecidableEq

/-- Status code and body of an HTTP response. -/
structure Response where
  code : Nat
  body : Body
  deriving DecidableEq

def StatusOK : Nat := 200
def StatusCreated : Nat := 201
def StatusNoContent : Nat := 204
def StatusBadRequest : Nat := 400
def StatusNotFound : Nat := 404
def StatusConflict : Nat := 409
def StatusInternalServerError : Nat := 500

namespace Store

/-- Query `db.First(&workspace, "id = ?", wsID)`: the row with this primary
key that is not soft-deleted. -/
def firstWorkspace (s : Store) (wsID : String) : Option Workspace :=
  s.workspaces.find? (fun w => w.id == wsID && w.deletedAt.isNone)

/-- Query `db.First(&run, "id = ?", runID)`. -/
def firstRun (s : Store) (runID : String) : Option Run :=
  s.runs.find? (fun r => r.id == runID)

/-- Query `db.Model(&models.Run{}).Where("workspace_id = ? AND status IN ?",
wsID, statuses).Count(&n)`. -/
def countRuns (s : Store) (wsID : String) (statuses : List RunStatus) : Nat :=
  (s.runs.filter (fun r => r.workspaceID == wsID && statuses.contains r.status)).length

/-- Statement `db.Model(&run).Updates(...)`: UPDATE of the rows whose primary
key is `runID`. -/
def updateRun (s : Store) (runID : String) (f : Run → Run) : Store :=
  { s with runs := s.runs.map (fun r => if r.id == runID then f r else r) }

/-- Statement `db.Model(&models.Workspace{}).Where("id = ?", wsID).Updates(...)`:
UPDATE of the rows with this primary key that are not soft-deleted. -/
def updateWorkspace (s : Store) (wsID : String) (f : Workspace → Workspace) : Store :=
  { s with workspaces :=
      s.workspaces.map (fun w => if w.id == wsID && w.deletedAt.isNone then f w else w) }

/-- Statement `db.Create(&run)`: the store assigns the primary key and the
object mapper the two timestamps; the INSERT is refused when the store says
so or when the primary key is taken. -/
def createRun (s : Store) (run : Run) (env : Env) : Option (Run × Store) :=
  if env.insertOk && !(s.runs.any (fun r => r.id == env.newId)) then
    let row := { run with id := env.newId, createdAt := env.dbNow, updatedAt := env.dbNow }
    some (row, { s with runs := s.runs ++ [row] })
  else none

/-- Statement `db.Create(&state)` for a state version. -/
def createStateVersion (s : Store) (sv : StateVersion) (env : Env) :
    Option (StateVersion × Store) :=
  if env.insertOk && !(s.stateVersions.any (fun v => v.id == env.newId)) then
    let row := { sv with id := env.newId, createdAt := env.dbNow }
    some (row, { s with stateVersions := s.stateVersions ++ [row] })
  else none

/-- Order of `ORDER BY serial DESC, id`: `v` comes before `a` when its serial
is greater, or the serials are equal and its primary key is smaller (`First`
appends the primary key to the requested order). -/
def comesFirst (v a : StateVersion) : Bool :=
  decide (a.serial < v.serial) || (decide (a.serial = v.serial) && decide (v.id < a.id))

/-- The first row of `a :: rows` in the order `comesFirst`. -/
def firstOf (a : StateVersion) : List StateVersion → StateVersion
  | [] => a
  | v :: rows => firstOf (if comesFirst v a then v else a) rows

/-- Query `db.Where("workspace_id = ?", wsID).Order("serial DESC").First(&state)`:
`none` when no row matches (the handler sees an error). -/
def firstStateVersionBySerialDesc (s : Store) (wsID : String) : Option StateVersion :=
  match s.stateVersions.filter (fun v => v.workspaceID == wsID) with
  | [] => none
  | v :: rows => some (firstOf v rows)

end Store

/-! ## handlers/run_handler.go -/

/-- Decoded body of `POST /workspaces/{workspaceId}/runs`. -/
structure CreateRunRequest where
  operation : RunOperation
  message : String
  autoApply : Bool
  deriving DecidableEq, Repr

/-- Statuses counted by the pending-run check of `RunHandler.Create`. -/
def activeStatuses : List RunStatus :=
  [RunStatusPending, RunStatusPlanning, RunStatusApplying]

namespace RunHandler

/-- Handler `RunHandler.Create`. `req` is the result of decoding the body
(`none` when `Decode` reports an error), `user` the result of
`middleware.GetUser`. The result is `none` when the handler dereferences a
nil user. -/
def Create (s : Store) (wsID : String) (user : Option User)
    (req : Option CreateRunRequest) (env : Env) : Option (Response × Store) :=
  match req with
  | none => some (⟨StatusBadRequest, .error "Invalid request"⟩, s)
  | some req =>
    match s.firstWorkspace wsID with
    | none => some (⟨StatusNotFound, .error "Workspace not found"⟩, s)
    | some workspace =>
      if workspace.locked then
        some (⟨StatusConflict, .error "Workspace is locked"⟩, s)
      else
        let pendingCount := s.countRuns wsID activeStatuses
        if pendingCount > 0 then
          some (⟨StatusConflict, .error "Workspace already has an active run"⟩, s)
        else
          let autoApply := req.autoApply || workspace.autoApply
          let isDestroy := req.operation == RunOperationDestroy
          match user with
          | none => none
          | some user =>
            let run : Run :=
              { id := "", workspaceID := wsID, status := RunStatusPending,
                operation := req.operation, message := req.message,
                isDestroy := isDestroy, autoApply := autoApply,
                terraformVersion := workspace.terraformVersion,
                createdBy := user.id, planLog := "", planJSON := "", applyLog := "",
                resourcesAdded := 0, resourcesChanged := 0, resourcesDeleted := 0,
                startedAt := none, planCompletedAt := none, appliedAt := none,
                completedAt := none, createdAt := 0, updatedAt := 0 }
            match s.createRun run env with
            | none => some (⟨StatusInternalServerError, .error "Failed to create run"⟩, s)
            | some (row, s') => some (⟨StatusCreated, .run row⟩, s')

/-- Handler `RunHandler.Approve`. -/
def Approve (s : Store) (runID : String) (env : Env) : Response × Store :=
  match s.firstRun runID with
  | none => (⟨StatusNotFound, .error "Run not found"⟩, s)
  | some run =>
    if run.status != RunStatusNeedsConfirm then
      (⟨StatusBadRequest, .error "Run is not awaiting confirmation"⟩, s)
    else
      (⟨StatusOK, .message "Run approved, applying..."⟩,
        s.updateRun run.id (fun r =>
          { r with status := RunStatusApplying, updatedAt := env.dbNow }))

/-- Handler `RunHandler.Discard`. -/
def Discard (s : Store) (runID : String) (env : Env) : Response × Store :=
  match s.firstRun runID with
  | none => (⟨StatusNotFound, .error "Run not found"⟩, s)
  | some run =>
    if run.status != RunStatusNeedsConfirm && run.status != RunStatusPlanned then
      (⟨StatusBadRequest, .error "Run cannot be discarded in current state"⟩, s)
    else
      let now := env.now
      (⟨StatusOK, .message "Run discarded"⟩,
        s.updateRun run.id (fun r =>
          { r with status := RunStatusDiscarded, completedAt := some now,
                   updatedAt := env.dbNow }))

/-- Handler `RunHandler.Cancel`. -/
def Cancel (s : Store) (runID : String) (env : Env) : Response × Store :=
  match s.firstRun runID with
  | none => (⟨StatusNotFound, .error "Run not found"⟩, s)
  | some run =>
    if run.status != RunStatusPending && run.status != RunStatusPlanning then
      (⟨StatusBadRequest, .error "Run cannot be cancelled in current state"⟩, s)
    else
      let now := env.now
      (⟨StatusOK, .message "Run cancelled"⟩,
        s.updateRun run.id (fun r =>
          { r with status := RunStatusCancelled, completedAt := some now,
                   updatedAt := env.dbNow }))

end RunHandler

/-! ## handlers/state_handler.go -/

/-- The anonymous struct `stateData` of `HTTPBackendPost`; `outputs` is a Go
map, `none` when nil. -/
structure StateData where
  serial : Int
  lineage : String
  outputs : Option (List (String × JSONValue))

/-- Go `[32]byte`, the result type of `sha256.Sum256`. -/
abbrev Digest := { d : Bytes // d.length = 32 }

/-- Standard-library functions `HTTPBackendPost` calls. `jsonUnmarshalState`
is `json.Unmarshal(body, &stateData)`: the contents of `stateData` after the
call, and whether an error was reported (the handler discards it).
`sha256Sum` is `sha256.Sum256`. `jsonMarshalObject` is `json.Marshal` of a
map that is not nil. `jsonUnmarshalValue` is `json.Unmarshal` of a text into
a variable of type `interface{}` that starts nil, as `GetOutputs` calls it:
the value left in the variable (`null` for nil), its error being discarded. -/
structure Lib where
  jsonUnmarshalState : Bytes → StateData × Bool
  sha256Sum : Bytes → Digest
  jsonMarshalObject : List (String × JSONValue) → String
  jsonUnmarshalValue : String → JSONValue

/-- One lowercase hexadecimal digit. -/
def hexDigit (n : Nat) : Char :=
  if n < 10 then Char.ofNat (48 + n) else Char.ofNat (87 + n)

/-- Verb `%x` of `fmt.Sprintf` on a byte array: two lowercase hexadecimal
digits per byte. -/
def hexEncode (bs : Bytes) : String :=
  String.mk (bs.flatMap (fun b => [hexDigit (b.toNat / 16), hexDigit (b.toNat % 16)]))

/-- Call `json.Marshal(stateData.Outputs)`: a nil map encodes as `null`. -/
def jsonMarshalOutputs (lib : Lib) : Option (List (String × JSONValue)) → String
  | none => "null"
  | some kvs => lib.jsonMarshalObject kvs

namespace StateHandler

/-- Handler `StateHandler.GetCurrentState`. -/
def GetCurrentState (s : Store) (wsID : String) : Response × Store :=
  match s.firstStateVersionBySerialDesc wsID with
  | none => (⟨StatusNotFound, .error "No state found"⟩, s)
  | some state => (⟨StatusOK, .raw "application/json" state.state⟩, s)

/-- Handler `StateHandler.HTTPBackendGet`. -/
def HTTPBackendGet (s : Store) (wsID : String) : Response × Store :=
  match s.firstStateVersionBySerialDesc wsID with
  | none => (⟨StatusNoContent, .empty⟩, s)
  | some state => (⟨StatusOK, .raw "application/json" state.state⟩, s)

/-- Handler `StateHandler.HTTPBackendPost`. `body` is the result of
`io.ReadAll(r.Body)` (`none` when it reports an error). The INSERT and the
UPDATE of `current_state_id` are two statements outside any transaction; the
handler tests the error of the first and discards that of the second, which
is taken here as executed. -/
def HTTPBackendPost (lib : Lib) (s : Store) (wsID : String) (user : Option User)
    (body : Option Bytes) (env : Env) : Response × Store :=
  match body with
  | none => (⟨StatusBadRequest, .error "Failed to read body"⟩, s)
  | some body =>
    let stateData := (lib.jsonUnmarshalState body).1
    let hash := hexEncode (lib.sha256Sum body).val
    let outputsJSON := jsonMarshalOutputs lib stateData.outputs
    let state : StateVersion :=
      { id := "", workspaceID := wsID, runID := none, serial := stateData.serial,
        lineage := stateData.lineage, state := body, stateHash := hash,
        outputs := outputsJSON, resourceCount := 0, createdAt := 0,
        createdBy := match user with
          | some u => u.id
          | none => "" }
    match s.createStateVersion state env with
    | none => (⟨StatusInternalServerError, .error "Failed to save state"⟩, s)
    | some (row, s') =>
      (⟨StatusOK, .empty⟩,
        s'.updateWorkspace wsID (fun w =>
          { w with currentStateID := some row.id, updatedAt := env.dbNow }))

/-- Handler `StateHandler.HTTPBackendLock`. -/
def HTTPBackendLock (s : Store) (wsID : String) (env : Env) : Response × Store :=
  match s.firstWorkspace wsID with
  | none => (⟨StatusNotFound, .error "Workspace not found"⟩, s)
  | some workspace =>
    if workspace.locked then
      (⟨StatusConflict, .error "Workspace is locked"⟩, s)
    else
      (⟨StatusOK, .status "locked"⟩,
        s.updateWorkspace workspace.id (fun w =>
          { w with locked := true, updatedAt := env.dbNow }))

/-- Handler `StateHandler.HTTPBackendUnlock`. -/
def HTTPBackendUnlock (s : Store) (wsID : String) (env : Env) : Response × Store :=
  (⟨StatusOK, .status "unlocked"⟩,
    s.updateWorkspace wsID (fun w => { w with locked := false, updatedAt := env.dbNow }))

end StateHandler

/-! ## handlers/workspace_handler.go -/

namespace WorkspaceHandler

/-- Handler `WorkspaceHandler.Lock`. The result is `none` when the handler
dereferences a nil user. -/
def Lock (s : Store) (wsID : String) (user : Option User) (env : Env) :
    Option (Response × Store) :=
  match s.firstWorkspace wsID with
  | none => some (⟨StatusNotFound, .error "Workspace not found"⟩, s)
  | some workspace =>
    if workspace.locked then
      some (⟨StatusConflict, .error "Workspace is already locked"⟩, s)
    else
      match user with
      | none => none
      | some user =>
        some (⟨StatusOK, .message "Workspace locked"⟩,
          s.updateWorkspace workspace.id (fun w =>
            { w with locked := true, lockedBy := some user.id, updatedAt := env.dbNow }))

/-- Handler `WorkspaceHandler.Unlock`. -/
def Unlock (s : Store) (wsID : String) (env : Env) : Response × Store :=
  (⟨StatusOK, .message "Workspace unlocked"⟩,
    s.updateWorkspace wsID (fun w =>
      { w with locked := false, lockedBy := none, lockedAt := none,
               updatedAt := env.dbNow }))

end WorkspaceHandler

/-! ## Listings, outputs and workspace update -/

namespace Store

/-- Query `db.Where("workspace_id = ?", wsID).Order("created_at DESC").Limit(50).Find(&runs)`.
Rows with equal `created_at` keep their order of insertion. -/
def listRuns (s : Store) (wsID : String) : List Run :=
  ((s.runs.filter (fun r => r.workspaceID == wsID)).insertionSort
    (fun a b => b.createdAt ≤ a.createdAt)).take 50

/-- Query `db.Select(<every column but state>).Where("workspace_id = ?", wsID).
Order("serial DESC").Limit(50).Find(&versions)`: the column `state` is not
read, so the field keeps its zero value. -/
def listStateVersions (s : Store) (wsID : String) : List StateVersion :=
  (((s.stateVersions.filter (fun v => v.workspaceID == wsID)).insertionSort
    (fun a b => b.serial ≤ a.serial)).take 50).map (fun v => { v with state := [] })

/-- Query `db.Where("workspace_id = ?", wsID).Order("key ASC").Find(&variables)`,
the collation taken as the lexicographic order of the characters. -/
def listVariables (s : Store) (wsID : String) : List Variable :=
  (s.variableRows.filter (fun v => v.workspaceID == wsID)).insertionSort
    (fun a b => ¬ (b.key.toList < a.key.toList))

end Store

namespace RunHandler

/-- Handler `RunHandler.List`. -/
def List (s : Store) (wsID : String) : Response × Store :=
  (⟨StatusOK, .runs (s.listRuns wsID)⟩, s)

end RunHandler

namespace StateHandler

/-- Handler `StateHandler.ListStateVersions`. -/
def ListStateVersions (s : Store) (wsID : String) : Response × Store :=
  (⟨StatusOK, .stateVersions (s.listStateVersions wsID)⟩, s)

/-- Handler `StateHandler.GetOutputs`. -/
def GetOutputs (lib : Lib) (s : Store) (wsID : String) : Response × Store :=
  match s.firstStateVersionBySerialDesc wsID with
  | none => (⟨StatusNotFound, .error "No state found"⟩, s)
  | some state =>
    if state.outputs == "" then
      (⟨StatusOK, .json (.object [])⟩, s)
    else
      let outputs := lib.jsonUnmarshalValue state.outputs
      (⟨StatusOK, .json outputs⟩, s)

end StateHandler

/-- Decoded body of `PUT /workspaces/{workspaceId}`: every field is a pointer,
`none` when nil. -/
structure UpdateWorkspaceRequest where
  name : Option String
  description : Option String
  terraformVersion : Option String
  workingDirectory : Option String
  autoApply : Option Bool
  vcsRepoURL : Option String
  vcsBranch : Option String
  deriving DecidableEq

/-- The zero value of `models.Workspace`. -/
def zeroWorkspace : Workspace :=
  { id := "", name := "", description := "", projectID := "", terraformVersion := "",
    workingDirectory := "", autoApply := false, executionMode := "", locked := false,
    lockedBy := none, lockedAt := none, vcsRepoURL := "", vcsBranch := "", createdAt := 0,
    updatedAt := 0, deletedAt := none, currentStateID := none }

namespace WorkspaceHandler

/-- Handler `WorkspaceHandler.Update`. `req` is the result of decoding the
body (`none` when `Decode` reports an error). The map `updates` holds the
fields that are not nil; the reload after the update leaves the zero value
when no row is found. -/
def Update (s : Store) (wsID : String) (req : Option UpdateWorkspaceRequest) (env : Env) :
    Response × Store :=
  match req with
  | none => (⟨StatusBadRequest, .error "Invalid request"⟩, s)
  | some req =>
    let s' := s.updateWorkspace wsID (fun w =>
      { w with name := req.name.getD w.name,
               description := req.description.getD w.description,
               terraformVersion := req.terraformVersion.getD w.terraformVersion,
               workingDirectory := req.workingDirectory.getD w.workingDirectory,
               autoApply := req.autoApply.getD w.autoApply,
               vcsRepoURL := req.vcsRepoURL.getD w.vcsRepoURL,
               vcsBranch := req.vcsBranch.getD w.vcsBranch,
               updatedAt := env.dbNow })
    (⟨StatusOK, .workspace ((s'.firstWorkspace wsID).getD zeroWorkspace)⟩, s')

/-- Handler `WorkspaceHandler.ListVariables`. -/
def ListVariables (s : Store) (wsID : String) : Response × Store :=
  (⟨StatusOK, .variableList ((s.listVariables wsID).map (fun v =>
      if v.sensitive then { v with value := "***SENSITIVE***" } else v))⟩, s)

end WorkspaceHandler

/-! ## Predicates of the specification -/

/-- Each workspace has at most one run whose status is pending, planning or
applying. -/
def ActiveRunInvariant (s : Store) : Prop :=
  ∀ wsID : String, s.countRuns wsID activeStatuses ≤ 1

/-! ## Sample rows -/

/-- A workspace row with the defaults of the schema. -/
def sampleWorkspace (id : String) (locked : Bool) : Workspace :=
  { id := id, name := "ws", description := "", projectID := "p1",
    terraformVersion := "latest", workingDirectory := ".", autoApply := false,
    executionMode := "local", locked := locked, lockedBy := none, lockedAt := none,
    vcsRepoURL := "", vcsBranch := "main", createdAt := 1, updatedAt := 1,
    deletedAt := none, currentStateID := none }

/-- A run row of a workspace in a given status. -/
def sampleRun (id wsID : String) (status : RunStatus) : Run :=
  { id := id, workspaceID := wsID, status := status, operation := RunOperationPlan,
    message := "", isDestroy := false, autoApply := false, terraformVersion := "latest",
    createdBy := "u1", planLog := "", planJSON := "", applyLog := "",
    resourcesAdded := 0, resourcesChanged := 0, resourcesDeleted := 0,
    startedAt := none, planCompletedAt := none, appliedAt := none,
    completedAt := none, createdAt := 2, updatedAt := 2 }

/-- Clock readings 10 and 11, fresh key `"new"`, INSERT accepted. -/
def sampleEnv : Env := { now := 10, dbNow := 11, newId := "new", insertOk := true }

/-- A later request: clock readings 20 and 21, fresh key `"new2"`. -/
def sampleEnvLater : Env := { now := 20, dbNow := 21, newId := "new2", insertOk := true }

/-- A plan request without a message. -/
def sampleRequest : CreateRunRequest := { operation := RunOperationPlan, message := "", autoApply := false }

/-- The body `{"serial":1,"lineage":"L1","outputs":{"ip":"1.2.3.4"}}`. -/
def bodySerialOne : Bytes :=
  [123, 34, 115, 101, 114, 105, 97, 108, 34, 58, 49, 44, 34, 108, 105, 110, 101, 97, 103,
   101, 34, 58, 34, 76, 49, 34, 44, 34, 111, 117, 116, 112, 117, 116, 115, 34, 58, 123, 34,
   105, 112, 34, 58, 34, 49, 46, 50, 46, 51, 46, 52, 34, 125, 125]

/-- The body `{"serial":"x","lineage":"L1"}`, whose serial is a string. -/
def bodySerialIsString : Bytes :=
  [123, 34, 115, 101, 114, 105, 97, 108, 34, 58, 34, 120, 34, 44, 34, 108, 105, 110, 101,
   97, 103, 101, 34, 58, 34, 76, 49, 34, 125]

/-- The body `{"serial":9223372036854775808,"lineage":"L1","outputs":{"ip":"1.2.3.4"}}`,
whose serial is 2^63, one above the greatest Go `int`. -/
def bodySerialOverflow : Bytes :=
  [123, 34, 115, 101, 114, 105, 97, 108, 34, 58, 57, 50, 50, 51, 51, 55, 50, 48, 51, 54, 56,
   53, 52, 55, 55, 53, 56, 48, 56, 44, 34, 108, 105, 110, 101, 97, 103, 101, 34, 58, 34, 76,
   49, 34, 44, 34, 111, 117, 116, 112, 117, 116, 115, 34, 58, 123, 34, 105, 112, 34, 58, 34,
   49, 46, 50, 46, 51, 46, 52, 34, 125, 125]

/-- The SHA-256 digest of the three bytes `[1, 2, 3]`. -/
def digestOneTwoThree : Digest :=
  ⟨[3, 144, 88, 198, 242, 192, 203, 73, 44, 83, 59, 10, 77, 20, 239, 119, 204, 15, 120, 171,
    204, 206, 213, 40, 125, 132, 161, 162, 1, 28, 251, 129], rfl⟩

/-- The library on the sample bodies. `json.Unmarshal` decodes `bodySerialOne`
without error; on `bodySerialIsString` it reports a type error for `serial`,
skips that field and still decodes `lineage`; on `bodySerialOverflow` the
number does not fit `int`, so it reports an error for `serial`, leaves that
field at 0 and still decodes `lineage` and `outputs`; every other body used
here is not valid JSON, for which it reports an error and leaves `stateData`
as it was. Decoding into `interface{}` gives the object for the two object
texts used here and nil for the text `null`. The digest of `[1, 2, 3]` is its
SHA-256 digest; for the other bodies it is a fixed array. -/
def sampleLib : Lib :=
  { jsonUnmarshalState := fun b =>
      if b = bodySerialOne then
        ({ serial := 1, lineage := "L1", outputs := some [("ip", .string "1.2.3.4")] }, false)
      else if b = bodySerialIsString then
        ({ serial := 0, lineage := "L1", outputs := none }, true)
      else if b = bodySerialOverflow then
        ({ serial := 0, lineage := "L1", outputs := some [("ip", .string "1.2.3.4")] }, true)
      else ({ serial := 0, lineage := "", outputs := none }, true),
    sha256Sum := fun b =>
      if b = [1, 2, 3] then digestOneTwoThree else ⟨List.replicate 32 0, rfl⟩,
    jsonMarshalObject := fun kvs =>
      match kvs with
      | [("ip", .string "1.2.3.4")] => "\x7b\"ip\":\"1.2.3.4\"\x7d"
      | _ => "\x7b\x7d",
    jsonUnmarshalValue := fun text =>
      if text = "\x7b\"ip\":\"1.2.3.4\"\x7d" then .object [("ip", .string "1.2.3.4")]
      else if text = "\x7b\x7d" then .object []
      else .null }

/-- A state version row of a workspace with a given serial and blob. -/
def sampleStateVersion (id wsID : String) (serial : Int) (blob : Bytes) : StateVersion :=
  { id := id, workspaceID := wsID, runID := none, serial := serial, lineage := "L1",
    state := blob, stateHash := "", outputs := "null", resourceCount := 0, createdAt := 3,
    createdBy := "u1" }

/-- One unlocked workspace `"W"` whose only state version `"v5"` has serial 5
and blob `[9]`. -/
def storeSerialFive : Store :=
  { workspaces := [{ sampleWorkspace "W" false with currentStateID := some "v5" }],
    runs := [], stateVersions := [sampleStateVersion "v5" "W" 5 [9]], variableRows := [] }

/-- Predicate of the data model: `locked = false` implies that `lockedBy` and
`lockedAt` are absent. -/
def LockFieldsConsistent (w : Workspace) : Prop :=
  w.locked = false → w.lockedBy = none ∧ w.lockedAt = none

/-- Every workspace row satisfies `LockFieldsConsistent`. -/
def LockFieldInvariant (s : Store) : Prop :=
  ∀ w ∈ s.workspaces, LockFieldsConsistent w

/-- Serials stored for a workspace and a lineage, in the order of insertion. -/
def serialsOf (s : Store) (wsID lineage : String) : List Int :=
  (s.stateVersions.filter (fun v => v.workspaceID == wsID && v.lineage == lineage)).map
    (fun v => v.serial)

/-- A workspace row with the mapper's `updated_at` set aside. -/
def withoutUpdatedAt (w : Workspace) : Workspace := { w with updatedAt := 0 }

/-- A store with the `updated_at` of every workspace row set aside. -/
def eraseUpdatedAt (s : Store) : Store :=
  { s with workspaces := s.workspaces.map withoutUpdatedAt }

/-- One unlocked workspace `"W"` whose run `"A"` awaits confirmation and
whose run `"B"` is pending. -/
def storeAwaitingAndPending : Store :=
  { workspaces := [sampleWorkspace "W" false],
    runs := [sampleRun "A" "W" RunStatusNeedsConfirm, sampleRun "B" "W" RunStatusPending],
    stateVersions := [], variableRows := [] }

/-- One locked workspace `"W"` without runs or state. -/
def storeLocked : Store :=
  { workspaces := [sampleWorkspace "W" true], runs := [], stateVersions := [],
    variableRows := [] }

/-- One unlocked workspace `"W"` without runs or state. -/
def storeUnlocked : Store :=
  { workspaces := [sampleWorkspace "W" false], runs := [], stateVersions := [],
    variableRows := [] }

/-- One unlocked workspace `"W"` with a single run `"A"` in a given status. -/
def storeOneRun (status : RunStatus) : Store :=
  { workspaces := [sampleWorkspace "W" false], runs := [sampleRun "A" "W" status],
    stateVersions := [], variableRows := [] }


/-! ## Predicates and samples for runs, outputs and variables -/

/-- Statuses the specification calls terminal. -/
def terminalStatuses : List RunStatus :=
  [RunStatusApplied, RunStatusErrored, RunStatusCancelled, RunStatusDiscarded,
   RunStatusPlanOnly]

/-- A run has `completedAt` exactly when its status is terminal. -/
def CompletionStamped (r : Run) : Prop :=
  r.completedAt.isSome = true ↔ r.status ∈ terminalStatuses

/-- Every run row satisfies `CompletionStamped`. -/
def CompletionStampInvariant (s : Store) : Prop :=
  ∀ r ∈ s.runs, CompletionStamped r

/-- The primary key of the Run table: no two rows share an id. -/
def RunIdsUnique (s : Store) : Prop :=
  (s.runs.map (fun r => r.id)).Nodup

/-- A request to one of the four run handlers that write. -/
inductive RunRequest where
  | create (wsID : String) (user : Option User) (req : Option CreateRunRequest) (env : Env)
  | approve (runID : String) (env : Env)
  | cancel (runID : String) (env : Env)
  | discard (runID : String) (env : Env)

/-- The store after a run request; a handler that stops on a nil user leaves
the store as it was. -/
def applyRunRequest (s : Store) : RunRequest → Store
  | .create wsID user req env =>
    match RunHandler.Create s wsID user req env with
    | some (_, s') => s'
    | none => s
  | .approve runID env => (RunHandler.Approve s runID env).2
  | .cancel runID env => (RunHandler.Cancel s runID env).2
  | .discard runID env => (RunHandler.Discard s runID env).2

/-- The store after a sequence of run requests. -/
def applyRunRequests (s : Store) (reqs : List RunRequest) : Store :=
  reqs.foldl applyRunRequest s

/-- A variable row with the stored value of a sensitive variable set aside. -/
def withoutSensitiveValue (v : Variable) : Variable :=
  if v.sensitive then { v with value := "" } else v

/-- A variable row of workspace `"W"`. -/
def sampleVariable (id key value : String) (sensitive : Bool) : Variable :=
  { id := id, workspaceID := "W", key := key, value := value, description := "",
    category := "terraform", hcl := false, sensitive := sensitive, createdAt := 4,
    updatedAt := 4 }

/-- Workspace `"W"` with the variable `region` in clear and the sensitive
variable `token` holding a given stored value. -/
def storeWithVariables (secret : String) : Store :=
  { workspaces := [sampleWorkspace "W" false], runs := [], stateVersions := [],
    variableRows := [sampleVariable "x2" "token" secret true,
      sampleVariable "x1" "region" "eu" false] }

/-- A create request without an operation. -/
def requestWithoutOperation : CreateRunRequest :=
  { operation := "", message := "", autoApply := false }

/-- An update request that sets `auto_apply` to true and nothing else. -/
def requestAutoApplyOn : UpdateWorkspaceRequest :=
  { name := none, description := none, terraformVersion := none, workingDirectory := none,
    autoApply := some true, vcsRepoURL := none, vcsBranch := none }

/-- A store without any workspace, run or state version. -/
def storeEmpty : Store :=
  { workspaces := [], runs := [], stateVersions := [], variableRows := [] }

/-- Workspace `"W"` with run `"old"` created at 2 and run `"recent"` created
at 7, and a run of workspace `"V"`. -/
def storeTwoRuns : Store :=
  { workspaces := [sampleWorkspace "W" false],
    runs := [sampleRun "old" "W" RunStatusApplied,
      { sampleRun "recent" "W" RunStatusPending with createdAt := 7 },
      sampleRun "other" "V" RunStatusPending],
    stateVersions := [], variableRows := [] }

/-- Workspace `"W"` with state versions of serial 1 and 2 and one of
workspace `"V"`. -/
def storeTwoVersions : Store :=
  { workspaces := [sampleWorkspace "W" false], runs := [],
    stateVersions := [sampleStateVersion "a" "W" 1 [7], sampleStateVersion "b" "W" 2 [8],
      sampleStateVersion "c" "V" 9 [9]],
    variableRows := [] }

/-- The sixteen lowercase hexadecimal digits, in the order of their values. -/
def hexAlphabet : List Char :=
  ['0', '1', '2', '3', '4', '5', '6', '7', '8', '9', 'a', 'b', 'c', 'd', 'e', 'f']

/-- Lowercase hexadecimal encoding as the specification words it: each byte
gives two characters of `hexAlphabet`, the one numbered by its high four bits
and then the one numbered by its low four bits. -/
def lowercaseHex : Bytes → List Char
  | [] => []
  | b :: bs =>
    hexAlphabet.getD (b.toNat / 16) '?' :: hexAlphabet.getD (b.toNat % 16) '?' ::
      lowercaseHex bs

/-- Value of a lowercase hexadecimal digit; `none` for any other character. -/
def hexValue (c : Char) : Option Nat :=
  if hexAlphabet.indexOf c < 16 then some (hexAlphabet.indexOf c) else none

/-- Decoding of a lowercase hexadecimal text into bytes; `none` when the text
has an odd length or a character that is not a lowercase hexadecimal digit. -/
def hexDecode : List Char → Option (List Nat)
  | [] => some []
  | [_] => none
  | hi :: lo :: rest =>
    match hexValue hi, hexValue lo, hexDecode rest with
    | some h, some l, some bs => some ((16 * h + l) :: bs)
    | _, _, _ => none

/-! ## Store lemmas -/

theorem countRuns_eq_zero_iff (s : Store) (wsID : String) (statuses : List RunStatus) :
    s.countRuns wsID statuses = 0 ↔
      ∀ r ∈ s.runs, r.workspaceID = wsID → r.status ∉ statuses := by
  unfold Store.countRuns
  rw [List.length_eq_zero, List.filter_eq_nil_iff]
  constructor
  · intro h r hr hw hs
    exact h r hr (by simp [hw, hs])
  · intro h r hr
    have := h r hr
    simpa using this

theorem countRuns_pos_iff (s : Store) (wsID : String) (statuses : List RunStatus) :
    0 < s.countRuns wsID statuses ↔
      ∃ r ∈ s.runs, r.workspaceID = wsID ∧ r.status ∈ statuses := by
  rw [Nat.pos_iff_ne_zero, Ne, countRuns_eq_zero_iff]
  push_neg
  rfl

theorem createRun_eq_some (s : Store) (run : Run) (env : Env)
    (hok : env.insertOk = true) (hfresh : ∀ r ∈ s.runs, r.id ≠ env.newId) :
    s.createRun run env =
      some ({ run with id := env.newId, createdAt := env.dbNow, updatedAt := env.dbNow },
        { s with runs := s.runs ++
            [{ run with id := env.newId, createdAt := env.dbNow, updatedAt := env.dbNow }] }) := by
  have hany : s.runs.any (fun r => r.id == env.newId) = false := by
    rw [List.any_eq_false]
    intro r hr
    simpa using hfresh r hr
  simp [Store.createRun, hok, hany]

/-! ## RunHandler.Create -/

/-- C2: on an existing workspace with `locked = true` and a decodable body,
`RunHandler.Create` answers 409 Conflict and returns the store it was given,
so the Run rows are the same, whatever runs exist and whoever asks. -/
theorem create_locked_conflict (s : Store) (wsID : String) (user : Option User)
    (req : CreateRunRequest) (env : Env) (w : Workspace)
    (hw : s.firstWorkspace wsID = some w) (hl : w.locked = true) :
    ∃ resp s', RunHandler.Create s wsID user (some req) env = some (resp, s') ∧
      resp.code = 409 ∧ resp.body = .error "Workspace is locked" ∧
      s'.runs = s.runs ∧ s' = s := by
  refine ⟨⟨409, .error "Workspace is locked"⟩, s, ?_, rfl, rfl, rfl, rfl⟩
  simp [RunHandler.Create, hw, hl, StatusConflict]

theorem create_locked_conflict_witness :
    storeLocked.firstWorkspace "W" = some (sampleWorkspace "W" true) ∧
    (sampleWorkspace "W" true).locked = true ∧
    ∃ resp s', RunHandler.Create storeLocked "W" (some ⟨"u1"⟩) (some sampleRequest) sampleEnv
        = some (resp, s') ∧
      resp.code = 409 ∧ resp.body = .error "Workspace is locked" ∧
      s'.runs = storeLocked.runs ∧ s' = storeLocked :=
  ⟨by decide, by decide,
    create_locked_conflict storeLocked "W" (some ⟨"u1"⟩) sampleRequest sampleEnv
      (sampleWorkspace "W" true) (by decide) (by decide)⟩

/-- C3: on an existing unlocked workspace that has a run in pending, planning
or applying, `RunHandler.Create` answers 409 with the message "Workspace
already has an active run", inserts nothing, and that message is not the one
of the locked case ("Workspace is locked"). -/
theorem create_active_run_conflict (s : Store) (wsID : String) (user : Option User)
    (req : CreateRunRequest) (env : Env) (w : Workspace) (r : Run)
    (hw : s.firstWorkspace wsID = some w) (hl : w.locked = false)
    (hr : r ∈ s.runs) (hrw : r.workspaceID = wsID)
    (hrs : r.status = RunStatusPending ∨ r.status = RunStatusPlanning ∨
      r.status = RunStatusApplying) :
    ∃ resp s', RunHandler.Create s wsID user (some req) env = some (resp, s') ∧
      resp.code = 409 ∧ resp.body = .error "Workspace already has an active run" ∧
      resp.body ≠ .error "Workspace is locked" ∧
      s'.runs = s.runs ∧ s' = s := by
  have hpos : 0 < s.countRuns wsID activeStatuses := by
    rw [countRuns_pos_iff]
    refine ⟨r, hr, hrw, ?_⟩
    rcases hrs with h | h | h <;> simp [activeStatuses, h]
  refine ⟨⟨409, .error "Workspace already has an active run"⟩, s, ?_, rfl, rfl, by decide,
    rfl, rfl⟩
  simp [RunHandler.Create, hw, hl, hpos, StatusConflict]

theorem create_active_run_conflict_witness :
    (storeOneRun RunStatusPlanning).firstWorkspace "W" = some (sampleWorkspace "W" false) ∧
    sampleRun "A" "W" RunStatusPlanning ∈ (storeOneRun RunStatusPlanning).runs ∧
    ∃ resp s', RunHandler.Create (storeOneRun RunStatusPlanning) "W" (some ⟨"u1"⟩)
        (some sampleRequest) sampleEnv = some (resp, s') ∧
      resp.code = 409 ∧ resp.body = .error "Workspace already has an active run" ∧
      resp.body ≠ .error "Workspace is locked" ∧
      s'.runs = (storeOneRun RunStatusPlanning).runs ∧ s' = storeOneRun RunStatusPlanning :=
  ⟨by decide, by decide,
    create_active_run_conflict (storeOneRun RunStatusPlanning) "W" (some ⟨"u1"⟩) sampleRequest
      sampleEnv (sampleWorkspace "W" false) (sampleRun "A" "W" RunStatusPlanning)
      (by decide) (by decide) (by decide) (by decide) (by decide)⟩

/-- C4: on an existing unlocked workspace without a pending, planning or
applying run, for a decodable body and an authenticated user, when the store
accepts the insert, `RunHandler.Create` answers 201 and the Run table is the
old one followed by exactly one new row, which belongs to the target
workspace and is pending; the other tables are untouched. -/
theorem create_success (s : Store) (wsID : String) (user : User)
    (req : CreateRunRequest) (env : Env) (w : Workspace)
    (hw : s.firstWorkspace wsID = some w) (hl : w.locked = false)
    (hnone : ∀ r ∈ s.runs, r.workspaceID = wsID →
      r.status ≠ RunStatusPending ∧ r.status ≠ RunStatusPlanning ∧
      r.status ≠ RunStatusApplying)
    (hok : env.insertOk = true) (hfresh : ∀ r ∈ s.runs, r.id ≠ env.newId) :
    ∃ row s', RunHandler.Create s wsID (some user) (some req) env =
        some (⟨201, .run row⟩, s') ∧
      s'.runs = s.runs ++ [row] ∧
      row.workspaceID = wsID ∧ row.status = RunStatusPending ∧ row.id = env.newId ∧
      s'.workspaces = s.workspaces ∧ s'.stateVersions = s.stateVersions ∧
      s'.variableRows = s.variableRows := by
  have hzero : s.countRuns wsID activeStatuses = 0 := by
    rw [countRuns_eq_zero_iff]
    intro r hr hrw hmem
    obtain ⟨h1, h2, h3⟩ := hnone r hr hrw
    simp [activeStatuses] at hmem
    rcases hmem with h | h | h
    · exact h1 h
    · exact h2 h
    · exact h3 h
  simp only [RunHandler.Create, hw, hl, hzero]
  rw [createRun_eq_some s _ env hok hfresh]
  exact ⟨_, _, rfl, rfl, rfl, rfl, rfl, rfl, rfl, rfl⟩

theorem create_success_witness :
    storeUnlocked.firstWorkspace "W" = some (sampleWorkspace "W" false) ∧
    ∃ row s', RunHandler.Create storeUnlocked "W" (some ⟨"u1"⟩) (some sampleRequest) sampleEnv =
        some (⟨201, .run row⟩, s') ∧
      s'.runs = storeUnlocked.runs ++ [row] ∧
      row.workspaceID = "W" ∧ row.status = RunStatusPending ∧ row.id = sampleEnv.newId ∧
      s'.workspaces = storeUnlocked.workspaces ∧
      s'.stateVersions = storeUnlocked.stateVersions ∧
      s'.variableRows = storeUnlocked.variableRows :=
  ⟨by decide,
    create_success storeUnlocked "W" ⟨"u1"⟩ sampleRequest sampleEnv (sampleWorkspace "W" false)
      (by decide) (by decide) (by decide) (by decide) (by decide)⟩


/-! ## RunHandler.Approve, Cancel and Discard -/

theorem firstRun_id_eq (s : Store) (runID : String) (r : Run)
    (hr : s.firstRun runID = some r) : r.id = runID := by
  have h := List.find?_some hr
  simpa using h

theorem firstRun_updateRun_self (s : Store) (runID : String) (r : Run) (f : Run → Run)
    (hr : s.firstRun runID = some r) (hf : ∀ x, (f x).id = x.id) :
    (s.updateRun r.id f).firstRun runID = some (f r) := by
  have hid : r.id = runID := firstRun_id_eq s runID r hr
  unfold Store.firstRun at hr
  simp only [Store.firstRun, Store.updateRun, List.find?_map]
  have hcomp : ((fun x : Run => x.id == runID) ∘ fun x : Run => if (x.id == r.id) = true then f x else x)
      = fun x : Run => x.id == runID := by
    funext x
    by_cases hx : x.id = r.id <;> simp [hx, hf]
  rw [hcomp, hr]
  simp

theorem approve_accepts (s : Store) (runID : String) (env : Env) (r : Run)
    (hr : s.firstRun runID = some r) (hs : r.status = RunStatusNeedsConfirm) :
    (RunHandler.Approve s runID env).1.code = 200 ∧
    (RunHandler.Approve s runID env).2.firstRun runID =
      some { r with status := RunStatusApplying, updatedAt := env.dbNow } := by
  have hupd := firstRun_updateRun_self s runID r
    (fun x => { x with status := RunStatusApplying, updatedAt := env.dbNow }) hr
    (fun _ => rfl)
  simp only [RunHandler.Approve, hr, hs, bne_self_eq_false, Bool.false_eq_true, if_false]
  exact ⟨rfl, hupd⟩

theorem approve_rejects (s : Store) (runID : String) (env : Env) (r : Run)
    (hr : s.firstRun runID = some r) (hs : r.status ≠ RunStatusNeedsConfirm) :
    RunHandler.Approve s runID env =
      (⟨400, .error "Run is not awaiting confirmation"⟩, s) := by
  have hb : (r.status != RunStatusNeedsConfirm) = true := by simpa using hs
  simp only [RunHandler.Approve, hr, hb, if_true, StatusBadRequest]

theorem cancel_accepts (s : Store) (runID : String) (env : Env) (r : Run)
    (hr : s.firstRun runID = some r)
    (hs : r.status = RunStatusPending ∨ r.status = RunStatusPlanning) :
    (RunHandler.Cancel s runID env).1.code = 200 ∧
    (RunHandler.Cancel s runID env).2.firstRun runID =
      some { r with status := RunStatusCancelled, completedAt := some env.now,
                    updatedAt := env.dbNow } := by
  have hupd := firstRun_updateRun_self s runID r
    (fun x => { x with status := RunStatusCancelled, completedAt := some env.now,
                       updatedAt := env.dbNow }) hr (fun _ => rfl)
  have hb : (r.status != RunStatusPending && r.status != RunStatusPlanning) = false := by
    rcases hs with h | h <;> simp [h]
  simp only [RunHandler.Cancel, hr, hb, Bool.false_eq_true, if_false]
  exact ⟨rfl, hupd⟩

theorem cancel_rejects (s : Store) (runID : String) (env : Env) (r : Run)
    (hr : s.firstRun runID = some r)
    (hs : ¬ (r.status = RunStatusPending ∨ r.status = RunStatusPlanning)) :
    RunHandler.Cancel s runID env =
      (⟨400, .error "Run cannot be cancelled in current state"⟩, s) := by
  have hb : (r.status != RunStatusPending && r.status != RunStatusPlanning) = true := by
    simpa [not_or] using hs
  simp only [RunHandler.Cancel, hr, hb, if_true, StatusBadRequest]

theorem discard_accepts (s : Store) (runID : String) (env : Env) (r : Run)
    (hr : s.firstRun runID = some r)
    (hs : r.status = RunStatusNeedsConfirm ∨ r.status = RunStatusPlanned) :
    (RunHandler.Discard s runID env).1.code = 200 ∧
    (RunHandler.Discard s runID env).2.firstRun runID =
      some { r with status := RunStatusDiscarded, completedAt := some env.now,
                    updatedAt := env.dbNow } := by
  have hupd := firstRun_updateRun_self s runID r
    (fun x => { x with status := RunStatusDiscarded, completedAt := some env.now,
                       updatedAt := env.dbNow }) hr (fun _ => rfl)
  have hb : (r.status != RunStatusNeedsConfirm && r.status != RunStatusPlanned) = false := by
    rcases hs with h | h <;> simp [h]
  simp only [RunHandler.Discard, hr, hb, Bool.false_eq_true, if_false]
  exact ⟨rfl, hupd⟩

theorem discard_rejects (s : Store) (runID : String) (env : Env) (r : Run)
    (hr : s.firstRun runID = some r)
    (hs : ¬ (r.status = RunStatusNeedsConfirm ∨ r.status = RunStatusPlanned)) :
    RunHandler.Discard s runID env =
      (⟨400, .error "Run cannot be discarded in current state"⟩, s) := by
  have hb : (r.status != RunStatusNeedsConfirm && r.status != RunStatusPlanned) = true := by
    simpa [not_or] using hs
  simp only [RunHandler.Discard, hr, hb, if_true, StatusBadRequest]

/-- C5: for an existing run `r`, `RunHandler.Approve` answers 200 and leaves
`r` with status applying exactly when `r` was in needs_confirmation; from any
other status it answers 400 and returns the store it was given. -/
theorem approve_only_from_needs_confirmation (s : Store) (runID : String) (env : Env)
    (r : Run) (hr : s.firstRun runID = some r) :
    (r.status = RunStatusNeedsConfirm →
      (RunHandler.Approve s runID env).1.code = 200 ∧
      (RunHandler.Approve s runID env).2.firstRun runID =
        some { r with status := RunStatusApplying, updatedAt := env.dbNow }) ∧
    (r.status ≠ RunStatusNeedsConfirm →
      (RunHandler.Approve s runID env).1.code = 400 ∧
      (RunHandler.Approve s runID env).2 = s ∧
      (RunHandler.Approve s runID env).2.firstRun runID = some r) ∧
    (((RunHandler.Approve s runID env).1.code = 200 ∧
        ((RunHandler.Approve s runID env).2.firstRun runID).map (fun x => x.status) =
          some RunStatusApplying) ↔
      r.status = RunStatusNeedsConfirm) := by
  have hyes := approve_accepts s runID env r hr
  have hno : r.status ≠ RunStatusNeedsConfirm →
      (RunHandler.Approve s runID env).1.code = 400 ∧
      (RunHandler.Approve s runID env).2 = s ∧
      (RunHandler.Approve s runID env).2.firstRun runID = some r := by
    intro hs
    rw [approve_rejects s runID env r hr hs]
    exact ⟨rfl, rfl, hr⟩
  refine ⟨hyes, hno, ?_⟩
  constructor
  · intro h
    by_contra hs
    have := (hno hs).1
    omega
  · intro hs
    obtain ⟨h1, h2⟩ := hyes hs
    exact ⟨h1, by rw [h2]; rfl⟩

theorem approve_only_from_needs_confirmation_witness :
    ((RunHandler.Approve (storeOneRun RunStatusNeedsConfirm) "A" sampleEnv).1.code = 200 ∧
      (RunHandler.Approve (storeOneRun RunStatusNeedsConfirm) "A" sampleEnv).2.firstRun "A" =
        some { sampleRun "A" "W" RunStatusNeedsConfirm with
          status := RunStatusApplying, updatedAt := sampleEnv.dbNow }) ∧
    ((RunHandler.Approve (storeOneRun RunStatusPlanned) "A" sampleEnv).1.code = 400 ∧
      (RunHandler.Approve (storeOneRun RunStatusPlanned) "A" sampleEnv).2 =
        storeOneRun RunStatusPlanned ∧
      (RunHandler.Approve (storeOneRun RunStatusPlanned) "A" sampleEnv).2.firstRun "A" =
        some (sampleRun "A" "W" RunStatusPlanned)) :=
  ⟨(approve_only_from_needs_confirmation (storeOneRun RunStatusNeedsConfirm) "A" sampleEnv
      (sampleRun "A" "W" RunStatusNeedsConfirm) (by decide)).1 (by decide),
    (approve_only_from_needs_confirmation (storeOneRun RunStatusPlanned) "A" sampleEnv
      (sampleRun "A" "W" RunStatusPlanned) (by decide)).2.1 (by decide)⟩

/-- C6: for an existing run `r`, `RunHandler.Cancel` answers 200 and leaves
`r` with status cancelled exactly when `r` was pending or planning; from any
other status (the other eight among them) it answers 400 and returns the
store it was given. -/
theorem cancel_only_from_pending_or_planning (s : Store) (runID : String) (env : Env)
    (r : Run) (hr : s.firstRun runID = some r) :
    (r.status = RunStatusPending ∨ r.status = RunStatusPlanning →
      (RunHandler.Cancel s runID env).1.code = 200 ∧
      (RunHandler.Cancel s runID env).2.firstRun runID =
        some { r with status := RunStatusCancelled, completedAt := some env.now,
                      updatedAt := env.dbNow }) ∧
    (¬ (r.status = RunStatusPending ∨ r.status = RunStatusPlanning) →
      (RunHandler.Cancel s runID env).1.code = 400 ∧
      (RunHandler.Cancel s runID env).2 = s ∧
      (RunHandler.Cancel s runID env).2.firstRun runID = some r) ∧
    (((RunHandler.Cancel s runID env).1.code = 200 ∧
        ((RunHandler.Cancel s runID env).2.firstRun runID).map (fun x => x.status) =
          some RunStatusCancelled) ↔
      (r.status = RunStatusPending ∨ r.status = RunStatusPlanning)) ∧
    (r.status ∈ [RunStatusPlanned, RunStatusNeedsConfirm, RunStatusApplying,
        RunStatusApplied, RunStatusErrored, RunStatusCancelled, RunStatusDiscarded,
        RunStatusPlanOnly] →
      (RunHandler.Cancel s runID env).1.code = 400 ∧
      (RunHandler.Cancel s runID env).2 = s) := by
  have hyes := cancel_accepts s runID env r hr
  have hno : ¬ (r.status = RunStatusPending ∨ r.status = RunStatusPlanning) →
      (RunHandler.Cancel s runID env).1.code = 400 ∧
      (RunHandler.Cancel s runID env).2 = s ∧
      (RunHandler.Cancel s runID env).2.firstRun runID = some r := by
    intro hs
    rw [cancel_rejects s runID env r hr hs]
    exact ⟨rfl, rfl, hr⟩
  refine ⟨hyes, hno, ?_, ?_⟩
  · constructor
    · intro h
      by_contra hs
      have := (hno hs).1
      omega
    · intro hs
      obtain ⟨h1, h2⟩ := hyes hs
      exact ⟨h1, by rw [h2]; rfl⟩
  · intro hmem
    have hs : ¬ (r.status = RunStatusPending ∨ r.status = RunStatusPlanning) := by
      intro h
      rcases h with h | h <;> rw [h] at hmem <;> revert hmem <;> decide
    exact ⟨(hno hs).1, (hno hs).2.1⟩

theorem cancel_only_from_pending_or_planning_witness :
    ((RunHandler.Cancel (storeOneRun RunStatusPlanning) "A" sampleEnv).1.code = 200 ∧
      (RunHandler.Cancel (storeOneRun RunStatusPlanning) "A" sampleEnv).2.firstRun "A" =
        some { sampleRun "A" "W" RunStatusPlanning with
          status := RunStatusCancelled, completedAt := some sampleEnv.now,
          updatedAt := sampleEnv.dbNow }) ∧
    ((RunHandler.Cancel (storeOneRun RunStatusApplying) "A" sampleEnv).1.code = 400 ∧
      (RunHandler.Cancel (storeOneRun RunStatusApplying) "A" sampleEnv).2 =
        storeOneRun RunStatusApplying) :=
  ⟨(cancel_only_from_pending_or_planning (storeOneRun RunStatusPlanning) "A" sampleEnv
      (sampleRun "A" "W" RunStatusPlanning) (by decide)).1 (by decide),
    (cancel_only_from_pending_or_planning (storeOneRun RunStatusApplying) "A" sampleEnv
      (sampleRun "A" "W" RunStatusApplying) (by decide)).2.2.2 (by decide)⟩


/-- C7: for an existing run `r`, `RunHandler.Discard` answers 200 and leaves
`r` with status discarded exactly when `r` was in needs_confirmation or
planned; from any other status (the other eight among them) it answers 400
and returns the store it was given. -/
theorem discard_only_from_needs_confirmation_or_planned (s : Store) (runID : String)
    (env : Env) (r : Run) (hr : s.firstRun runID = some r) :
    (r.status = RunStatusNeedsConfirm ∨ r.status = RunStatusPlanned →
      (RunHandler.Discard s runID env).1.code = 200 ∧
      (RunHandler.Discard s runID env).2.firstRun runID =
        some { r with status := RunStatusDiscarded, completedAt := some env.now,
                      updatedAt := env.dbNow }) ∧
    (¬ (r.status = RunStatusNeedsConfirm ∨ r.status = RunStatusPlanned) →
      (RunHandler.Discard s runID env).1.code = 400 ∧
      (RunHandler.Discard s runID env).2 = s ∧
      (RunHandler.Discard s runID env).2.firstRun runID = some r) ∧
    (((RunHandler.Discard s runID env).1.code = 200 ∧
        ((RunHandler.Discard s runID env).2.firstRun runID).map (fun x => x.status) =
          some RunStatusDiscarded) ↔
      (r.status = RunStatusNeedsConfirm ∨ r.status = RunStatusPlanned)) ∧
    (r.status ∈ [RunStatusPending, RunStatusPlanning, RunStatusApplying,
        RunStatusApplied, RunStatusErrored, RunStatusCancelled, RunStatusDiscarded,
        RunStatusPlanOnly] →
      (RunHandler.Discard s runID env).1.code = 400 ∧
      (RunHandler.Discard s runID env).2 = s) := by
  have hyes := discard_accepts s runID env r hr
  have hno : ¬ (r.status = RunStatusNeedsConfirm ∨ r.status = RunStatusPlanned) →
      (RunHandler.Discard s runID env).1.code = 400 ∧
      (RunHandler.Discard s runID env).2 = s ∧
      (RunHandler.Discard s runID env).2.firstRun runID = some r := by
    intro hs
    rw [discard_rejects s runID env r hr hs]
    exact ⟨rfl, rfl, hr⟩
  refine ⟨hyes, hno, ?_, ?_⟩
  · constructor
    · intro h
      by_contra hs
      have := (hno hs).1
      omega
    · intro hs
      obtain ⟨h1, h2⟩ := hyes hs
      exact ⟨h1, by rw [h2]; rfl⟩
  · intro hmem
    have hs : ¬ (r.status = RunStatusNeedsConfirm ∨ r.status = RunStatusPlanned) := by
      intro h
      rcases h with h | h <;> rw [h] at hmem <;> revert hmem <;> decide
    exact ⟨(hno hs).1, (hno hs).2.1⟩

theorem discard_only_from_needs_confirmation_or_planned_witness :
    ((RunHandler.Discard (storeOneRun RunStatusPlanned) "A" sampleEnv).1.code = 200 ∧
      (RunHandler.Discard (storeOneRun RunStatusPlanned) "A" sampleEnv).2.firstRun "A" =
        some { sampleRun "A" "W" RunStatusPlanned with
          status := RunStatusDiscarded, completedAt := some sampleEnv.now,
          updatedAt := sampleEnv.dbNow }) ∧
    ((RunHandler.Discard (storeOneRun RunStatusPending) "A" sampleEnv).1.code = 400 ∧
      (RunHandler.Discard (storeOneRun RunStatusPending) "A" sampleEnv).2 =
        storeOneRun RunStatusPending) :=
  ⟨(discard_only_from_needs_confirmation_or_planned (storeOneRun RunStatusPlanned) "A"
      sampleEnv (sampleRun "A" "W" RunStatusPlanned) (by decide)).1 (by decide),
    (discard_only_from_needs_confirmation_or_planned (storeOneRun RunStatusPending) "A"
      sampleEnv (sampleRun "A" "W" RunStatusPending) (by decide)).2.2.2 (by decide)⟩

/-- C8: the two handlers that move a run into a terminal status stamp
`completedAt`: whenever `RunHandler.Cancel` answers 200 the run is cancelled
and its `completedAt` is the time of the request, and whenever
`RunHandler.Discard` answers 200 the run is discarded and its `completedAt`
is the time of the request. -/
theorem terminal_transition_stamps_completedAt (s : Store) (runID : String) (env : Env) :
    ((RunHandler.Cancel s runID env).1.code = 200 →
      ∃ r, (RunHandler.Cancel s runID env).2.firstRun runID = some r ∧
        r.status = RunStatusCancelled ∧ r.completedAt = some env.now) ∧
    ((RunHandler.Discard s runID env).1.code = 200 →
      ∃ r, (RunHandler.Discard s runID env).2.firstRun runID = some r ∧
        r.status = RunStatusDiscarded ∧ r.completedAt = some env.now) := by
  constructor
  · intro hcode
    cases hr : s.firstRun runID with
    | none =>
      simp [RunHandler.Cancel, hr, StatusNotFound] at hcode
    | some r =>
      by_cases hs : r.status = RunStatusPending ∨ r.status = RunStatusPlanning
      · exact ⟨_, (cancel_accepts s runID env r hr hs).2, rfl, rfl⟩
      · rw [cancel_rejects s runID env r hr hs] at hcode
        simp at hcode
  · intro hcode
    cases hr : s.firstRun runID with
    | none =>
      simp [RunHandler.Discard, hr, StatusNotFound] at hcode
    | some r =>
      by_cases hs : r.status = RunStatusNeedsConfirm ∨ r.status = RunStatusPlanned
      · exact ⟨_, (discard_accepts s runID env r hr hs).2, rfl, rfl⟩
      · rw [discard_rejects s runID env r hr hs] at hcode
        simp at hcode

theorem terminal_transition_stamps_completedAt_witness :
    ((RunHandler.Cancel (storeOneRun RunStatusPending) "A" sampleEnv).1.code = 200 ∧
      ∃ r, (RunHandler.Cancel (storeOneRun RunStatusPending) "A" sampleEnv).2.firstRun "A"
          = some r ∧
        r.status = RunStatusCancelled ∧ r.completedAt = some sampleEnv.now) ∧
    ((RunHandler.Discard (storeOneRun RunStatusNeedsConfirm) "A" sampleEnv).1.code = 200 ∧
      ∃ r, (RunHandler.Discard (storeOneRun RunStatusNeedsConfirm) "A" sampleEnv).2.firstRun "A"
          = some r ∧
        r.status = RunStatusDiscarded ∧ r.completedAt = some sampleEnv.now) :=
  ⟨⟨by decide,
      (terminal_transition_stamps_completedAt (storeOneRun RunStatusPending) "A" sampleEnv).1
        (by decide)⟩,
    ⟨by decide,
      (terminal_transition_stamps_completedAt (storeOneRun RunStatusNeedsConfirm) "A"
        sampleEnv).2 (by decide)⟩⟩


/-! ## The active-run invariant -/

theorem countRuns_updateRun_le (s : Store) (runID wsID : String) (statuses : List RunStatus)
    (f : Run → Run) (hws : ∀ x, (f x).workspaceID = x.workspaceID)
    (hst : ∀ x, (f x).status ∉ statuses) :
    (s.updateRun runID f).countRuns wsID statuses ≤ s.countRuns wsID statuses := by
  simp only [Store.countRuns, Store.updateRun, ← List.countP_eq_length_filter,
    List.countP_map]
  apply List.countP_mono_left
  intro x _ hx
  by_cases hid : x.id = runID
  · simp [hid, hws, hst] at hx
  · simpa [hid] using hx

theorem countRuns_append_singleton (s : Store) (row : Run) (wsID : String)
    (statuses : List RunStatus) :
    ({ s with runs := s.runs ++ [row] } : Store).countRuns wsID statuses =
      s.countRuns wsID statuses +
        (if (row.workspaceID == wsID && statuses.contains row.status) = true then 1 else 0) := by
  simp only [Store.countRuns, List.filter_append, List.length_append]
  by_cases h : (row.workspaceID == wsID && statuses.contains row.status) = true
  · rw [if_pos h, List.filter_cons_of_pos (by exact h)]; rfl
  · rw [if_neg h, List.filter_cons_of_neg (by exact h)]; rfl

theorem cancelled_not_active : RunStatusCancelled ∉ activeStatuses := by decide

theorem discarded_not_active : RunStatusDiscarded ∉ activeStatuses := by decide

/-- `RunHandler.Create` keeps the active-run invariant. -/
theorem create_preserves_activeRunInvariant (s : Store) (wsID : String)
    (user : Option User) (req : Option CreateRunRequest) (env : Env)
    (hinv : ActiveRunInvariant s) (resp : Response) (s' : Store)
    (h : RunHandler.Create s wsID user req env = some (resp, s')) :
    ActiveRunInvariant s' := by
  have hsame : ∀ r : Response, some (r, s) = some (resp, s') → ActiveRunInvariant s' := by
    intro r hr
    simp only [Option.some.injEq, Prod.mk.injEq] at hr
    rw [← hr.2]; exact hinv
  cases req with
  | none => exact hsame _ (by simpa [RunHandler.Create] using h)
  | some req =>
    cases hw : s.firstWorkspace wsID with
    | none => exact hsame _ (by simpa [RunHandler.Create, hw] using h)
    | some w =>
      by_cases hl : w.locked = true
      · exact hsame _ (by simpa [RunHandler.Create, hw, hl] using h)
      · by_cases hc : s.countRuns wsID activeStatuses > 0
        · exact hsame _ (by simpa [RunHandler.Create, hw, hl, hc] using h)
        · cases user with
          | none => simp [RunHandler.Create, hw, hl, hc] at h
          | some u =>
            simp only [RunHandler.Create, hw, hl, hc, if_false, Bool.false_eq_true] at h
            split at h
            · exact hsame _ h
            · rename_i row s₂ hcreate
              simp only [Option.some.injEq, Prod.mk.injEq] at h
              rw [← h.2]
              unfold Store.createRun at hcreate
              split at hcreate
              · simp only [Option.some.injEq, Prod.mk.injEq] at hcreate
                rw [← hcreate.2]
                intro ws
                rw [countRuns_append_singleton]
                by_cases hws : wsID = ws
                · subst hws
                  have hz : s.countRuns wsID activeStatuses = 0 := by omega
                  rw [hz]
                  split <;> omega
                · have := hinv ws
                  simpa [hws] using this
              · exact absurd hcreate (by simp)

/-- `RunHandler.Cancel` keeps the active-run invariant. -/
theorem cancel_preserves_activeRunInvariant (s : Store) (runID : String) (env : Env)
    (hinv : ActiveRunInvariant s) :
    ActiveRunInvariant (RunHandler.Cancel s runID env).2 := by
  unfold RunHandler.Cancel
  split
  · exact hinv
  · split
    · exact hinv
    · intro ws
      exact le_trans
        (countRuns_updateRun_le s _ ws activeStatuses _ (fun _ => rfl)
          (fun _ => cancelled_not_active))
        (hinv ws)

/-- `RunHandler.Discard` keeps the active-run invariant. -/
theorem discard_preserves_activeRunInvariant (s : Store) (runID : String) (env : Env)
    (hinv : ActiveRunInvariant s) :
    ActiveRunInvariant (RunHandler.Discard s runID env).2 := by
  unfold RunHandler.Discard
  split
  · exact hinv
  · split
    · exact hinv
    · intro ws
      exact le_trans
        (countRuns_updateRun_le s _ ws activeStatuses _ (fun _ => rfl)
          (fun _ => discarded_not_active))
        (hinv ws)

theorem storeAwaitingAndPending_invariant : ActiveRunInvariant storeAwaitingAndPending := by
  intro ws
  have hle : storeAwaitingAndPending.countRuns ws activeStatuses ≤
      (storeAwaitingAndPending.runs.filter
        (fun r => activeStatuses.contains r.status)).length := by
    simp only [Store.countRuns, ← List.countP_eq_length_filter]
    apply List.countP_mono_left
    intro x _ hx
    simp only [Bool.and_eq_true] at hx
    exact hx.2
  have hone : (storeAwaitingAndPending.runs.filter
      (fun r => activeStatuses.contains r.status)).length = 1 := by decide
  omega

/-- C1, evaluated where the code departs from it: in a store whose workspace
`"W"` has run `"A"` awaiting confirmation and run `"B"` pending, each
workspace has at most one run in pending, planning or applying, and after
`RunHandler.Approve` of `"A"` (answered 200) workspace `"W"` has two. -/
theorem approve_breaks_activeRunInvariant :
    ActiveRunInvariant storeAwaitingAndPending ∧
    (RunHandler.Approve storeAwaitingAndPending "A" sampleEnv).1.code = 200 ∧
    (RunHandler.Approve storeAwaitingAndPending "A" sampleEnv).2.countRuns "W"
      activeStatuses = 2 ∧
    ¬ ActiveRunInvariant (RunHandler.Approve storeAwaitingAndPending "A" sampleEnv).2 := by
  refine ⟨storeAwaitingAndPending_invariant, by decide, by decide, ?_⟩
  intro h
  have h2 := h "W"
  revert h2
  decide


/-! ## The workspace lock and the remote-state push -/

theorem firstWorkspace_id_eq (s : Store) (wsID : String) (w : Workspace)
    (hw : s.firstWorkspace wsID = some w) : w.id = wsID ∧ w.deletedAt = none := by
  have h := List.find?_some hw
  simpa using h

theorem firstWorkspace_updateWorkspace_self (s : Store) (wsID : String) (w : Workspace)
    (f : Workspace → Workspace) (hw : s.firstWorkspace wsID = some w)
    (hid : ∀ x, (f x).id = x.id) (hdel : ∀ x, (f x).deletedAt = x.deletedAt) :
    (s.updateWorkspace wsID f).firstWorkspace wsID = some (f w) := by
  have hwid := firstWorkspace_id_eq s wsID w hw
  unfold Store.firstWorkspace at hw
  simp only [Store.firstWorkspace, Store.updateWorkspace, List.find?_map]
  have hcomp : ((fun x : Workspace => x.id == wsID && x.deletedAt.isNone) ∘
      fun x : Workspace => if (x.id == wsID && x.deletedAt.isNone) = true then f x else x)
      = fun x : Workspace => x.id == wsID && x.deletedAt.isNone := by
    funext x
    by_cases hx : (x.id == wsID && x.deletedAt.isNone) = true
    · simp only [Function.comp, hx, if_true, hid, hdel]
    · have hx' : (x.id == wsID && x.deletedAt.isNone) = false :=
        Bool.eq_false_iff.mpr hx
      simp only [Function.comp, hx', Bool.false_eq_true, if_false]
  rw [hcomp, hw]
  simp [hwid.1, hwid.2]

theorem createStateVersion_eq_some (s : Store) (sv : StateVersion) (env : Env)
    (hok : env.insertOk = true) (hfresh : ∀ v ∈ s.stateVersions, v.id ≠ env.newId) :
    s.createStateVersion sv env =
      some ({ sv with id := env.newId, createdAt := env.dbNow },
        { s with stateVersions := s.stateVersions ++
            [{ sv with id := env.newId, createdAt := env.dbNow }] }) := by
  have hany : s.stateVersions.any (fun v => v.id == env.newId) = false := by
    rw [List.any_eq_false]
    intro v hv
    simpa using hfresh v hv
  simp [Store.createStateVersion, hok, hany]

theorem createStateVersion_eq_none (s : Store) (sv : StateVersion) (env : Env)
    (hno : ¬ (env.insertOk = true ∧ ∀ v ∈ s.stateVersions, v.id ≠ env.newId)) :
    s.createStateVersion sv env = none := by
  unfold Store.createStateVersion
  split
  · rename_i h
    exfalso
    apply hno
    simp only [Bool.and_eq_true, Bool.not_eq_true_eq_eq_false, List.any_eq_false] at h
    refine ⟨h.1, ?_⟩
    intro v hv
    simpa using h.2 v hv
  · rfl

/-- C9, where the code departs from it: workspace `"W"` is locked, and the
push `StateHandler.HTTPBackendPost` of the body `[1, 2, 3]` is answered 200,
not 409; the StateVersion table goes from empty to one row, and the
`currentStateID` of `"W"` goes from absent to the new row. -/
theorem post_on_locked_workspace_accepted :
    (storeLocked.firstWorkspace "W").map (fun w => w.locked) = some true ∧
    storeLocked.stateVersions.length = 0 ∧
    (storeLocked.firstWorkspace "W").map (fun w => w.currentStateID) = some none ∧
    (StateHandler.HTTPBackendPost sampleLib storeLocked "W" (some ⟨"u1"⟩) (some [1, 2, 3])
      sampleEnv).1.code = 200 ∧
    (StateHandler.HTTPBackendPost sampleLib storeLocked "W" (some ⟨"u1"⟩) (some [1, 2, 3])
      sampleEnv).1.code ≠ 409 ∧
    (StateHandler.HTTPBackendPost sampleLib storeLocked "W" (some ⟨"u1"⟩) (some [1, 2, 3])
      sampleEnv).2.stateVersions.length = 1 ∧
    ((StateHandler.HTTPBackendPost sampleLib storeLocked "W" (some ⟨"u1"⟩) (some [1, 2, 3])
      sampleEnv).2.firstWorkspace "W").map (fun w => w.currentStateID) =
        some (some "new") := by
  decide

/-- C9 as amended: on a workspace with `locked = true`,
`StateHandler.HTTPBackendPost` of a readable body never answers 409 and does
not read the lock. When the store accepts the insert it answers 200 with an
empty body, the StateVersion table is the old one followed by one row that
holds the body verbatim for this workspace, and the workspace, still locked,
has `currentStateID` set to that row. When the store refuses the insert it
answers 500 and returns the store it was given. -/
theorem post_ignores_lock (lib : Lib) (s : Store) (wsID : String) (user : Option User)
    (body : Bytes) (env : Env) (w : Workspace)
    (hw : s.firstWorkspace wsID = some w) (hl : w.locked = true) :
    (StateHandler.HTTPBackendPost lib s wsID user (some body) env).1.code ≠ 409 ∧
    (env.insertOk = true → (∀ v ∈ s.stateVersions, v.id ≠ env.newId) →
      (StateHandler.HTTPBackendPost lib s wsID user (some body) env).1 = ⟨200, .empty⟩ ∧
      (∃ row, (StateHandler.HTTPBackendPost lib s wsID user (some body) env).2.stateVersions =
          s.stateVersions ++ [row] ∧
        row.id = env.newId ∧ row.workspaceID = wsID ∧ row.state = body) ∧
      (∃ w', (StateHandler.HTTPBackendPost lib s wsID user (some body) env).2.firstWorkspace
          wsID = some w' ∧
        w'.locked = true ∧ w'.currentStateID = some env.newId)) ∧
    (¬ (env.insertOk = true ∧ ∀ v ∈ s.stateVersions, v.id ≠ env.newId) →
      (StateHandler.HTTPBackendPost lib s wsID user (some body) env).1.code = 500 ∧
      (StateHandler.HTTPBackendPost lib s wsID user (some body) env).2 = s) := by
  have hacc : env.insertOk = true → (∀ v ∈ s.stateVersions, v.id ≠ env.newId) →
      (StateHandler.HTTPBackendPost lib s wsID user (some body) env).1 = ⟨200, .empty⟩ ∧
      (∃ row, (StateHandler.HTTPBackendPost lib s wsID user (some body) env).2.stateVersions =
          s.stateVersions ++ [row] ∧
        row.id = env.newId ∧ row.workspaceID = wsID ∧ row.state = body) ∧
      (∃ w', (StateHandler.HTTPBackendPost lib s wsID user (some body) env).2.firstWorkspace
          wsID = some w' ∧
        w'.locked = true ∧ w'.currentStateID = some env.newId) := by
    intro hok hfresh
    simp only [StateHandler.HTTPBackendPost]
    rw [createStateVersion_eq_some s _ env hok hfresh]
    refine ⟨rfl, ⟨_, rfl, rfl, rfl, rfl⟩, ?_⟩
    refine ⟨_, firstWorkspace_updateWorkspace_self _ wsID w _ hw (fun _ => rfl)
      (fun _ => rfl), hl, rfl⟩
  have hrej : ¬ (env.insertOk = true ∧ ∀ v ∈ s.stateVersions, v.id ≠ env.newId) →
      (StateHandler.HTTPBackendPost lib s wsID user (some body) env).1.code = 500 ∧
      (StateHandler.HTTPBackendPost lib s wsID user (some body) env).2 = s := by
    intro hno
    simp only [StateHandler.HTTPBackendPost]
    rw [createStateVersion_eq_none s _ env hno]
    exact ⟨rfl, rfl⟩
  refine ⟨?_, hacc, hrej⟩
  by_cases hins : env.insertOk = true ∧ ∀ v ∈ s.stateVersions, v.id ≠ env.newId
  · rw [(hacc hins.1 hins.2).1]
    decide
  · rw [(hrej hins).1]
    decide

theorem post_ignores_lock_witness :
    storeLocked.firstWorkspace "W" = some (sampleWorkspace "W" true) ∧
    (sampleWorkspace "W" true).locked = true ∧
    (StateHandler.HTTPBackendPost sampleLib storeLocked "W" (some ⟨"u1"⟩) (some [1, 2, 3])
      sampleEnv).1 = ⟨200, .empty⟩ ∧
    (∃ row, (StateHandler.HTTPBackendPost sampleLib storeLocked "W" (some ⟨"u1"⟩)
          (some [1, 2, 3]) sampleEnv).2.stateVersions = storeLocked.stateVersions ++ [row] ∧
        row.id = sampleEnv.newId ∧ row.workspaceID = "W" ∧ row.state = [1, 2, 3]) ∧
    (∃ w', (StateHandler.HTTPBackendPost sampleLib storeLocked "W" (some ⟨"u1"⟩)
          (some [1, 2, 3]) sampleEnv).2.firstWorkspace "W" = some w' ∧
        w'.locked = true ∧ w'.currentStateID = some sampleEnv.newId) :=
  ⟨by decide, by decide,
    (post_ignores_lock sampleLib storeLocked "W" (some ⟨"u1"⟩) [1, 2, 3] sampleEnv
      (sampleWorkspace "W" true) (by decide) (by decide)).2.1 (by decide) (by decide)⟩

/-- A successful `WorkspaceHandler.Lock` writes `locked` and `locked_by` (and
the mapper's `updated_at`) and no other column. -/
theorem lock_accepts (s : Store) (wsID : String) (u : User) (env : Env) (w : Workspace)
    (hw : s.firstWorkspace wsID = some w) (hl : w.locked = false) :
    ∃ s', WorkspaceHandler.Lock s wsID (some u) env =
        some (⟨200, .message "Workspace locked"⟩, s') ∧
      s'.firstWorkspace wsID =
        some { w with locked := true, lockedBy := some u.id, updatedAt := env.dbNow } := by
  obtain ⟨hwid, _⟩ := firstWorkspace_id_eq s wsID w hw
  subst hwid
  have hupd := firstWorkspace_updateWorkspace_self s w.id w
    (fun x => { x with locked := true, lockedBy := some u.id, updatedAt := env.dbNow })
    hw (fun _ => rfl) (fun _ => rfl)
  simp only [WorkspaceHandler.Lock, hw, hl, Bool.false_eq_true, if_false]
  exact ⟨_, rfl, hupd⟩

/-- A successful `StateHandler.HTTPBackendLock` writes `locked` (and the
mapper's `updated_at`) and no other column. -/
theorem backendLock_accepts (s : Store) (wsID : String) (env : Env) (w : Workspace)
    (hw : s.firstWorkspace wsID = some w) (hl : w.locked = false) :
    (StateHandler.HTTPBackendLock s wsID env).1 = ⟨200, .status "locked"⟩ ∧
    (StateHandler.HTTPBackendLock s wsID env).2.firstWorkspace wsID =
      some { w with locked := true, updatedAt := env.dbNow } := by
  obtain ⟨hwid, _⟩ := firstWorkspace_id_eq s wsID w hw
  subst hwid
  have hupd := firstWorkspace_updateWorkspace_self s w.id w
    (fun x => { x with locked := true, updatedAt := env.dbNow }) hw (fun _ => rfl)
    (fun _ => rfl)
  simp only [StateHandler.HTTPBackendLock, hw, hl, Bool.false_eq_true, if_false]
  exact ⟨rfl, hupd⟩

/-- C10, evaluated where the code departs from it: on the unlocked workspace
`"W"`, whose `lockedBy` and `lockedAt` are absent, `WorkspaceHandler.Lock`
by user `"u1"` answers 200 and leaves `locked = true`, `lockedBy = "u1"` and
`lockedAt` absent; `StateHandler.HTTPBackendLock` answers 200 and leaves
`locked = true` with both `lockedBy` and `lockedAt` absent. -/
theorem lock_leaves_lockedAt_absent :
    (storeUnlocked.firstWorkspace "W").map (fun w => (w.locked, w.lockedBy, w.lockedAt)) =
      some (false, none, none) ∧
    (WorkspaceHandler.Lock storeUnlocked "W" (some ⟨"u1"⟩) sampleEnv).map
        (fun p => (p.1.code,
          (p.2.firstWorkspace "W").map (fun w => (w.locked, w.lockedBy, w.lockedAt)))) =
      some (200, some (true, some "u1", none)) ∧
    (StateHandler.HTTPBackendLock storeUnlocked "W" sampleEnv).1.code = 200 ∧
    ((StateHandler.HTTPBackendLock storeUnlocked "W" sampleEnv).2.firstWorkspace "W").map
        (fun w => (w.locked, w.lockedBy, w.lockedAt)) =
      some (true, none, none) := by
  decide


/-! ## The lock-field invariant -/

theorem lockFieldInvariant_updateWorkspace (s : Store) (wsID : String)
    (f : Workspace → Workspace) (hf : ∀ w, LockFieldsConsistent (f w))
    (hinv : LockFieldInvariant s) : LockFieldInvariant (s.updateWorkspace wsID f) := by
  intro w hw
  simp only [Store.updateWorkspace, List.mem_map] at hw
  obtain ⟨w₀, hw₀, rfl⟩ := hw
  split
  · exact hf w₀
  · exact hinv w₀ hw₀

/-- `WorkspaceHandler.Lock` keeps the lock-field invariant. -/
theorem lock_preserves_lockFieldInvariant (s : Store) (wsID : String) (user : Option User)
    (env : Env) (resp : Response) (s' : Store) (hinv : LockFieldInvariant s)
    (h : WorkspaceHandler.Lock s wsID user env = some (resp, s')) :
    LockFieldInvariant s' := by
  unfold WorkspaceHandler.Lock at h
  split at h
  · simp only [Option.some.injEq, Prod.mk.injEq] at h; rw [← h.2]; exact hinv
  · split at h
    · simp only [Option.some.injEq, Prod.mk.injEq] at h; rw [← h.2]; exact hinv
    · split at h
      · exact absurd h (by simp)
      · simp only [Option.some.injEq, Prod.mk.injEq] at h
        rw [← h.2]
        exact lockFieldInvariant_updateWorkspace s _ _
          (fun w hl => absurd hl (by simp)) hinv

/-- `WorkspaceHandler.Unlock` keeps the lock-field invariant. -/
theorem unlock_preserves_lockFieldInvariant (s : Store) (wsID : String) (env : Env)
    (hinv : LockFieldInvariant s) :
    LockFieldInvariant (WorkspaceHandler.Unlock s wsID env).2 :=
  lockFieldInvariant_updateWorkspace s _ _ (fun _ _ => ⟨rfl, rfl⟩) hinv

/-- `StateHandler.HTTPBackendLock` keeps the lock-field invariant. -/
theorem backendLock_preserves_lockFieldInvariant (s : Store) (wsID : String) (env : Env)
    (hinv : LockFieldInvariant s) :
    LockFieldInvariant (StateHandler.HTTPBackendLock s wsID env).2 := by
  unfold StateHandler.HTTPBackendLock
  split
  · exact hinv
  · split
    · exact hinv
    · exact lockFieldInvariant_updateWorkspace s _ _
        (fun w hl => absurd hl (by simp)) hinv

theorem storeUnlocked_lockFieldInvariant : LockFieldInvariant storeUnlocked := by
  intro w hw
  simp only [storeUnlocked, List.mem_singleton] at hw
  subst hw
  intro _
  exact ⟨rfl, rfl⟩

/-- C11, evaluated where the code departs from it: from the unlocked workspace
`"W"` with `lockedBy` and `lockedAt` absent, `WorkspaceHandler.Lock` by
`"u1"` (answered 200) keeps the implication, and the following
`StateHandler.HTTPBackendUnlock` (answered 200) leaves `locked = false` with
`lockedBy = "u1"`, so the implication no longer holds. -/
theorem backendUnlock_breaks_lockFieldInvariant :
    LockFieldInvariant storeUnlocked ∧
    ∃ s₁, WorkspaceHandler.Lock storeUnlocked "W" (some ⟨"u1"⟩) sampleEnv =
        some (⟨200, .message "Workspace locked"⟩, s₁) ∧
      LockFieldInvariant s₁ ∧
      (StateHandler.HTTPBackendUnlock s₁ "W" sampleEnv).1.code = 200 ∧
      ((StateHandler.HTTPBackendUnlock s₁ "W" sampleEnv).2.firstWorkspace "W").map
          (fun w => (w.locked, w.lockedBy, w.lockedAt)) = some (false, some "u1", none) ∧
      ¬ LockFieldInvariant (StateHandler.HTTPBackendUnlock s₁ "W" sampleEnv).2 := by
  refine ⟨storeUnlocked_lockFieldInvariant, _, rfl, ?_, by decide, by decide, ?_⟩
  · exact lock_preserves_lockFieldInvariant storeUnlocked "W" (some ⟨"u1"⟩) sampleEnv _ _
      storeUnlocked_lockFieldInvariant rfl
  · intro h
    have hw := h { sampleWorkspace "W" false with lockedBy := some "u1", updatedAt := 11 }
      (by decide)
    have := (hw rfl).1
    exact absurd this (by decide)


/-! ## Unlock and repeated lock requests -/

theorem updateWorkspace_twice (s : Store) (wsID : String) (f g : Workspace → Workspace)
    (hid : ∀ x, (f x).id = x.id) (hdel : ∀ x, (f x).deletedAt = x.deletedAt) :
    (s.updateWorkspace wsID f).updateWorkspace wsID g =
      s.updateWorkspace wsID (fun w => g (f w)) := by
  simp only [Store.updateWorkspace, List.map_map]
  congr 1
  apply List.map_congr_left
  intro x _
  by_cases hx : (x.id == wsID && x.deletedAt.isNone) = true
  · simp only [Function.comp, hx, if_true, hid, hdel]
  · have hx' : (x.id == wsID && x.deletedAt.isNone) = false := Bool.eq_false_iff.mpr hx
    simp only [Function.comp, hx', Bool.false_eq_true, if_false]

theorem eraseUpdatedAt_updateWorkspace_congr (s : Store) (wsID : String)
    (f g : Workspace → Workspace) (h : ∀ w, withoutUpdatedAt (f w) = withoutUpdatedAt (g w)) :
    eraseUpdatedAt (s.updateWorkspace wsID f) = eraseUpdatedAt (s.updateWorkspace wsID g) := by
  simp only [eraseUpdatedAt, Store.updateWorkspace, List.map_map]
  congr 1
  apply List.map_congr_left
  intro x _
  by_cases hx : (x.id == wsID && x.deletedAt.isNone) = true
  · simp only [Function.comp, hx, if_true, h]
  · have hx' : (x.id == wsID && x.deletedAt.isNone) = false := Bool.eq_false_iff.mpr hx
    simp only [Function.comp, hx', Bool.false_eq_true, if_false]

/-- C12, where the code departs from it: workspace `"W"` is locked; the first
unlock, at the clock reading 11, and the second, at the clock reading 21, are
both answered 200, but the store after the second differs from the store
after the first: the mapper rewrites `updated_at` of the row on every UPDATE,
so it holds 11 after the first unlock and 21 after the second. The same
happens with `StateHandler.HTTPBackendUnlock`. -/
theorem second_unlock_rewrites_updatedAt :
    (WorkspaceHandler.Unlock storeLocked "W" sampleEnv).1.code = 200 ∧
    (WorkspaceHandler.Unlock (WorkspaceHandler.Unlock storeLocked "W" sampleEnv).2 "W"
      sampleEnvLater).1.code = 200 ∧
    (WorkspaceHandler.Unlock (WorkspaceHandler.Unlock storeLocked "W" sampleEnv).2 "W"
      sampleEnvLater).2 ≠ (WorkspaceHandler.Unlock storeLocked "W" sampleEnv).2 ∧
    (WorkspaceHandler.Unlock storeLocked "W" sampleEnv).2.workspaces.map
      (fun w => (w.locked, w.updatedAt)) = [(false, 11)] ∧
    (WorkspaceHandler.Unlock (WorkspaceHandler.Unlock storeLocked "W" sampleEnv).2 "W"
      sampleEnvLater).2.workspaces.map (fun w => (w.locked, w.updatedAt)) = [(false, 21)] ∧
    (StateHandler.HTTPBackendUnlock storeLocked "W" sampleEnv).1.code = 200 ∧
    (StateHandler.HTTPBackendUnlock (StateHandler.HTTPBackendUnlock storeLocked "W" sampleEnv).2
      "W" sampleEnvLater).1.code = 200 ∧
    (StateHandler.HTTPBackendUnlock (StateHandler.HTTPBackendUnlock storeLocked "W" sampleEnv).2
      "W" sampleEnvLater).2 ≠ (StateHandler.HTTPBackendUnlock storeLocked "W" sampleEnv).2 ∧
    (StateHandler.HTTPBackendUnlock storeLocked "W" sampleEnv).2.workspaces.map
      (fun w => (w.locked, w.updatedAt)) = [(false, 11)] ∧
    (StateHandler.HTTPBackendUnlock (StateHandler.HTTPBackendUnlock storeLocked "W" sampleEnv).2
      "W" sampleEnvLater).2.workspaces.map (fun w => (w.locked, w.updatedAt)) =
        [(false, 21)] := by
  decide

/-- C12 as amended: for an existing workspace, locked or not,
`WorkspaceHandler.Unlock` and `StateHandler.HTTPBackendUnlock` each answer 200
and leave `locked = false`; a second unlock, at any later clock reading,
answers 200 again and yields the store of the first unlock in which
`updated_at` of the workspace row holds the time of the second unlock: the
two stores are equal in every column but that `updated_at` (equal once
`updated_at` is set aside, equal outright when the two readings agree), and
the store after two unlocks is the store after the second unlock alone. -/
theorem unlock_idempotent (s : Store) (wsID : String) (env env₂ : Env) (w : Workspace)
    (hw : s.firstWorkspace wsID = some w) :
    ((WorkspaceHandler.Unlock s wsID env).1.code = 200 ∧
      (WorkspaceHandler.Unlock s wsID env).2.firstWorkspace wsID =
        some { w with locked := false, lockedBy := none, lockedAt := none,
                      updatedAt := env.dbNow } ∧
      (WorkspaceHandler.Unlock (WorkspaceHandler.Unlock s wsID env).2 wsID env₂).1.code = 200 ∧
      (WorkspaceHandler.Unlock (WorkspaceHandler.Unlock s wsID env).2 wsID env₂).2 =
        (WorkspaceHandler.Unlock s wsID env₂).2 ∧
      (env₂.dbNow = env.dbNow →
        (WorkspaceHandler.Unlock (WorkspaceHandler.Unlock s wsID env).2 wsID env₂).2 =
          (WorkspaceHandler.Unlock s wsID env).2) ∧
      eraseUpdatedAt (WorkspaceHandler.Unlock (WorkspaceHandler.Unlock s wsID env).2 wsID env₂).2 =
        eraseUpdatedAt (WorkspaceHandler.Unlock s wsID env).2 ∧
      (WorkspaceHandler.Unlock (WorkspaceHandler.Unlock s wsID env).2 wsID env₂).2 =
        (WorkspaceHandler.Unlock s wsID env).2.updateWorkspace wsID
          (fun x => { x with updatedAt := env₂.dbNow }) ∧
      (WorkspaceHandler.Unlock (WorkspaceHandler.Unlock s wsID env).2 wsID
          env₂).2.firstWorkspace wsID =
        some { w with locked := false, lockedBy := none, lockedAt := none,
                      updatedAt := env₂.dbNow }) ∧
    ((StateHandler.HTTPBackendUnlock s wsID env).1.code = 200 ∧
      (StateHandler.HTTPBackendUnlock s wsID env).2.firstWorkspace wsID =
        some { w with locked := false, updatedAt := env.dbNow } ∧
      (StateHandler.HTTPBackendUnlock (StateHandler.HTTPBackendUnlock s wsID env).2 wsID
        env₂).1.code = 200 ∧
      (StateHandler.HTTPBackendUnlock (StateHandler.HTTPBackendUnlock s wsID env).2 wsID
        env₂).2 = (StateHandler.HTTPBackendUnlock s wsID env₂).2 ∧
      (env₂.dbNow = env.dbNow →
        (StateHandler.HTTPBackendUnlock (StateHandler.HTTPBackendUnlock s wsID env).2 wsID
          env₂).2 = (StateHandler.HTTPBackendUnlock s wsID env).2) ∧
      eraseUpdatedAt (StateHandler.HTTPBackendUnlock
          (StateHandler.HTTPBackendUnlock s wsID env).2 wsID env₂).2 =
        eraseUpdatedAt (StateHandler.HTTPBackendUnlock s wsID env).2 ∧
      (StateHandler.HTTPBackendUnlock (StateHandler.HTTPBackendUnlock s wsID env).2 wsID
          env₂).2 =
        (StateHandler.HTTPBackendUnlock s wsID env).2.updateWorkspace wsID
          (fun x => { x with updatedAt := env₂.dbNow }) ∧
      (StateHandler.HTTPBackendUnlock (StateHandler.HTTPBackendUnlock s wsID env).2 wsID
          env₂).2.firstWorkspace wsID =
        some { w with locked := false, updatedAt := env₂.dbNow }) := by
  have hW : (WorkspaceHandler.Unlock (WorkspaceHandler.Unlock s wsID env).2 wsID env₂).2 =
      (WorkspaceHandler.Unlock s wsID env₂).2 :=
    updateWorkspace_twice s wsID _ _ (fun _ => rfl) (fun _ => rfl)
  have hB : (StateHandler.HTTPBackendUnlock (StateHandler.HTTPBackendUnlock s wsID env).2 wsID
      env₂).2 = (StateHandler.HTTPBackendUnlock s wsID env₂).2 :=
    updateWorkspace_twice s wsID _ _ (fun _ => rfl) (fun _ => rfl)
  have hW' : (WorkspaceHandler.Unlock s wsID env).2.updateWorkspace wsID
      (fun x => { x with updatedAt := env₂.dbNow }) = (WorkspaceHandler.Unlock s wsID env₂).2 :=
    updateWorkspace_twice s wsID _ _ (fun _ => rfl) (fun _ => rfl)
  have hB' : (StateHandler.HTTPBackendUnlock s wsID env).2.updateWorkspace wsID
      (fun x => { x with updatedAt := env₂.dbNow }) =
        (StateHandler.HTTPBackendUnlock s wsID env₂).2 :=
    updateWorkspace_twice s wsID _ _ (fun _ => rfl) (fun _ => rfl)
  refine ⟨⟨rfl, ?_, rfl, hW, ?_, ?_, ?_, ?_⟩, ⟨rfl, ?_, rfl, hB, ?_, ?_, ?_, ?_⟩⟩
  · exact firstWorkspace_updateWorkspace_self s wsID w _ hw (fun _ => rfl) (fun _ => rfl)
  · intro ht
    rw [hW]
    simp only [WorkspaceHandler.Unlock, ht]
  · rw [hW]
    exact eraseUpdatedAt_updateWorkspace_congr s wsID _ _ (fun _ => rfl)
  · rw [hW, hW']
  · rw [hW]
    exact firstWorkspace_updateWorkspace_self s wsID w _ hw (fun _ => rfl) (fun _ => rfl)
  · exact firstWorkspace_updateWorkspace_self s wsID w _ hw (fun _ => rfl) (fun _ => rfl)
  · intro ht
    rw [hB]
    simp only [StateHandler.HTTPBackendUnlock, ht]
  · rw [hB]
    exact eraseUpdatedAt_updateWorkspace_congr s wsID _ _ (fun _ => rfl)
  · rw [hB, hB']
  · rw [hB]
    exact firstWorkspace_updateWorkspace_self s wsID w _ hw (fun _ => rfl) (fun _ => rfl)

theorem unlock_idempotent_witness :
    storeLocked.firstWorkspace "W" = some (sampleWorkspace "W" true) ∧
    eraseUpdatedAt (WorkspaceHandler.Unlock (WorkspaceHandler.Unlock storeLocked "W"
        sampleEnv).2 "W" sampleEnvLater).2 =
      eraseUpdatedAt (WorkspaceHandler.Unlock storeLocked "W" sampleEnv).2 ∧
    (WorkspaceHandler.Unlock (WorkspaceHandler.Unlock storeLocked "W" sampleEnv).2 "W"
        sampleEnvLater).2 =
      (WorkspaceHandler.Unlock storeLocked "W" sampleEnv).2.updateWorkspace "W"
        (fun x => { x with updatedAt := sampleEnvLater.dbNow }) ∧
    eraseUpdatedAt (StateHandler.HTTPBackendUnlock (StateHandler.HTTPBackendUnlock storeLocked
        "W" sampleEnv).2 "W" sampleEnvLater).2 =
      eraseUpdatedAt (StateHandler.HTTPBackendUnlock storeLocked "W" sampleEnv).2 ∧
    (StateHandler.HTTPBackendUnlock (StateHandler.HTTPBackendUnlock storeLocked "W"
        sampleEnv).2 "W" sampleEnvLater).2 =
      (StateHandler.HTTPBackendUnlock storeLocked "W" sampleEnv).2.updateWorkspace "W"
        (fun x => { x with updatedAt := sampleEnvLater.dbNow }) :=
  ⟨by decide,
    (unlock_idempotent storeLocked "W" sampleEnv sampleEnvLater (sampleWorkspace "W" true)
      (by decide)).1.2.2.2.2.2.1,
    (unlock_idempotent storeLocked "W" sampleEnv sampleEnvLater (sampleWorkspace "W" true)
      (by decide)).1.2.2.2.2.2.2.1,
    (unlock_idempotent storeLocked "W" sampleEnv sampleEnvLater (sampleWorkspace "W" true)
      (by decide)).2.2.2.2.2.2.1,
    (unlock_idempotent storeLocked "W" sampleEnv sampleEnvLater (sampleWorkspace "W" true)
      (by decide)).2.2.2.2.2.2.2.1⟩

theorem backendLock_rejects (s : Store) (wsID : String) (env : Env) (w : Workspace)
    (hw : s.firstWorkspace wsID = some w) (hl : w.locked = true) :
    StateHandler.HTTPBackendLock s wsID env = (⟨409, .error "Workspace is locked"⟩, s) := by
  simp only [StateHandler.HTTPBackendLock, hw, hl, if_true, StatusConflict]

theorem lock_rejects (s : Store) (wsID : String) (user : Option User) (env : Env)
    (w : Workspace) (hw : s.firstWorkspace wsID = some w) (hl : w.locked = true) :
    WorkspaceHandler.Lock s wsID user env =
      some (⟨409, .error "Workspace is already locked"⟩, s) := by
  simp only [WorkspaceHandler.Lock, hw, hl, if_true, StatusConflict]

/-- C13: for an existing workspace, a lock request made while `locked` is true
is answered 409 by `StateHandler.HTTPBackendLock` and by
`WorkspaceHandler.Lock`, and the store is returned as given. From an unlocked
workspace, lock, lock, unlock, unlock are answered 200, 409, 200, 200 on
either family of endpoints, the second lock leaving the store as the first
lock left it. -/
theorem lock_when_locked_conflict (s : Store) (wsID : String) (user : Option User)
    (u : User) (env env₂ env₃ env₄ : Env) (w : Workspace)
    (hw : s.firstWorkspace wsID = some w) :
    (w.locked = true →
      StateHandler.HTTPBackendLock s wsID env = (⟨409, .error "Workspace is locked"⟩, s) ∧
      WorkspaceHandler.Lock s wsID user env =
        some (⟨409, .error "Workspace is already locked"⟩, s)) ∧
    (w.locked = false →
      ((StateHandler.HTTPBackendLock s wsID env).1.code = 200 ∧
        StateHandler.HTTPBackendLock (StateHandler.HTTPBackendLock s wsID env).2 wsID env₂ =
          (⟨409, .error "Workspace is locked"⟩, (StateHandler.HTTPBackendLock s wsID env).2) ∧
        (StateHandler.HTTPBackendUnlock (StateHandler.HTTPBackendLock s wsID env).2 wsID
          env₃).1.code = 200 ∧
        (StateHandler.HTTPBackendUnlock
          (StateHandler.HTTPBackendUnlock (StateHandler.HTTPBackendLock s wsID env).2 wsID
            env₃).2 wsID env₄).1.code = 200) ∧
      (∃ s₁, WorkspaceHandler.Lock s wsID (some u) env =
          some (⟨200, .message "Workspace locked"⟩, s₁) ∧
        WorkspaceHandler.Lock s₁ wsID (some u) env₂ =
          some (⟨409, .error "Workspace is already locked"⟩, s₁) ∧
        (WorkspaceHandler.Unlock s₁ wsID env₃).1.code = 200 ∧
        (WorkspaceHandler.Unlock (WorkspaceHandler.Unlock s₁ wsID env₃).2 wsID
          env₄).1.code = 200)) := by
  constructor
  · intro hl
    exact ⟨backendLock_rejects s wsID env w hw hl, lock_rejects s wsID user env w hw hl⟩
  · intro hl
    constructor
    · obtain ⟨h1, h2⟩ := backendLock_accepts s wsID env w hw hl
      refine ⟨by rw [h1], ?_, rfl, rfl⟩
      exact backendLock_rejects _ wsID env₂ _ h2 rfl
    · obtain ⟨s₁, h1, h2⟩ := lock_accepts s wsID u env w hw hl
      exact ⟨s₁, h1, lock_rejects s₁ wsID (some u) env₂ _ h2 rfl, rfl, rfl⟩

theorem lock_when_locked_conflict_witness :
    (StateHandler.HTTPBackendLock storeLocked "W" sampleEnv =
        (⟨409, .error "Workspace is locked"⟩, storeLocked) ∧
      WorkspaceHandler.Lock storeLocked "W" (some ⟨"u1"⟩) sampleEnv =
        some (⟨409, .error "Workspace is already locked"⟩, storeLocked)) ∧
    (StateHandler.HTTPBackendLock storeUnlocked "W" sampleEnv).1.code = 200 ∧
    StateHandler.HTTPBackendLock (StateHandler.HTTPBackendLock storeUnlocked "W" sampleEnv).2
        "W" sampleEnv =
      (⟨409, .error "Workspace is locked"⟩,
        (StateHandler.HTTPBackendLock storeUnlocked "W" sampleEnv).2) :=
  ⟨(lock_when_locked_conflict storeLocked "W" (some ⟨"u1"⟩) ⟨"u1"⟩ sampleEnv sampleEnv sampleEnv
      sampleEnv (sampleWorkspace "W" true) (by decide)).1 (by decide),
    ((lock_when_locked_conflict storeUnlocked "W" (some ⟨"u1"⟩) ⟨"u1"⟩ sampleEnv sampleEnv
      sampleEnv sampleEnv (sampleWorkspace "W" false) (by decide)).2 (by decide)).1.1,
    ((lock_when_locked_conflict storeUnlocked "W" (some ⟨"u1"⟩) ⟨"u1"⟩ sampleEnv sampleEnv
      sampleEnv sampleEnv (sampleWorkspace "W" false) (by decide)).2 (by decide)).1.2.1⟩


/-! ## The current state version -/

theorem comesFirst_iff (v a : StateVersion) :
    Store.comesFirst v a = true ↔
      a.serial < v.serial ∨ (a.serial = v.serial ∧ v.id < a.id) := by
  simp [Store.comesFirst]

theorem firstOf_mem (a : StateVersion) (rows : List StateVersion) :
    Store.firstOf a rows = a ∨ Store.firstOf a rows ∈ rows := by
  induction rows generalizing a with
  | nil => exact Or.inl rfl
  | cons v rows ih =>
    simp only [Store.firstOf]
    rcases ih (if Store.comesFirst v a = true then v else a) with h | h
    · rw [h]
      split
      · exact Or.inr (List.mem_cons_self _ _)
      · exact Or.inl rfl
    · exact Or.inr (List.mem_cons_of_mem _ h)

theorem firstOf_serial_ge (a : StateVersion) (rows : List StateVersion) :
    a.serial ≤ (Store.firstOf a rows).serial ∧
      ∀ v ∈ rows, v.serial ≤ (Store.firstOf a rows).serial := by
  induction rows generalizing a with
  | nil => exact ⟨le_refl _, fun _ h => absurd h (List.not_mem_nil _)⟩
  | cons v rows ih =>
    simp only [Store.firstOf]
    obtain ⟨h1, h2⟩ := ih (if Store.comesFirst v a = true then v else a)
    have hav : a.serial ≤ (if Store.comesFirst v a = true then v else a).serial ∧
        v.serial ≤ (if Store.comesFirst v a = true then v else a).serial := by
      by_cases hc : Store.comesFirst v a = true
      · rw [if_pos hc]
        rcases (comesFirst_iff v a).mp hc with h | h
        · exact ⟨le_of_lt h, le_refl _⟩
        · exact ⟨le_of_eq h.1, le_refl _⟩
      · rw [if_neg hc]
        have hn := mt (comesFirst_iff v a).mpr hc
        push_neg at hn
        exact ⟨le_refl _, hn.1⟩
    refine ⟨le_trans hav.1 h1, ?_⟩
    intro x hx
    rcases List.mem_cons.mp hx with rfl | hx
    · exact le_trans hav.2 h1
    · exact h2 x hx

theorem firstOf_append (a : StateVersion) (l₁ l₂ : List StateVersion) :
    Store.firstOf a (l₁ ++ l₂) = Store.firstOf (Store.firstOf a l₁) l₂ := by
  induction l₁ generalizing a with
  | nil => rfl
  | cons v rows ih => exact ih _

theorem firstStateVersion_eq_none (s : Store) (wsID : String)
    (h : ∀ v ∈ s.stateVersions, v.workspaceID ≠ wsID) :
    s.firstStateVersionBySerialDesc wsID = none := by
  have hnil : s.stateVersions.filter (fun v => v.workspaceID == wsID) = [] := by
    rw [List.filter_eq_nil_iff]
    intro v hv
    simpa using h v hv
  simp only [Store.firstStateVersionBySerialDesc, hnil]

theorem firstStateVersion_spec (s : Store) (wsID : String) (v : StateVersion)
    (h : s.firstStateVersionBySerialDesc wsID = some v) :
    v ∈ s.stateVersions ∧ v.workspaceID = wsID ∧
      ∀ x ∈ s.stateVersions, x.workspaceID = wsID → x.serial ≤ v.serial := by
  unfold Store.firstStateVersionBySerialDesc at h
  cases hf : s.stateVersions.filter (fun v => v.workspaceID == wsID) with
  | nil => rw [hf] at h; exact absurd h (by simp)
  | cons a rows =>
    rw [hf] at h
    simp only [Option.some.injEq] at h
    have hmemf : v ∈ s.stateVersions.filter (fun v => v.workspaceID == wsID) := by
      rw [hf, ← h]
      rcases firstOf_mem a rows with h' | h'
      · rw [h']; exact List.mem_cons_self _ _
      · exact List.mem_cons_of_mem _ h'
    have hmem := List.mem_filter.mp hmemf
    refine ⟨hmem.1, by simpa using hmem.2, ?_⟩
    intro x hx hxw
    have hxf : x ∈ a :: rows := by
      rw [← hf]
      exact List.mem_filter.mpr ⟨hx, by simpa using hxw⟩
    obtain ⟨h1, h2⟩ := firstOf_serial_ge a rows
    rw [← h]
    rcases List.mem_cons.mp hxf with rfl | hx'
    · exact h1
    · exact h2 x hx'

theorem firstStateVersion_isSome (s : Store) (wsID : String) (v₀ : StateVersion)
    (hv₀ : v₀ ∈ s.stateVersions) (hw₀ : v₀.workspaceID = wsID) :
    ∃ v, s.firstStateVersionBySerialDesc wsID = some v := by
  unfold Store.firstStateVersionBySerialDesc
  cases hf : s.stateVersions.filter (fun v => v.workspaceID == wsID) with
  | nil =>
    have : v₀ ∈ s.stateVersions.filter (fun v => v.workspaceID == wsID) :=
      List.mem_filter.mpr ⟨hv₀, by simpa using hw₀⟩
    rw [hf] at this
    exact absurd this (List.not_mem_nil _)
  | cons a rows => exact ⟨_, rfl⟩

theorem firstStateVersion_append_greater (s : Store) (wsID : String) (row : StateVersion)
    (hrow : row.workspaceID = wsID)
    (hgt : ∀ v ∈ s.stateVersions, v.workspaceID = wsID → v.serial < row.serial) :
    ({ s with stateVersions := s.stateVersions ++ [row] } :
      Store).firstStateVersionBySerialDesc wsID = some row := by
  have hfrow : List.filter (fun v => v.workspaceID == wsID) [row] = [row] := by
    simp [hrow]
  simp only [Store.firstStateVersionBySerialDesc, List.filter_append, hfrow]
  cases hf : s.stateVersions.filter (fun v => v.workspaceID == wsID) with
  | nil => rfl
  | cons a rows =>
    simp only [List.cons_append, firstOf_append, Store.firstOf]
    have hbest : Store.firstOf a rows ∈ s.stateVersions.filter (fun v => v.workspaceID == wsID) := by
      rw [hf]
      rcases firstOf_mem a rows with h' | h'
      · rw [h']; exact List.mem_cons_self _ _
      · exact List.mem_cons_of_mem _ h'
    have hm := List.mem_filter.mp hbest
    have hlt := hgt _ hm.1 (by simpa using hm.2)
    have hc : Store.comesFirst row (Store.firstOf a rows) = true :=
      (comesFirst_iff _ _).mpr (Or.inl hlt)
    rw [if_pos hc]

/-- What an accepted push leaves: answer 200 with an empty body, the new row
at the end of the StateVersion table, the pointer of the workspace rows
updated. -/
theorem post_accepts (lib : Lib) (s : Store) (wsID : String) (user : Option User)
    (body : Bytes) (env : Env) (hok : env.insertOk = true)
    (hfresh : ∀ v ∈ s.stateVersions, v.id ≠ env.newId) :
    StateHandler.HTTPBackendPost lib s wsID user (some body) env =
      (⟨200, .empty⟩,
        ({ s with stateVersions := s.stateVersions ++
            [{ id := env.newId, workspaceID := wsID, runID := none,
               serial := (lib.jsonUnmarshalState body).1.serial,
               lineage := (lib.jsonUnmarshalState body).1.lineage, state := body,
               stateHash := hexEncode (lib.sha256Sum body).val,
               outputs := jsonMarshalOutputs lib (lib.jsonUnmarshalState body).1.outputs,
               resourceCount := 0, createdAt := env.dbNow,
               createdBy := match user with
                 | some u => u.id
                 | none => "" }] } : Store).updateWorkspace wsID (fun w =>
          { w with currentStateID := some env.newId, updatedAt := env.dbNow })) := by
  simp only [StateHandler.HTTPBackendPost]
  rw [createStateVersion_eq_some s _ env hok hfresh]
  rfl

theorem firstStateVersion_updateWorkspace (s : Store) (wsID wsID₂ : String)
    (f : Workspace → Workspace) :
    (s.updateWorkspace wsID f).firstStateVersionBySerialDesc wsID₂ =
      s.firstStateVersionBySerialDesc wsID₂ := rfl


/-! ## Fetching the current state -/

/-- C16: when workspace `W` has at least one StateVersion, both
`StateHandler.GetCurrentState` and `StateHandler.HTTPBackendGet` answer 200
with the blob of one row `v` of the StateVersion table that belongs to `W`
and whose serial is at least the serial of every StateVersion of `W`; the
row they return is never one of another workspace. -/
theorem current_state_is_max_serial (s : Store) (wsID : String) (v₀ : StateVersion)
    (hv₀ : v₀ ∈ s.stateVersions) (hw₀ : v₀.workspaceID = wsID) :
    ∃ v ∈ s.stateVersions, v.workspaceID = wsID ∧
      (∀ x ∈ s.stateVersions, x.workspaceID = wsID → x.serial ≤ v.serial) ∧
      StateHandler.GetCurrentState s wsID = (⟨200, .raw "application/json" v.state⟩, s) ∧
      StateHandler.HTTPBackendGet s wsID = (⟨200, .raw "application/json" v.state⟩, s) := by
  obtain ⟨v, hv⟩ := firstStateVersion_isSome s wsID v₀ hv₀ hw₀
  obtain ⟨h1, h2, h3⟩ := firstStateVersion_spec s wsID v hv
  refine ⟨v, h1, h2, h3, ?_, ?_⟩
  · simp only [StateHandler.GetCurrentState, hv, StatusOK]
  · simp only [StateHandler.HTTPBackendGet, hv, StatusOK]

theorem current_state_is_max_serial_witness :
    sampleStateVersion "v5" "W" 5 [9] ∈ storeSerialFive.stateVersions ∧
    ∃ v ∈ storeSerialFive.stateVersions, v.workspaceID = "W" ∧
      (∀ x ∈ storeSerialFive.stateVersions, x.workspaceID = "W" → x.serial ≤ v.serial) ∧
      StateHandler.GetCurrentState storeSerialFive "W" =
        (⟨200, .raw "application/json" v.state⟩, storeSerialFive) ∧
      StateHandler.HTTPBackendGet storeSerialFive "W" =
        (⟨200, .raw "application/json" v.state⟩, storeSerialFive) :=
  ⟨by decide,
    current_state_is_max_serial storeSerialFive "W" (sampleStateVersion "v5" "W" 5 [9])
      (by decide) (by decide)⟩

/-- C20: `StateHandler.HTTPBackendGet` answers 204 with an empty body when the
workspace id has no StateVersion; otherwise it answers 200 with content type
`application/json` and the stored blob of a StateVersion of that workspace
with the maximum serial. Its status is always 200 or 204, and the store is
returned as given. -/
theorem backendGet_no_content_or_current (s : Store) (wsID : String) :
    ((∀ v ∈ s.stateVersions, v.workspaceID ≠ wsID) →
      StateHandler.HTTPBackendGet s wsID = (⟨204, .empty⟩, s)) ∧
    ((∃ v ∈ s.stateVersions, v.workspaceID = wsID) →
      ∃ v ∈ s.stateVersions, v.workspaceID = wsID ∧
        (∀ x ∈ s.stateVersions, x.workspaceID = wsID → x.serial ≤ v.serial) ∧
        StateHandler.HTTPBackendGet s wsID = (⟨200, .raw "application/json" v.state⟩, s)) ∧
    ((StateHandler.HTTPBackendGet s wsID).1.code = 200 ∨
      (StateHandler.HTTPBackendGet s wsID).1.code = 204) ∧
    (StateHandler.HTTPBackendGet s wsID).2 = s := by
  refine ⟨?_, ?_, ?_, ?_⟩
  · intro h
    simp only [StateHandler.HTTPBackendGet, firstStateVersion_eq_none s wsID h,
      StatusNoContent]
  · rintro ⟨v₀, hv₀, hw₀⟩
    obtain ⟨v, hv⟩ := firstStateVersion_isSome s wsID v₀ hv₀ hw₀
    obtain ⟨h1, h2, h3⟩ := firstStateVersion_spec s wsID v hv
    refine ⟨v, h1, h2, h3, ?_⟩
    simp only [StateHandler.HTTPBackendGet, hv, StatusOK]
  · unfold StateHandler.HTTPBackendGet
    split
    · exact Or.inr rfl
    · exact Or.inl rfl
  · unfold StateHandler.HTTPBackendGet
    split <;> rfl

theorem backendGet_no_content_or_current_witness :
    StateHandler.HTTPBackendGet storeUnlocked "W" = (⟨204, .empty⟩, storeUnlocked) ∧
    ∃ v ∈ storeSerialFive.stateVersions, v.workspaceID = "W" ∧
      (∀ x ∈ storeSerialFive.stateVersions, x.workspaceID = "W" → x.serial ≤ v.serial) ∧
      StateHandler.HTTPBackendGet storeSerialFive "W" =
        (⟨200, .raw "application/json" v.state⟩, storeSerialFive) :=
  ⟨(backendGet_no_content_or_current storeUnlocked "W").1 (by decide),
    (backendGet_no_content_or_current storeSerialFive "W").2.1
      ⟨sampleStateVersion "v5" "W" 5 [9], by decide, by decide⟩⟩

/-! ## Push followed by fetch -/

/-- C14, where the code departs from it: workspace `"W"` holds a
StateVersion with serial 5 and blob `[9]`; the push of the body
`{"serial":1,"lineage":"L1","outputs":{"ip":"1.2.3.4"}}` is answered 200,
and the fetch that follows returns `[9]`, not the pushed body. -/
theorem push_lower_serial_fetch_returns_older :
    (StateHandler.HTTPBackendPost sampleLib storeSerialFive "W" (some ⟨"u1"⟩)
      (some bodySerialOne) sampleEnv).1.code = 200 ∧
    (StateHandler.HTTPBackendGet
      (StateHandler.HTTPBackendPost sampleLib storeSerialFive "W" (some ⟨"u1"⟩)
        (some bodySerialOne) sampleEnv).2 "W").1 = ⟨200, .raw "application/json" [9]⟩ ∧
    (StateHandler.GetCurrentState
      (StateHandler.HTTPBackendPost sampleLib storeSerialFive "W" (some ⟨"u1"⟩)
        (some bodySerialOne) sampleEnv).2 "W").1 = ⟨200, .raw "application/json" [9]⟩ ∧
    bodySerialOne ≠ [9] := by
  decide

/-- A body whose declared serial does not fit a Go `int` is stored with the
serial 0 that `json.Unmarshal` leaves: pushed to workspace `"W"`, which holds
serial 5, the body declaring serial 2^63 is answered 200, the serials of
`"W"` become `[5, 0]`, the pointer names the new row and the fetch still
returns the blob `[9]` of serial 5. What the handler stores and the fetch
orders by is never the number in the body but the one left in `stateData`. -/
theorem push_overflowing_serial_stored_as_zero :
    bodySerialOverflow =
      ("\x7b\"serial\":9223372036854775808,\"lineage\":\"L1\"," ++
        "\"outputs\":\x7b\"ip\":\"1.2.3.4\"\x7d\x7d").toList.map
        (fun c => UInt8.ofNat c.toNat) ∧
    (sampleLib.jsonUnmarshalState bodySerialOverflow).1.serial = 0 ∧
    (StateHandler.HTTPBackendPost sampleLib storeSerialFive "W" (some ⟨"u1"⟩)
      (some bodySerialOverflow) sampleEnv).1.code = 200 ∧
    serialsOf (StateHandler.HTTPBackendPost sampleLib storeSerialFive "W" (some ⟨"u1"⟩)
      (some bodySerialOverflow) sampleEnv).2 "W" "L1" = [5, 0] ∧
    ((StateHandler.HTTPBackendPost sampleLib storeSerialFive "W" (some ⟨"u1"⟩)
      (some bodySerialOverflow) sampleEnv).2.firstWorkspace "W").map
        (fun w => w.currentStateID) = some (some "new") ∧
    (StateHandler.HTTPBackendGet
      (StateHandler.HTTPBackendPost sampleLib storeSerialFive "W" (some ⟨"u1"⟩)
        (some bodySerialOverflow) sampleEnv).2 "W").1 = ⟨200, .raw "application/json" [9]⟩ := by
  decide

/-- C14 as amended: for every workspace id, prior store and body for which
the serial `json.Unmarshal` leaves in `stateData` (the serial stored with the
new row) is greater than the serial of every StateVersion already stored for
the workspace, an accepted `StateHandler.HTTPBackendPost` followed by
`StateHandler.HTTPBackendGet` or `StateHandler.GetCurrentState` returns 200
with a body equal to the pushed bytes. -/
theorem push_then_fetch_roundtrip (lib : Lib) (s : Store) (wsID : String)
    (user : Option User) (body : Bytes) (env : Env) (hok : env.insertOk = true)
    (hfresh : ∀ v ∈ s.stateVersions, v.id ≠ env.newId)
    (hserial : ∀ v ∈ s.stateVersions, v.workspaceID = wsID →
      v.serial < (lib.jsonUnmarshalState body).1.serial) :
    (StateHandler.HTTPBackendPost lib s wsID user (some body) env).1 = ⟨200, .empty⟩ ∧
    (StateHandler.HTTPBackendGet
      (StateHandler.HTTPBackendPost lib s wsID user (some body) env).2 wsID).1 =
        ⟨200, .raw "application/json" body⟩ ∧
    (StateHandler.GetCurrentState
      (StateHandler.HTTPBackendPost lib s wsID user (some body) env).2 wsID).1 =
        ⟨200, .raw "application/json" body⟩ := by
  rw [post_accepts lib s wsID user body env hok hfresh]
  have hfirst := firstStateVersion_append_greater s wsID
    { id := env.newId, workspaceID := wsID, runID := none,
      serial := (lib.jsonUnmarshalState body).1.serial,
      lineage := (lib.jsonUnmarshalState body).1.lineage, state := body,
      stateHash := hexEncode (lib.sha256Sum body).val,
      outputs := jsonMarshalOutputs lib (lib.jsonUnmarshalState body).1.outputs,
      resourceCount := 0, createdAt := env.dbNow,
      createdBy := match user with
        | some u => u.id
        | none => "" } rfl hserial
  refine ⟨rfl, ?_, ?_⟩
  · simp only [StateHandler.HTTPBackendGet, firstStateVersion_updateWorkspace, hfirst,
      StatusOK]
  · simp only [StateHandler.GetCurrentState, firstStateVersion_updateWorkspace, hfirst,
      StatusOK]

theorem push_then_fetch_roundtrip_witness :
    (StateHandler.HTTPBackendPost sampleLib storeUnlocked "W" (some ⟨"u1"⟩)
      (some bodySerialOne) sampleEnv).1 = ⟨200, .empty⟩ ∧
    (StateHandler.HTTPBackendGet
      (StateHandler.HTTPBackendPost sampleLib storeUnlocked "W" (some ⟨"u1"⟩)
        (some bodySerialOne) sampleEnv).2 "W").1 =
        ⟨200, .raw "application/json" bodySerialOne⟩ ∧
    (StateHandler.GetCurrentState
      (StateHandler.HTTPBackendPost sampleLib storeUnlocked "W" (some ⟨"u1"⟩)
        (some bodySerialOne) sampleEnv).2 "W").1 =
        ⟨200, .raw "application/json" bodySerialOne⟩ :=
  push_then_fetch_roundtrip sampleLib storeUnlocked "W" (some ⟨"u1"⟩) bodySerialOne sampleEnv
    (by decide) (by decide) (by decide)


/-! ## What a push stores -/

theorem hexDigit_mem (n : Nat) (h : n < 16) : hexDigit n ∈ "0123456789abcdef".toList := by
  revert n
  decide

theorem hexEncode_length (bs : Bytes) : (hexEncode bs).length = 2 * bs.length := by
  show (bs.flatMap (fun b => [hexDigit (b.toNat / 16), hexDigit (b.toNat % 16)])).length = _
  induction bs with
  | nil => rfl
  | cons b bs ih =>
    simp only [List.flatMap_cons, List.length_append, List.length_cons, List.length_nil, ih]
    omega

theorem hexEncode_chars (bs : Bytes) :
    ∀ c ∈ (hexEncode bs).toList, c ∈ "0123456789abcdef".toList := by
  intro c hc
  have hc' : c ∈ bs.flatMap (fun b => [hexDigit (b.toNat / 16), hexDigit (b.toNat % 16)]) := hc
  obtain ⟨b, _, hb⟩ := List.mem_flatMap.mp hc'
  have hlt : b.toNat < 256 := UInt8.toNat_lt_size b
  simp only [List.mem_cons, List.mem_singleton, List.not_mem_nil, or_false] at hb
  rcases hb with rfl | rfl
  · exact hexDigit_mem _ (by omega)
  · exact hexDigit_mem _ (by omega)

theorem hexAlphabet_getD (n : Nat) (h : n < 16) :
    hexAlphabet.getD n '?' = hexDigit n ∧ hexAlphabet[n]? = some (hexDigit n) ∧
      hexValue (hexDigit n) = some n := by
  revert n
  decide

theorem hexEncode_eq_lowercaseHex (bs : Bytes) : (hexEncode bs).toList = lowercaseHex bs := by
  show bs.flatMap (fun b => [hexDigit (b.toNat / 16), hexDigit (b.toNat % 16)]) = _
  induction bs with
  | nil => rfl
  | cons b bs ih =>
    have hlt : b.toNat < 256 := UInt8.toNat_lt_size b
    simp only [List.flatMap_cons, lowercaseHex, ih,
      (hexAlphabet_getD (b.toNat / 16) (by omega)).1,
      (hexAlphabet_getD (b.toNat % 16) (by omega)).1]
    rfl

theorem hexEncode_digit_at (bs : Bytes) :
    ∀ (i : Nat) (b : UInt8), bs[i]? = some b →
      (hexEncode bs).toList[2 * i]? = hexAlphabet[b.toNat / 16]? ∧
      (hexEncode bs).toList[2 * i + 1]? = hexAlphabet[b.toNat % 16]? := by
  show ∀ (i : Nat) (b : UInt8), bs[i]? = some b →
    (bs.flatMap (fun b => [hexDigit (b.toNat / 16), hexDigit (b.toNat % 16)]))[2 * i]? =
      hexAlphabet[b.toNat / 16]? ∧
    (bs.flatMap (fun b => [hexDigit (b.toNat / 16), hexDigit (b.toNat % 16)]))[2 * i + 1]? =
      hexAlphabet[b.toNat % 16]?
  induction bs with
  | nil =>
    intro i b h
    simp at h
  | cons a bs ih =>
    intro i b h
    cases i with
    | zero =>
      have hab : a = b := by simpa using h
      subst hab
      have hlt : a.toNat < 256 := UInt8.toNat_lt_size a
      rw [(hexAlphabet_getD (a.toNat / 16) (by omega)).2.1,
        (hexAlphabet_getD (a.toNat % 16) (by omega)).2.1]
      simp only [List.flatMap_cons, List.cons_append, List.nil_append, Nat.mul_zero,
        Nat.zero_add, List.getElem?_cons_zero, List.getElem?_cons_succ, and_self]
    | succ j =>
      have hj : bs[j]? = some b := by simpa using h
      have h2 : 2 * (j + 1) = 2 * j + 1 + 1 := by omega
      obtain ⟨e1, e2⟩ := ih j b hj
      rw [h2]
      simp only [List.flatMap_cons, List.cons_append, List.nil_append,
        List.getElem?_cons_succ]
      exact ⟨e1, e2⟩

theorem hexDecode_hexEncode (bs : Bytes) :
    hexDecode (hexEncode bs).toList = some (bs.map (fun b => b.toNat)) := by
  rw [hexEncode_eq_lowercaseHex]
  induction bs with
  | nil => rfl
  | cons b bs ih =>
    have hlt : b.toNat < 256 := UInt8.toNat_lt_size b
    simp only [lowercaseHex, hexDecode, (hexAlphabet_getD (b.toNat / 16) (by omega)).1,
      (hexAlphabet_getD (b.toNat % 16) (by omega)).1,
      (hexAlphabet_getD (b.toNat / 16) (by omega)).2.2,
      (hexAlphabet_getD (b.toNat % 16) (by omega)).2.2, ih, List.map_cons]
    congr 2
    omega

/-- The rendering of a three-byte array: `00`, `ab`, `ff`. -/
theorem hexEncode_sample : hexEncode [0, 171, 255] = "00abff" := by
  decide

/-- C15: for every body and whatever `json.Unmarshal` makes of it, the row
stored by an accepted `StateHandler.HTTPBackendPost` has `state` equal to the
body and `stateHash` equal to the lowercase hexadecimal encoding of the
32-byte SHA-256 digest of the body: 64 characters, each among
`0123456789abcdef`; the text is the encoding as the specification words it
(`lowercaseHex`), so that for the byte `b` at position `i` of the digest the
characters at positions `2 i` and `2 i + 1` are the digits of `hexAlphabet`
numbered `b / 16` and `b % 16`, and the text decodes back to the digest. -/
theorem post_stores_body_and_digest (lib : Lib) (s : Store) (wsID : String)
    (user : Option User) (body : Bytes) (env : Env) (hok : env.insertOk = true)
    (hfresh : ∀ v ∈ s.stateVersions, v.id ≠ env.newId) :
    ∃ row, (StateHandler.HTTPBackendPost lib s wsID user (some body) env).2.stateVersions =
        s.stateVersions ++ [row] ∧
      row.state = body ∧
      row.stateHash = hexEncode (lib.sha256Sum body).val ∧
      row.stateHash.length = 64 ∧
      (∀ c ∈ row.stateHash.toList, c ∈ "0123456789abcdef".toList) ∧
      row.stateHash.toList = lowercaseHex (lib.sha256Sum body).val ∧
      (∀ (i : Nat) (b : UInt8), (lib.sha256Sum body).val[i]? = some b →
        row.stateHash.toList[2 * i]? = hexAlphabet[b.toNat / 16]? ∧
        row.stateHash.toList[2 * i + 1]? = hexAlphabet[b.toNat % 16]?) ∧
      hexDecode row.stateHash.toList =
        some ((lib.sha256Sum body).val.map (fun b => b.toNat)) := by
  rw [post_accepts lib s wsID user body env hok hfresh]
  refine ⟨_, rfl, rfl, rfl, ?_, ?_, ?_, ?_, ?_⟩
  · show (hexEncode (lib.sha256Sum body).val).length = 64
    rw [hexEncode_length, (lib.sha256Sum body).property]
  · exact hexEncode_chars _
  · exact hexEncode_eq_lowercaseHex _
  · exact hexEncode_digit_at _
  · exact hexDecode_hexEncode _

theorem post_stores_body_and_digest_witness :
    ∃ row, (StateHandler.HTTPBackendPost sampleLib storeUnlocked "W" (some ⟨"u1"⟩)
        (some [1, 2, 3]) sampleEnv).2.stateVersions = storeUnlocked.stateVersions ++ [row] ∧
      row.state = [1, 2, 3] ∧
      row.stateHash = "039058c6f2c0cb492c533b0a4d14ef77cc0f78abccced5287d84a1a2011cfb81" ∧
      row.stateHash.length = 64 ∧
      hexDecode row.stateHash.toList = some (digestOneTwoThree.val.map (fun b => b.toNat)) := by
  obtain ⟨row, h1, h2, h3, h4, _, _, _, h8⟩ :=
    post_stores_body_and_digest sampleLib storeUnlocked "W" (some ⟨"u1"⟩) [1, 2, 3] sampleEnv
      (by decide) (by decide)
  refine ⟨row, h1, h2, ?_, h4, h8⟩
  rw [h3]
  decide

/-- C19, where the code departs from it: for the body
`{"serial":"x","lineage":"L1"}` decoding reports a type error, the push is
answered 200 and the body is stored verbatim, yet the stored lineage is
`"L1"`, not empty, and the stored outputs text is `null`. -/
theorem type_error_keeps_decoded_lineage :
    (sampleLib.jsonUnmarshalState bodySerialIsString).2 = true ∧
    (StateHandler.HTTPBackendPost sampleLib storeUnlocked "W" (some ⟨"u1"⟩)
      (some bodySerialIsString) sampleEnv).1.code = 200 ∧
    (StateHandler.HTTPBackendPost sampleLib storeUnlocked "W" (some ⟨"u1"⟩)
      (some bodySerialIsString) sampleEnv).2.stateVersions.map
        (fun v => (v.state, v.serial, v.lineage, v.outputs)) =
      [(bodySerialIsString, 0, "L1", "null")] ∧
    ("L1" : String) ≠ "" := by
  decide

/-- C19 as amended: for every body, whether or not decoding reports an error,
an accepted `StateHandler.HTTPBackendPost` answers 200 and stores a row whose
`state` is the body verbatim, whose serial and lineage are the values
`json.Unmarshal` left in `stateData`, and whose outputs text is the encoding
of the outputs map it left. When the three fields were left at their zero
values the row has serial 0, an empty lineage and the outputs text `null`. -/
theorem post_stores_what_unmarshal_left (lib : Lib) (s : Store) (wsID : String)
    (user : Option User) (body : Bytes) (env : Env) (hok : env.insertOk = true)
    (hfresh : ∀ v ∈ s.stateVersions, v.id ≠ env.newId) :
    (StateHandler.HTTPBackendPost lib s wsID user (some body) env).1 = ⟨200, .empty⟩ ∧
    ∃ row, (StateHandler.HTTPBackendPost lib s wsID user (some body) env).2.stateVersions =
        s.stateVersions ++ [row] ∧
      row.state = body ∧
      row.serial = (lib.jsonUnmarshalState body).1.serial ∧
      row.lineage = (lib.jsonUnmarshalState body).1.lineage ∧
      row.outputs = jsonMarshalOutputs lib (lib.jsonUnmarshalState body).1.outputs ∧
      ((lib.jsonUnmarshalState body).1.serial = 0 →
        (lib.jsonUnmarshalState body).1.lineage = "" →
        (lib.jsonUnmarshalState body).1.outputs = none →
        row.serial = 0 ∧ row.lineage = "" ∧ row.outputs = "null") := by
  rw [post_accepts lib s wsID user body env hok hfresh]
  refine ⟨rfl, _, rfl, rfl, rfl, rfl, rfl, ?_⟩
  intro h1 h2 h3
  refine ⟨h1, h2, ?_⟩
  show jsonMarshalOutputs lib (lib.jsonUnmarshalState body).1.outputs = "null"
  rw [h3]
  rfl

theorem post_stores_what_unmarshal_left_witness :
    (sampleLib.jsonUnmarshalState [1, 2, 3]).2 = true ∧
    (StateHandler.HTTPBackendPost sampleLib storeUnlocked "W" (some ⟨"u1"⟩) (some [1, 2, 3])
      sampleEnv).1 = ⟨200, .empty⟩ ∧
    ∃ row, (StateHandler.HTTPBackendPost sampleLib storeUnlocked "W" (some ⟨"u1"⟩)
        (some [1, 2, 3]) sampleEnv).2.stateVersions = storeUnlocked.stateVersions ++ [row] ∧
      row.state = [1, 2, 3] ∧ row.serial = 0 ∧ row.lineage = "" ∧ row.outputs = "null" := by
  obtain ⟨h200, row, hrows, hstate, _, _, _, hzero⟩ :=
    post_stores_what_unmarshal_left sampleLib storeUnlocked "W" (some ⟨"u1"⟩) [1, 2, 3]
      sampleEnv (by decide) (by decide)
  obtain ⟨z1, z2, z3⟩ := hzero (by decide) (by decide) rfl
  exact ⟨by decide, h200, row, hrows, hstate, z1, z2, z3⟩


/-! ## The current-state pointer and the order of serials -/

/-- C17, where the code departs from it: workspace `"W"` holds a StateVersion
`"v5"` with serial 5; the push of a body declaring serial 1 is answered 200
and sets `currentStateID` of `"W"` to the new row `"new"`, while the
StateVersion of `"W"` with the highest serial, the one the fetch returns, is
still `"v5"`. -/
theorem push_lower_serial_pointer_not_highest :
    (StateHandler.HTTPBackendPost sampleLib storeSerialFive "W" (some ⟨"u1"⟩)
      (some bodySerialOne) sampleEnv).1.code = 200 ∧
    (StateHandler.HTTPBackendPost sampleLib storeSerialFive "W" (some ⟨"u1"⟩)
      (some bodySerialOne) sampleEnv).2.stateVersions.map (fun v => (v.id, v.serial)) =
        [("v5", 5), ("new", 1)] ∧
    ((StateHandler.HTTPBackendPost sampleLib storeSerialFive "W" (some ⟨"u1"⟩)
      (some bodySerialOne) sampleEnv).2.firstWorkspace "W").map
        (fun w => w.currentStateID) = some (some "new") ∧
    ((StateHandler.HTTPBackendPost sampleLib storeSerialFive "W" (some ⟨"u1"⟩)
      (some bodySerialOne) sampleEnv).2.firstStateVersionBySerialDesc "W").map
        (fun v => v.id) = some "v5" := by
  decide

/-- C17 as amended: after an accepted `StateHandler.HTTPBackendPost` to an
existing workspace `W`, `W.currentStateID` references the row stored by that
push, whose serial is the one `json.Unmarshal` left in `stateData`; when the
serial stored with that row is greater than every serial already stored for
`W`, that row has the highest serial of `W` and is the one the current-state
fetch returns. -/
theorem post_sets_pointer_to_new_version (lib : Lib) (s : Store) (wsID : String)
    (user : Option User) (body : Bytes) (env : Env) (w : Workspace)
    (hw : s.firstWorkspace wsID = some w) (hok : env.insertOk = true)
    (hfresh : ∀ v ∈ s.stateVersions, v.id ≠ env.newId) :
    ∃ row w',
      (StateHandler.HTTPBackendPost lib s wsID user (some body) env).2.stateVersions =
        s.stateVersions ++ [row] ∧
      row.id = env.newId ∧ row.workspaceID = wsID ∧ row.state = body ∧
      (StateHandler.HTTPBackendPost lib s wsID user (some body) env).2.firstWorkspace wsID =
        some w' ∧
      w'.currentStateID = some row.id ∧
      row.serial = (lib.jsonUnmarshalState body).1.serial ∧
      ((∀ v ∈ s.stateVersions, v.workspaceID = wsID → v.serial < row.serial) →
        (StateHandler.HTTPBackendPost lib s wsID user (some body)
          env).2.firstStateVersionBySerialDesc wsID = some row ∧
        (∀ x ∈ (StateHandler.HTTPBackendPost lib s wsID user (some body)
            env).2.stateVersions, x.workspaceID = wsID → x.serial ≤ row.serial) ∧
        (StateHandler.GetCurrentState
          (StateHandler.HTTPBackendPost lib s wsID user (some body) env).2 wsID).1 =
            ⟨200, .raw "application/json" row.state⟩) := by
  rw [post_accepts lib s wsID user body env hok hfresh]
  refine ⟨_, _, rfl, rfl, rfl, rfl,
    firstWorkspace_updateWorkspace_self _ wsID w _ hw (fun _ => rfl) (fun _ => rfl), rfl, rfl,
    ?_⟩
  intro hserial
  have hfirst := firstStateVersion_append_greater s wsID _ rfl hserial
  refine ⟨hfirst, (firstStateVersion_spec _ wsID _ hfirst).2.2, ?_⟩
  simp only [StateHandler.GetCurrentState, firstStateVersion_updateWorkspace, hfirst, StatusOK]

theorem post_sets_pointer_to_new_version_witness :
    storeUnlocked.firstWorkspace "W" = some (sampleWorkspace "W" false) ∧
    ∃ row w',
      (StateHandler.HTTPBackendPost sampleLib storeUnlocked "W" (some ⟨"u1"⟩)
        (some bodySerialOne) sampleEnv).2.stateVersions =
          storeUnlocked.stateVersions ++ [row] ∧
      row.id = sampleEnv.newId ∧
      (StateHandler.HTTPBackendPost sampleLib storeUnlocked "W" (some ⟨"u1"⟩)
        (some bodySerialOne) sampleEnv).2.firstWorkspace "W" = some w' ∧
      w'.currentStateID = some row.id ∧
      (StateHandler.HTTPBackendPost sampleLib storeUnlocked "W" (some ⟨"u1"⟩)
        (some bodySerialOne) sampleEnv).2.firstStateVersionBySerialDesc "W" = some row := by
  obtain ⟨row, w', h1, h2, _, _, h5, h6, _, h7⟩ :=
    post_sets_pointer_to_new_version sampleLib storeUnlocked "W" (some ⟨"u1"⟩) bodySerialOne
      sampleEnv (sampleWorkspace "W" false) (by decide) (by decide) (by decide)
  exact ⟨by decide, row, w', h1, h2, h5, h6,
    (h7 (fun v hv => absurd hv (List.not_mem_nil v))).1⟩

theorem serialsOf_append (s : Store) (row : StateVersion) (wsID lineage : String) :
    serialsOf { s with stateVersions := s.stateVersions ++ [row] } wsID lineage =
      serialsOf s wsID lineage ++
        (if (row.workspaceID == wsID && row.lineage == lineage) = true then [row.serial]
          else []) := by
  simp only [serialsOf, List.filter_append, List.map_append]
  by_cases h : (row.workspaceID == wsID && row.lineage == lineage) = true
  · rw [if_pos h, List.filter_cons_of_pos (by exact h)]; rfl
  · rw [if_neg h, List.filter_cons_of_neg (by exact h)]; rfl

theorem serialsOf_updateWorkspace (s : Store) (wsID wsID₂ lineage : String)
    (f : Workspace → Workspace) :
    serialsOf (s.updateWorkspace wsID f) wsID₂ lineage = serialsOf s wsID₂ lineage := rfl

/-- C18, where the code departs from it: two pushes of the same body, which
declares serial 1 and lineage `"L1"`, to workspace `"W"` are both answered
200, and the serials stored for `"W"` and `"L1"`, in the order accepted, are
`[1, 1]`, which is not strictly increasing. -/
theorem same_serial_accepted_twice :
    (StateHandler.HTTPBackendPost sampleLib storeUnlocked "W" (some ⟨"u1"⟩)
      (some bodySerialOne) sampleEnv).1.code = 200 ∧
    (StateHandler.HTTPBackendPost sampleLib
      (StateHandler.HTTPBackendPost sampleLib storeUnlocked "W" (some ⟨"u1"⟩)
        (some bodySerialOne) sampleEnv).2 "W" (some ⟨"u1"⟩) (some bodySerialOne)
      sampleEnvLater).1.code = 200 ∧
    serialsOf (StateHandler.HTTPBackendPost sampleLib
      (StateHandler.HTTPBackendPost sampleLib storeUnlocked "W" (some ⟨"u1"⟩)
        (some bodySerialOne) sampleEnv).2 "W" (some ⟨"u1"⟩) (some bodySerialOne)
      sampleEnvLater).2 "W" "L1" = [1, 1] ∧
    ¬ List.Pairwise (fun a b : Int => a < b) [1, 1] := by
  decide

/-- C18 as amended: an accepted `StateHandler.HTTPBackendPost` appends the
serial that `json.Unmarshal` left in `stateData` to the serials stored for
the workspace and the lineage it left there, without comparing it to those
already stored, and leaves the serials of every other lineage as they were.
The sequence after the push is strictly increasing exactly when it was before
and that serial is greater than every serial already stored for that
workspace and lineage. -/
theorem post_appends_decoded_serial (lib : Lib) (s : Store) (wsID : String)
    (user : Option User) (body : Bytes) (env : Env) (hok : env.insertOk = true)
    (hfresh : ∀ v ∈ s.stateVersions, v.id ≠ env.newId) :
    serialsOf (StateHandler.HTTPBackendPost lib s wsID user (some body) env).2 wsID
        (lib.jsonUnmarshalState body).1.lineage =
      serialsOf s wsID (lib.jsonUnmarshalState body).1.lineage ++
        [(lib.jsonUnmarshalState body).1.serial] ∧
    (∀ lineage, lineage ≠ (lib.jsonUnmarshalState body).1.lineage →
      serialsOf (StateHandler.HTTPBackendPost lib s wsID user (some body) env).2 wsID lineage =
        serialsOf s wsID lineage) ∧
    (List.Pairwise (fun a b : Int => a < b)
        (serialsOf (StateHandler.HTTPBackendPost lib s wsID user (some body) env).2 wsID
          (lib.jsonUnmarshalState body).1.lineage) ↔
      List.Pairwise (fun a b : Int => a < b)
          (serialsOf s wsID (lib.jsonUnmarshalState body).1.lineage) ∧
        ∀ x ∈ serialsOf s wsID (lib.jsonUnmarshalState body).1.lineage,
          x < (lib.jsonUnmarshalState body).1.serial) := by
  rw [post_accepts lib s wsID user body env hok hfresh]
  have hsame : serialsOf
      (({ s with stateVersions := s.stateVersions ++
          [{ id := env.newId, workspaceID := wsID, runID := none,
             serial := (lib.jsonUnmarshalState body).1.serial,
             lineage := (lib.jsonUnmarshalState body).1.lineage, state := body,
             stateHash := hexEncode (lib.sha256Sum body).val,
             outputs := jsonMarshalOutputs lib (lib.jsonUnmarshalState body).1.outputs,
             resourceCount := 0, createdAt := env.dbNow,
             createdBy := match user with
               | some u => u.id
               | none => "" }] } : Store).updateWorkspace wsID (fun w =>
        { w with currentStateID := some env.newId, updatedAt := env.dbNow })) wsID
        (lib.jsonUnmarshalState body).1.lineage =
      serialsOf s wsID (lib.jsonUnmarshalState body).1.lineage ++
        [(lib.jsonUnmarshalState body).1.serial] := by
    rw [serialsOf_updateWorkspace, serialsOf_append]
    simp
  refine ⟨hsame, ?_, ?_⟩
  · intro lineage hne
    rw [serialsOf_updateWorkspace, serialsOf_append]
    have hne' : ¬ (lib.jsonUnmarshalState body).1.lineage = lineage := fun h => hne h.symm
    simp [hne']
  · rw [hsame, List.pairwise_append]
    simp

theorem post_appends_decoded_serial_witness :
    serialsOf (StateHandler.HTTPBackendPost sampleLib storeUnlocked "W" (some ⟨"u1"⟩)
        (some bodySerialOne) sampleEnv).2 "W"
        (sampleLib.jsonUnmarshalState bodySerialOne).1.lineage =
      serialsOf storeUnlocked "W" (sampleLib.jsonUnmarshalState bodySerialOne).1.lineage ++
        [(sampleLib.jsonUnmarshalState bodySerialOne).1.serial] :=
  (post_appends_decoded_serial sampleLib storeUnlocked "W" (some ⟨"u1"⟩) bodySerialOne
    sampleEnv (by decide) (by decide)).1


/-! ## Outputs -/

/-- C21, where the code departs from it: workspace `"W"` has no StateVersion
and `StateHandler.GetOutputs` answers 404 "No state found", not 200 with an
empty mapping. -/
theorem getOutputs_without_state_not_found :
    storeUnlocked.stateVersions = [] ∧
    StateHandler.GetOutputs sampleLib storeUnlocked "W" =
      (⟨404, .error "No state found"⟩, storeUnlocked) ∧
    (StateHandler.GetOutputs sampleLib storeUnlocked "W").1.code ≠ 200 := by
  decide

/-- C21 as amended: for a workspace with no StateVersion
`StateHandler.GetOutputs` answers 404 "No state found"; for a workspace whose
current StateVersion has an empty outputs column it answers 200 with the
empty mapping. -/
theorem getOutputs_not_found_or_empty (lib : Lib) (s : Store) (wsID : String) :
    ((∀ v ∈ s.stateVersions, v.workspaceID ≠ wsID) →
      StateHandler.GetOutputs lib s wsID = (⟨404, .error "No state found"⟩, s)) ∧
    (∀ v, s.firstStateVersionBySerialDesc wsID = some v → v.outputs = "" →
      StateHandler.GetOutputs lib s wsID = (⟨200, .json (.object [])⟩, s)) := by
  constructor
  · intro h
    simp only [StateHandler.GetOutputs, firstStateVersion_eq_none s wsID h, StatusNotFound]
  · intro v hv hout
    simp only [StateHandler.GetOutputs, hv, hout, beq_self_eq_true, if_true, StatusOK]

theorem getOutputs_not_found_or_empty_witness :
    StateHandler.GetOutputs sampleLib storeUnlocked "W" =
      (⟨404, .error "No state found"⟩, storeUnlocked) ∧
    StateHandler.GetOutputs sampleLib
        { storeUnlocked with
          stateVersions := [{ sampleStateVersion "v1" "W" 1 [9] with outputs := "" }] } "W" =
      (⟨200, .json (.object [])⟩,
        { storeUnlocked with
          stateVersions := [{ sampleStateVersion "v1" "W" 1 [9] with outputs := "" }] }) :=
  ⟨(getOutputs_not_found_or_empty sampleLib storeUnlocked "W").1 (by decide),
    (getOutputs_not_found_or_empty sampleLib
      { storeUnlocked with
        stateVersions := [{ sampleStateVersion "v1" "W" 1 [9] with outputs := "" }] } "W").2
      { sampleStateVersion "v1" "W" 1 [9] with outputs := "" } (by decide) (by decide)⟩

/-- A push whose body declares no outputs stores the text `null`, which is not
the empty text `GetOutputs` tests for: the answer is 200 with the value nil. -/
theorem getOutputs_after_push_without_outputs :
    (StateHandler.HTTPBackendPost sampleLib storeUnlocked "W" (some ⟨"u1"⟩) (some [1, 2, 3])
      sampleEnv).2.stateVersions.map (fun v => v.outputs) = ["null"] ∧
    (StateHandler.GetOutputs sampleLib
      (StateHandler.HTTPBackendPost sampleLib storeUnlocked "W" (some ⟨"u1"⟩) (some [1, 2, 3])
        sampleEnv).2 "W").1 = ⟨200, .json .null⟩ := by
  decide

theorem getOutputs_of_first (lib : Lib) (s : Store) (wsID : String) (v : StateVersion)
    (hv : s.firstStateVersionBySerialDesc wsID = some v) (hne : v.outputs ≠ "") :
    StateHandler.GetOutputs lib s wsID =
      (⟨200, .json (lib.jsonUnmarshalValue v.outputs)⟩, s) := by
  have hb : (v.outputs == "") = false := by simpa using hne
  simp only [StateHandler.GetOutputs, hv, hb, Bool.false_eq_true, if_false, StatusOK]

/-- C22, where the code departs from it: workspace `"W"` holds one
StateVersion, of serial 5 and outputs text `null`; the pushed body
`{"serial":9223372036854775808,"lineage":"L1","outputs":{"ip":"1.2.3.4"}}` is
a JSON object with an integer serial, a string lineage and an object-valued
outputs field, and no StateVersion of `"W"` has a serial greater than or
equal to the one it declares. The push is answered 200, but the number does
not fit a Go `int`, the row is stored with serial 0, and
`StateHandler.GetOutputs` answers from the version of serial 5: 200 with the
value nil, not the pushed outputs. -/
theorem overflowing_serial_outputs_from_older_version :
    bodySerialOverflow =
      ("\x7b\"serial\":9223372036854775808,\"lineage\":\"L1\"," ++
        "\"outputs\":\x7b\"ip\":\"1.2.3.4\"\x7d\x7d").toList.map
        (fun c => UInt8.ofNat c.toNat) ∧
    (∀ v ∈ storeSerialFive.stateVersions, v.workspaceID = "W" →
      v.serial < 9223372036854775808) ∧
    (sampleLib.jsonUnmarshalState bodySerialOverflow).1.outputs =
      some [("ip", .string "1.2.3.4")] ∧
    (StateHandler.HTTPBackendPost sampleLib storeSerialFive "W" (some ⟨"u1"⟩)
      (some bodySerialOverflow) sampleEnv).1.code = 200 ∧
    (StateHandler.HTTPBackendPost sampleLib storeSerialFive "W" (some ⟨"u1"⟩)
      (some bodySerialOverflow) sampleEnv).2.stateVersions.map
        (fun v => (v.id, v.serial, v.outputs)) =
      [("v5", 5, "null"), ("new", 0, "\x7b\"ip\":\"1.2.3.4\"\x7d")] ∧
    (StateHandler.GetOutputs sampleLib
      (StateHandler.HTTPBackendPost sampleLib storeSerialFive "W" (some ⟨"u1"⟩)
        (some bodySerialOverflow) sampleEnv).2 "W").1 = ⟨200, .json .null⟩ ∧
    (⟨200, .json .null⟩ : Response) ≠ ⟨200, .json (.object [("ip", .string "1.2.3.4")])⟩ := by
  decide

/-- C22 as amended: a body for which `json.Unmarshal` leaves in `stateData`
the outputs map `O` and a serial greater than the serial of every
StateVersion already stored for the workspace, pushed with
`StateHandler.HTTPBackendPost` (accepted), is followed by a
`StateHandler.GetOutputs` that answers 200 with the value the JSON library
decodes from the text it encoded `O` to, that text not being empty; this
value is `O` when the library decodes the text back to `O`. -/
theorem outputs_roundtrip (lib : Lib) (s : Store) (wsID : String) (user : Option User)
    (body : Bytes) (env : Env) (O : List (String × JSONValue))
    (hok : env.insertOk = true) (hfresh : ∀ v ∈ s.stateVersions, v.id ≠ env.newId)
    (hserial : ∀ v ∈ s.stateVersions, v.workspaceID = wsID →
      v.serial < (lib.jsonUnmarshalState body).1.serial)
    (hO : (lib.jsonUnmarshalState body).1.outputs = some O)
    (hne : lib.jsonMarshalObject O ≠ "") :
    (StateHandler.HTTPBackendPost lib s wsID user (some body) env).1.code = 200 ∧
    (StateHandler.GetOutputs lib
      (StateHandler.HTTPBackendPost lib s wsID user (some body) env).2 wsID).1 =
        ⟨200, .json (lib.jsonUnmarshalValue (lib.jsonMarshalObject O))⟩ ∧
    (lib.jsonUnmarshalValue (lib.jsonMarshalObject O) = .object O →
      (StateHandler.GetOutputs lib
        (StateHandler.HTTPBackendPost lib s wsID user (some body) env).2 wsID).1 =
          ⟨200, .json (.object O)⟩) := by
  rw [post_accepts lib s wsID user body env hok hfresh]
  have hfirst := firstStateVersion_append_greater s wsID
    { id := env.newId, workspaceID := wsID, runID := none,
      serial := (lib.jsonUnmarshalState body).1.serial,
      lineage := (lib.jsonUnmarshalState body).1.lineage, state := body,
      stateHash := hexEncode (lib.sha256Sum body).val,
      outputs := jsonMarshalOutputs lib (lib.jsonUnmarshalState body).1.outputs,
      resourceCount := 0, createdAt := env.dbNow,
      createdBy := match user with
        | some u => u.id
        | none => "" } rfl hserial
  have hout : jsonMarshalOutputs lib (lib.jsonUnmarshalState body).1.outputs =
      lib.jsonMarshalObject O := by rw [hO]; rfl
  have hnonempty : jsonMarshalOutputs lib (lib.jsonUnmarshalState body).1.outputs ≠ "" := by
    rw [hout]; exact hne
  refine ⟨rfl, ?_, ?_⟩
  · rw [getOutputs_of_first lib _ wsID _
      ((firstStateVersion_updateWorkspace _ wsID wsID _).trans hfirst) hnonempty]
    show (⟨200, .json (lib.jsonUnmarshalValue
      (jsonMarshalOutputs lib (lib.jsonUnmarshalState body).1.outputs))⟩ : Response) = _
    rw [hout]
  · intro hback
    rw [getOutputs_of_first lib _ wsID _
      ((firstStateVersion_updateWorkspace _ wsID wsID _).trans hfirst) hnonempty]
    show (⟨200, .json (lib.jsonUnmarshalValue
      (jsonMarshalOutputs lib (lib.jsonUnmarshalState body).1.outputs))⟩ : Response) = _
    rw [hout, hback]

theorem outputs_roundtrip_witness :
    (StateHandler.HTTPBackendPost sampleLib storeUnlocked "W" (some ⟨"u1"⟩)
      (some bodySerialOne) sampleEnv).1.code = 200 ∧
    (StateHandler.GetOutputs sampleLib
      (StateHandler.HTTPBackendPost sampleLib storeUnlocked "W" (some ⟨"u1"⟩)
        (some bodySerialOne) sampleEnv).2 "W").1 =
        ⟨200, .json (.object [("ip", .string "1.2.3.4")])⟩ :=
  ⟨(outputs_roundtrip sampleLib storeUnlocked "W" (some ⟨"u1"⟩) bodySerialOne sampleEnv
      [("ip", .string "1.2.3.4")] (by decide) (by decide) (by decide) (by decide)
      (by decide)).1,
    (outputs_roundtrip sampleLib storeUnlocked "W" (some ⟨"u1"⟩) bodySerialOne sampleEnv
      [("ip", .string "1.2.3.4")] (by decide) (by decide) (by decide) (by decide)
      (by decide)).2.2 (by decide)⟩

/-! ## Push atomicity -/

theorem updateWorkspace_of_not_found (s : Store) (wsID : String) (f : Workspace → Workspace)
    (hw : s.firstWorkspace wsID = none) : s.updateWorkspace wsID f = s := by
  have hall := List.find?_eq_none.mp hw
  have hmap : s.workspaces.map
      (fun w => if (w.id == wsID && w.deletedAt.isNone) = true then f w else w) =
      s.workspaces := by
    conv_rhs => rw [← List.map_id s.workspaces]
    apply List.map_congr_left
    intro x hx
    have hx' : (x.id == wsID && x.deletedAt.isNone) = false :=
      Bool.eq_false_iff.mpr (hall x hx)
    simp only [hx', Bool.false_eq_true, if_false, id]
  simp only [Store.updateWorkspace, hmap]

/-- Push to a workspace id without a row: an accepted
`StateHandler.HTTPBackendPost` answers 200, records the StateVersion, and the
UPDATE of `current_state_id`, which matches no row, leaves every workspace
row as it was. -/
theorem post_to_missing_workspace (lib : Lib) (s : Store) (wsID : String)
    (user : Option User) (b : Bytes) (env : Env) (hw : s.firstWorkspace wsID = none)
    (hok : env.insertOk = true) (hfresh : ∀ v ∈ s.stateVersions, v.id ≠ env.newId) :
    (StateHandler.HTTPBackendPost lib s wsID user (some b) env).1.code = 200 ∧
    (∃ row, (StateHandler.HTTPBackendPost lib s wsID user (some b) env).2.stateVersions =
        s.stateVersions ++ [row] ∧ row.workspaceID = wsID) ∧
    (StateHandler.HTTPBackendPost lib s wsID user (some b) env).2.workspaces =
      s.workspaces := by
  rw [post_accepts lib s wsID user b env hok hfresh]
  have hgone := updateWorkspace_of_not_found
    ({ s with stateVersions := s.stateVersions ++
        [{ id := env.newId, workspaceID := wsID, runID := none,
           serial := (lib.jsonUnmarshalState b).1.serial,
           lineage := (lib.jsonUnmarshalState b).1.lineage, state := b,
           stateHash := hexEncode (lib.sha256Sum b).val,
           outputs := jsonMarshalOutputs lib (lib.jsonUnmarshalState b).1.outputs,
           resourceCount := 0, createdAt := env.dbNow,
           createdBy := match user with
             | some u => u.id
             | none => "" }] } : Store) wsID
    (fun w => { w with currentStateID := some env.newId, updatedAt := env.dbNow }) hw
  rw [hgone]
  exact ⟨rfl, ⟨_, rfl, rfl⟩, rfl⟩

/-- C23, evaluated where the code departs from it: no workspace `"W"` exists,
in the empty store and in a store that holds only workspace `"V"`; the push
to `"W"` is answered 200 and records the StateVersion `"new"` for `"W"`, so
the StateVersion set has changed, while there is no workspace `"W"` whose
`currentStateID` could reference it and the row of `"V"` is as before: the
INSERT took effect and the UPDATE of `current_state_id`, a separate statement
outside any transaction, matched no row. -/
theorem push_to_missing_workspace_records_state :
    storeEmpty.firstWorkspace "W" = none ∧
    (StateHandler.HTTPBackendPost sampleLib storeEmpty "W" (some ⟨"u1"⟩) (some bodySerialOne)
      sampleEnv).1.code = 200 ∧
    (StateHandler.HTTPBackendPost sampleLib storeEmpty "W" (some ⟨"u1"⟩) (some bodySerialOne)
      sampleEnv).2.stateVersions.map (fun v => (v.id, v.workspaceID)) = [("new", "W")] ∧
    storeEmpty.stateVersions = [] ∧
    (StateHandler.HTTPBackendPost sampleLib storeEmpty "W" (some ⟨"u1"⟩) (some bodySerialOne)
      sampleEnv).2.workspaces = [] ∧
    ({ storeEmpty with workspaces := [sampleWorkspace "V" false] } : Store).firstWorkspace "W" =
      none ∧
    (StateHandler.HTTPBackendPost sampleLib
      { storeEmpty with workspaces := [sampleWorkspace "V" false] } "W" (some ⟨"u1"⟩)
      (some bodySerialOne) sampleEnv).1.code = 200 ∧
    (StateHandler.HTTPBackendPost sampleLib
      { storeEmpty with workspaces := [sampleWorkspace "V" false] } "W" (some ⟨"u1"⟩)
      (some bodySerialOne) sampleEnv).2.stateVersions.map (fun v => (v.id, v.workspaceID)) =
        [("new", "W")] ∧
    (StateHandler.HTTPBackendPost sampleLib
      { storeEmpty with workspaces := [sampleWorkspace "V" false] } "W" (some ⟨"u1"⟩)
      (some bodySerialOne) sampleEnv).2.workspaces.map (fun w => (w.id, w.currentStateID)) =
        [("V", none)] ∧
    (StateHandler.HTTPBackendPost sampleLib
      { storeEmpty with workspaces := [sampleWorkspace "V" false] } "W" (some ⟨"u1"⟩)
      (some bodySerialOne) sampleEnv).2.firstWorkspace "W" = none ∧
    (StateHandler.HTTPBackendPost sampleLib
      { storeEmpty with workspaces := [sampleWorkspace "V" false] } "W" (some ⟨"u1"⟩)
      (some bodySerialOne) sampleEnv).2.stateVersions ≠
        ({ storeEmpty with workspaces := [sampleWorkspace "V" false] } : Store).stateVersions := by
  decide


/-! ## What RunHandler.Create records -/

theorem create_accepts (s : Store) (wsID : String) (user : User)
    (req : CreateRunRequest) (env : Env) (w : Workspace)
    (hw : s.firstWorkspace wsID = some w) (hl : w.locked = false)
    (hnone : ∀ r ∈ s.runs, r.workspaceID = wsID →
      r.status ≠ RunStatusPending ∧ r.status ≠ RunStatusPlanning ∧
      r.status ≠ RunStatusApplying)
    (hok : env.insertOk = true) (hfresh : ∀ r ∈ s.runs, r.id ≠ env.newId) :
    RunHandler.Create s wsID (some user) (some req) env =
      some (⟨201, .run
          { id := env.newId, workspaceID := wsID, status := RunStatusPending,
            operation := req.operation, message := req.message,
            isDestroy := req.operation == RunOperationDestroy,
            autoApply := req.autoApply || w.autoApply,
            terraformVersion := w.terraformVersion,
            createdBy := user.id, planLog := "", planJSON := "", applyLog := "",
            resourcesAdded := 0, resourcesChanged := 0, resourcesDeleted := 0,
            startedAt := none, planCompletedAt := none, appliedAt := none,
            completedAt := none, createdAt := env.dbNow, updatedAt := env.dbNow }⟩,
        { s with runs := s.runs ++
            [{ id := env.newId, workspaceID := wsID, status := RunStatusPending,
               operation := req.operation, message := req.message,
               isDestroy := req.operation == RunOperationDestroy,
               autoApply := req.autoApply || w.autoApply,
               terraformVersion := w.terraformVersion,
               createdBy := user.id, planLog := "", planJSON := "", applyLog := "",
               resourcesAdded := 0, resourcesChanged := 0, resourcesDeleted := 0,
               startedAt := none, planCompletedAt := none, appliedAt := none,
               completedAt := none, createdAt := env.dbNow, updatedAt := env.dbNow }] }) := by
  have hzero : s.countRuns wsID activeStatuses = 0 := by
    rw [countRuns_eq_zero_iff]
    intro r hr hrw hmem
    obtain ⟨h1, h2, h3⟩ := hnone r hr hrw
    simp [activeStatuses] at hmem
    rcases hmem with h | h | h
    · exact h1 h
    · exact h2 h
    · exact h3 h
  simp only [RunHandler.Create, hw, hl, hzero]
  rw [createRun_eq_some s _ env hok hfresh]
  rfl

theorem updateRun_keeps_autoApply (s : Store) (runID : String) (f : Run → Run)
    (hid : ∀ x, (f x).id = x.id) (hauto : ∀ x, (f x).autoApply = x.autoApply) :
    (s.updateRun runID f).runs.map (fun r => (r.id, r.autoApply)) =
      s.runs.map (fun r => (r.id, r.autoApply)) := by
  simp only [Store.updateRun, List.map_map]
  apply List.map_congr_left
  intro x _
  by_cases hx : (x.id == runID) = true
  · simp only [Function.comp, hx, if_true, hid, hauto]
  · have hx' : (x.id == runID) = false := Bool.eq_false_iff.mpr hx
    simp only [Function.comp, hx', Bool.false_eq_true, if_false]

/-- C24: a run created by `RunHandler.Create` has `autoApply` equal to the
request flag or the workspace's `autoApply` read at creation; afterwards
`RunHandler.Approve`, `RunHandler.Cancel` and `RunHandler.Discard` leave the
`autoApply` of every run as it was, and `WorkspaceHandler.Update`, whatever it
changes in the workspace, leaves the Run table untouched. -/
theorem run_autoApply_fixed_at_creation (s : Store) (wsID : String) (user : User)
    (req : CreateRunRequest) (env : Env) (w : Workspace)
    (hw : s.firstWorkspace wsID = some w) (hl : w.locked = false)
    (hnone : ∀ r ∈ s.runs, r.workspaceID = wsID →
      r.status ≠ RunStatusPending ∧ r.status ≠ RunStatusPlanning ∧
      r.status ≠ RunStatusApplying)
    (hok : env.insertOk = true) (hfresh : ∀ r ∈ s.runs, r.id ≠ env.newId)
    (t : Store) (runID wsID₂ : String) (env₂ : Env) (ureq : Option UpdateWorkspaceRequest) :
    (∃ row s', RunHandler.Create s wsID (some user) (some req) env =
        some (⟨201, .run row⟩, s') ∧
      s'.runs = s.runs ++ [row] ∧
      row.autoApply = (req.autoApply || w.autoApply)) ∧
    (RunHandler.Approve t runID env₂).2.runs.map (fun r => (r.id, r.autoApply)) =
      t.runs.map (fun r => (r.id, r.autoApply)) ∧
    (RunHandler.Cancel t runID env₂).2.runs.map (fun r => (r.id, r.autoApply)) =
      t.runs.map (fun r => (r.id, r.autoApply)) ∧
    (RunHandler.Discard t runID env₂).2.runs.map (fun r => (r.id, r.autoApply)) =
      t.runs.map (fun r => (r.id, r.autoApply)) ∧
    (WorkspaceHandler.Update t wsID₂ ureq env₂).2.runs = t.runs := by
  refine ⟨?_, ?_, ?_, ?_, ?_⟩
  · rw [create_accepts s wsID user req env w hw hl hnone hok hfresh]
    exact ⟨_, _, rfl, rfl, rfl⟩
  · unfold RunHandler.Approve
    split
    · rfl
    · split
      · rfl
      · exact updateRun_keeps_autoApply t _ _ (fun _ => rfl) (fun _ => rfl)
  · unfold RunHandler.Cancel
    split
    · rfl
    · split
      · rfl
      · exact updateRun_keeps_autoApply t _ _ (fun _ => rfl) (fun _ => rfl)
  · unfold RunHandler.Discard
    split
    · rfl
    · split
      · rfl
      · exact updateRun_keeps_autoApply t _ _ (fun _ => rfl) (fun _ => rfl)
  · unfold WorkspaceHandler.Update
    split <;> rfl

theorem run_autoApply_fixed_at_creation_witness :
    (∃ row s', RunHandler.Create storeUnlocked "W" (some ⟨"u1"⟩) (some sampleRequest)
        sampleEnv = some (⟨201, .run row⟩, s') ∧
      s'.runs = storeUnlocked.runs ++ [row] ∧
      row.autoApply = (sampleRequest.autoApply || (sampleWorkspace "W" false).autoApply)) ∧
    (WorkspaceHandler.Update (storeOneRun RunStatusPending) "W" (some requestAutoApplyOn)
      sampleEnvLater).2.runs = (storeOneRun RunStatusPending).runs :=
  ⟨(run_autoApply_fixed_at_creation storeUnlocked "W" ⟨"u1"⟩ sampleRequest sampleEnv
      (sampleWorkspace "W" false) (by decide) (by decide) (by decide) (by decide) (by decide)
      (storeOneRun RunStatusPending) "A" "W" sampleEnvLater (some requestAutoApplyOn)).1,
    (run_autoApply_fixed_at_creation storeUnlocked "W" ⟨"u1"⟩ sampleRequest sampleEnv
      (sampleWorkspace "W" false) (by decide) (by decide) (by decide) (by decide) (by decide)
      (storeOneRun RunStatusPending) "A" "W" sampleEnvLater (some requestAutoApplyOn)).2.2.2.2⟩

/-- C25, where the code departs from it: a create request without an
operation on the unlocked workspace `"W"` is answered 201 and a Run whose
operation is the empty string, outside the four operations, is created. -/
theorem create_accepts_missing_operation :
    (RunHandler.Create storeUnlocked "W" (some ⟨"u1"⟩) (some requestWithoutOperation)
      sampleEnv).map (fun p => (p.1.code, p.2.runs.map (fun r => (r.operation, r.isDestroy)))) =
      some (201, [("", false)]) ∧
    ("" : String) ∉ [RunOperationPlan, RunOperationApply, RunOperationDestroy,
      RunOperationRefresh] := by
  decide

/-- C25 as amended: every Run created by `RunHandler.Create` carries the
operation of the request as given, whatever it is, and its `isDestroy` flag is
true exactly when that operation is destroy. -/
theorem create_keeps_operation (s : Store) (wsID : String) (user : User)
    (req : CreateRunRequest) (env : Env) (w : Workspace)
    (hw : s.firstWorkspace wsID = some w) (hl : w.locked = false)
    (hnone : ∀ r ∈ s.runs, r.workspaceID = wsID →
      r.status ≠ RunStatusPending ∧ r.status ≠ RunStatusPlanning ∧
      r.status ≠ RunStatusApplying)
    (hok : env.insertOk = true) (hfresh : ∀ r ∈ s.runs, r.id ≠ env.newId) :
    ∃ row s', RunHandler.Create s wsID (some user) (some req) env =
        some (⟨201, .run row⟩, s') ∧
      s'.runs = s.runs ++ [row] ∧
      row.operation = req.operation ∧
      (row.isDestroy = true ↔ row.operation = RunOperationDestroy) := by
  rw [create_accepts s wsID user req env w hw hl hnone hok hfresh]
  refine ⟨_, _, rfl, rfl, rfl, ?_⟩
  simp

theorem create_keeps_operation_witness :
    ∃ row s', RunHandler.Create storeUnlocked "W" (some ⟨"u1"⟩) (some requestWithoutOperation)
        sampleEnv = some (⟨201, .run row⟩, s') ∧
      s'.runs = storeUnlocked.runs ++ [row] ∧
      row.operation = requestWithoutOperation.operation ∧
      (row.isDestroy = true ↔ row.operation = RunOperationDestroy) :=
  create_keeps_operation storeUnlocked "W" ⟨"u1"⟩ requestWithoutOperation sampleEnv
    (sampleWorkspace "W" false) (by decide) (by decide) (by decide) (by decide) (by decide)

/-! ## The two lock endpoints compared -/

/-- For an authenticated user the two lock handlers answer with the same
status code. -/
theorem lock_outcome_codes_agree (s : Store) (wsID : String) (u : User) (env : Env) :
    (WorkspaceHandler.Lock s wsID (some u) env).map (fun p => p.1.code) =
      some (StateHandler.HTTPBackendLock s wsID env).1.code := by
  unfold WorkspaceHandler.Lock StateHandler.HTTPBackendLock
  split
  · rfl
  · split <;> rfl

/-- C28, evaluated where the code departs from it: on the unlocked workspace
`"W"` both `WorkspaceHandler.Lock` by `"u1"` and
`StateHandler.HTTPBackendLock` answer 200, but the first leaves
`lockedBy = "u1"` and the second leaves `lockedBy` absent, so the resulting
workspace rows differ. -/
theorem backendLock_row_differs_from_lock_row :
    (WorkspaceHandler.Lock storeUnlocked "W" (some ⟨"u1"⟩) sampleEnv).map
        (fun p => (p.1.code,
          (p.2.firstWorkspace "W").map (fun w => (w.locked, w.lockedBy, w.lockedAt)))) =
      some (200, some (true, some "u1", none)) ∧
    ((StateHandler.HTTPBackendLock storeUnlocked "W" sampleEnv).1.code,
      ((StateHandler.HTTPBackendLock storeUnlocked "W" sampleEnv).2.firstWorkspace "W").map
        (fun w => (w.locked, w.lockedBy, w.lockedAt))) =
      (200, some (true, none, none)) ∧
    (WorkspaceHandler.Lock storeUnlocked "W" (some ⟨"u1"⟩) sampleEnv).map (fun p => p.2) ≠
      some (StateHandler.HTTPBackendLock storeUnlocked "W" sampleEnv).2 := by
  refine ⟨by decide, by decide, by decide⟩


/-! ## Listings -/

theorem take_insertionSort_spec {α : Type} (r : α → α → Prop) [DecidableRel r]
    [IsTotal α r] [IsTrans α r] (l : List α) (k : Nat) :
    ((l.insertionSort r).take k).Pairwise r ∧
    ((l.insertionSort r).take k ++ (l.insertionSort r).drop k).Perm l ∧
    (∀ x ∈ (l.insertionSort r).take k, ∀ y ∈ (l.insertionSort r).drop k, r x y) ∧
    ((l.insertionSort r).take k).length = min k l.length := by
  have hsorted : (l.insertionSort r).Sorted r := List.sorted_insertionSort r l
  refine ⟨List.Pairwise.sublist (List.take_sublist k _) hsorted, ?_, ?_, ?_⟩
  · rw [List.take_append_drop]
    exact List.perm_insertionSort r l
  · intro x hx y hy
    exact hsorted.rel_of_mem_take_of_mem_drop hx hy
  · rw [List.length_take, List.length_insertionSort]

/-- C26: `RunHandler.List` answers 200 with a sequence `rs` of rows of the Run
table that all belong to the workspace, ordered by creation time descending,
of length min(50, number of runs of the workspace), and made of the most
recently created ones: together with the rows left out it is a rearrangement
of the runs of the workspace, and no row left out was created after a row
returned. -/
theorem list_runs_newest_first (s : Store) (wsID : String) :
    ∃ rs rest, RunHandler.List s wsID = (⟨200, .runs rs⟩, s) ∧
      (∀ r ∈ rs, r ∈ s.runs ∧ r.workspaceID = wsID) ∧
      rs.Pairwise (fun a b => b.createdAt ≤ a.createdAt) ∧
      rs.length = min 50 (s.runs.filter (fun r => r.workspaceID == wsID)).length ∧
      (rs ++ rest).Perm (s.runs.filter (fun r => r.workspaceID == wsID)) ∧
      ∀ x ∈ rs, ∀ y ∈ rest, y.createdAt ≤ x.createdAt := by
  haveI : IsTotal Run (fun a b => b.createdAt ≤ a.createdAt) := ⟨fun a b => le_total _ _⟩
  haveI : IsTrans Run (fun a b => b.createdAt ≤ a.createdAt) :=
    ⟨fun _ _ _ h1 h2 => le_trans h2 h1⟩
  obtain ⟨h1, h2, h3, h4⟩ := take_insertionSort_spec
    (fun a b : Run => b.createdAt ≤ a.createdAt)
    (s.runs.filter (fun r => r.workspaceID == wsID)) 50
  refine ⟨_, _, rfl, ?_, h1, h4, h2, h3⟩
  intro r hr
  have hmem : r ∈ s.runs.filter (fun r => r.workspaceID == wsID) :=
    h2.subset (List.mem_append_left _ hr)
  have := List.mem_filter.mp hmem
  exact ⟨this.1, by simpa using this.2⟩

theorem list_runs_newest_first_witness :
    ∃ rs rest, RunHandler.List storeTwoRuns "W" = (⟨200, .runs rs⟩, storeTwoRuns) ∧
      (∀ r ∈ rs, r ∈ storeTwoRuns.runs ∧ r.workspaceID = "W") ∧
      rs.Pairwise (fun a b => b.createdAt ≤ a.createdAt) ∧
      rs.length = min 50 (storeTwoRuns.runs.filter (fun r => r.workspaceID == "W")).length ∧
      (rs ++ rest).Perm (storeTwoRuns.runs.filter (fun r => r.workspaceID == "W")) ∧
      ∀ x ∈ rs, ∀ y ∈ rest, y.createdAt ≤ x.createdAt :=
  list_runs_newest_first storeTwoRuns "W"

/-- The listing of the sample store: the run created at 7 before the run
created at 2, and not the run of the other workspace. -/
theorem list_runs_sample :
    (RunHandler.List storeTwoRuns "W").1.code = 200 ∧
    (storeTwoRuns.listRuns "W").map (fun r => (r.id, r.createdAt)) =
      [("recent", 7), ("old", 2)] := by
  decide

/-- C27: `StateHandler.ListStateVersions` answers 200 with the rows `rows` of
the StateVersion table, each with its `state` blob left out: min(50, number
of StateVersions of the workspace) of them, hence at most 50, all of the
workspace, ordered by serial descending, and those with the highest serials
(together with the rows left out they are a rearrangement of the
StateVersions of the workspace, and no row left out has a serial above a row
returned). -/
theorem list_state_versions_metadata (s : Store) (wsID : String) :
    ∃ rows rest : List StateVersion,
      StateHandler.ListStateVersions s wsID =
        (⟨200, .stateVersions (rows.map (fun v => { v with state := [] }))⟩, s) ∧
      (∀ v ∈ rows.map (fun v => { v with state := [] }), v.state = [] ∧
        v.workspaceID = wsID) ∧
      (∀ v ∈ rows, v ∈ s.stateVersions ∧ v.workspaceID = wsID) ∧
      rows.length ≤ 50 ∧
      rows.length = min 50 (s.stateVersions.filter (fun v => v.workspaceID == wsID)).length ∧
      (rows.map (fun v => { v with state := [] })).length =
        min 50 (s.stateVersions.filter (fun v => v.workspaceID == wsID)).length ∧
      rows.Pairwise (fun a b => b.serial ≤ a.serial) ∧
      (rows.map (fun v => { v with state := [] })).Pairwise
        (fun a b => b.serial ≤ a.serial) ∧
      (rows ++ rest).Perm (s.stateVersions.filter (fun v => v.workspaceID == wsID)) ∧
      ∀ x ∈ rows, ∀ y ∈ rest, y.serial ≤ x.serial := by
  haveI : IsTotal StateVersion (fun a b => b.serial ≤ a.serial) :=
    ⟨fun a b => le_total _ _⟩
  haveI : IsTrans StateVersion (fun a b => b.serial ≤ a.serial) :=
    ⟨fun _ _ _ h1 h2 => le_trans h2 h1⟩
  obtain ⟨h1, h2, h3, h4⟩ := take_insertionSort_spec
    (fun a b : StateVersion => b.serial ≤ a.serial)
    (s.stateVersions.filter (fun v => v.workspaceID == wsID)) 50
  have hrows : ∀ v ∈ ((s.stateVersions.filter (fun v => v.workspaceID == wsID)).insertionSort
      (fun a b => b.serial ≤ a.serial)).take 50, v ∈ s.stateVersions ∧ v.workspaceID = wsID := by
    intro v hv
    have hmem : v ∈ s.stateVersions.filter (fun v => v.workspaceID == wsID) :=
      h2.subset (List.mem_append_left _ hv)
    have := List.mem_filter.mp hmem
    exact ⟨this.1, by simpa using this.2⟩
  refine ⟨_, _, rfl, ?_, hrows, ?_, h4, ?_, h1, ?_, h2, h3⟩
  · intro v hv
    obtain ⟨v₀, hv₀, rfl⟩ := List.mem_map.mp hv
    exact ⟨rfl, (hrows v₀ hv₀).2⟩
  · rw [h4]
    exact Nat.min_le_left _ _
  · rw [List.length_map, h4]
  · rw [List.pairwise_map]
    exact h1

theorem list_state_versions_metadata_witness :
    ∃ rows rest : List StateVersion,
      StateHandler.ListStateVersions storeTwoVersions "W" =
        (⟨200, .stateVersions (rows.map (fun v => { v with state := [] }))⟩,
          storeTwoVersions) ∧
      (∀ v ∈ rows.map (fun v => { v with state := [] }), v.state = [] ∧
        v.workspaceID = "W") ∧
      (∀ v ∈ rows, v ∈ storeTwoVersions.stateVersions ∧ v.workspaceID = "W") ∧
      rows.length ≤ 50 ∧
      rows.length =
        min 50 (storeTwoVersions.stateVersions.filter (fun v => v.workspaceID == "W")).length ∧
      (rows.map (fun v => { v with state := [] })).length =
        min 50 (storeTwoVersions.stateVersions.filter (fun v => v.workspaceID == "W")).length ∧
      rows.Pairwise (fun a b => b.serial ≤ a.serial) ∧
      (rows.map (fun v => { v with state := [] })).Pairwise
        (fun a b => b.serial ≤ a.serial) ∧
      (rows ++ rest).Perm
        (storeTwoVersions.stateVersions.filter (fun v => v.workspaceID == "W")) ∧
      ∀ x ∈ rows, ∀ y ∈ rest, y.serial ≤ x.serial :=
  list_state_versions_metadata storeTwoVersions "W"

/-- The listing of the sample store: serial 2 before serial 1, no blob, and
not the version of the other workspace; the two entries are the stored rows
but for the blob. -/
theorem list_state_versions_sample :
    (storeTwoVersions.listStateVersions "W").map (fun v => (v.id, v.serial, v.state)) =
      [("b", 2, []), ("a", 1, [])] ∧
    (StateHandler.ListStateVersions storeTwoVersions "W").1 =
      ⟨200, .stateVersions [sampleStateVersion "b" "W" 2 [], sampleStateVersion "a" "W" 1 []]⟩ ∧
    (storeTwoVersions.stateVersions.filter (fun v => v.workspaceID == "W")).length = 2 := by
  decide

/-! ## Masking of sensitive variables -/

theorem insertionSort_map_of_key {α : Type} (r : α → α → Prop) [DecidableRel r]
    (e : α → α) (he : ∀ a b, r a b ↔ r (e a) (e b)) (l : List α) :
    (l.map e).insertionSort r = (l.insertionSort r).map e :=
  (List.map_insertionSort r r e l (fun a _ b _ => he a b)).symm

theorem listVariables_of_erased (s : Store) (wsID : String) :
    (s.listVariables wsID).map withoutSensitiveValue =
      ((s.variableRows.map withoutSensitiveValue).filter
        (fun v => v.workspaceID == wsID)).insertionSort
        (fun a b => ¬ (b.key.toList < a.key.toList)) := by
  have hkey : ∀ v : Variable, (withoutSensitiveValue v).key = v.key := by
    intro v; unfold withoutSensitiveValue; split <;> rfl
  have hws : ∀ v : Variable, (withoutSensitiveValue v).workspaceID = v.workspaceID := by
    intro v; unfold withoutSensitiveValue; split <;> rfl
  have hfilter : (s.variableRows.map withoutSensitiveValue).filter
      (fun v => v.workspaceID == wsID) =
      (s.variableRows.filter (fun v => v.workspaceID == wsID)).map withoutSensitiveValue := by
    rw [List.filter_map]
    congr 1
    apply List.filter_congr
    intro x _
    simp only [Function.comp, hws]
  rw [hfilter, insertionSort_map_of_key _ withoutSensitiveValue
    (fun a b => by simp only [hkey])]
  rfl

/-- C30: `WorkspaceHandler.ListVariables` answers 200 with a list in which
every variable with `sensitive = true` has the value `***SENSITIVE***` and
every other variable is a stored row of the workspace, value included, each
stored non-sensitive row of the workspace being returned; two stores whose
variable rows differ only in the stored values of sensitive variables get the
same response. -/
theorem listVariables_masks_sensitive (s s₂ : Store) (wsID : String) :
    ∃ vs, (WorkspaceHandler.ListVariables s wsID).1 = ⟨200, .variableList vs⟩ ∧
      (∀ v ∈ vs, v.sensitive = true → v.value = "***SENSITIVE***") ∧
      (∀ v ∈ vs, v.sensitive = false → v ∈ s.variableRows ∧ v.workspaceID = wsID) ∧
      (∀ v ∈ s.variableRows, v.workspaceID = wsID → v.sensitive = false → v ∈ vs) ∧
      (s.variableRows.map withoutSensitiveValue = s₂.variableRows.map withoutSensitiveValue →
        (WorkspaceHandler.ListVariables s wsID).1 =
          (WorkspaceHandler.ListVariables s₂ wsID).1) := by
  have hmemList : ∀ (t : Store) (v : Variable), v ∈ t.listVariables wsID ↔
      v ∈ t.variableRows ∧ v.workspaceID = wsID := by
    intro t v
    simp only [Store.listVariables, List.mem_insertionSort, List.mem_filter, beq_iff_eq]
  refine ⟨_, rfl, ?_, ?_, ?_, ?_⟩
  · intro v hv hsens
    obtain ⟨v₀, _, rfl⟩ := List.mem_map.mp hv
    by_cases h₀ : v₀.sensitive = true
    · simp only [h₀, if_true]
    · simp only [h₀, if_false] at hsens
      exact absurd hsens h₀
  · intro v hv hsens
    obtain ⟨v₀, hv₀, rfl⟩ := List.mem_map.mp hv
    by_cases h₀ : v₀.sensitive = true
    · simp only [h₀, if_true] at hsens
      exact absurd hsens (by simp)
    · simp only [h₀, if_false]
      exact (hmemList s v₀).mp hv₀
  · intro v hv hw hsens
    refine List.mem_map.mpr ⟨v, (hmemList s v).mpr ⟨hv, hw⟩, ?_⟩
    simp only [hsens, if_false, Bool.false_eq_true]
  · intro heq
    have hmask : ∀ t : Store,
        (t.listVariables wsID).map (fun v =>
          if v.sensitive = true then { v with value := "***SENSITIVE***" } else v) =
        ((t.listVariables wsID).map withoutSensitiveValue).map (fun v =>
          if v.sensitive = true then { v with value := "***SENSITIVE***" } else v) := by
      intro t
      rw [List.map_map]
      apply List.map_congr_left
      intro v _
      cases hv : v.sensitive <;> simp [Function.comp, withoutSensitiveValue, hv]
    simp only [WorkspaceHandler.ListVariables]
    rw [hmask s, hmask s₂, listVariables_of_erased s, listVariables_of_erased s₂, heq]

theorem listVariables_masks_sensitive_witness :
    (storeWithVariables "s3cret").variableRows.map withoutSensitiveValue =
      (storeWithVariables "other").variableRows.map withoutSensitiveValue ∧
    (storeWithVariables "s3cret").variableRows ≠ (storeWithVariables "other").variableRows ∧
    (WorkspaceHandler.ListVariables (storeWithVariables "s3cret") "W").1 =
      (WorkspaceHandler.ListVariables (storeWithVariables "other") "W").1 ∧
    (WorkspaceHandler.ListVariables (storeWithVariables "s3cret") "W").1 =
      ⟨200, .variableList [sampleVariable "x1" "region" "eu" false,
        sampleVariable "x2" "token" "***SENSITIVE***" true]⟩ := by
  obtain ⟨_, _, _, _, _, hsame⟩ :=
    listVariables_masks_sensitive (storeWithVariables "s3cret") (storeWithVariables "other") "W"
  exact ⟨by decide, by decide, hsame (by decide), by decide⟩


/-! ## The completion-stamp invariant -/

theorem firstRun_mem (s : Store) (runID : String) (r : Run)
    (h : s.firstRun runID = some r) : r ∈ s.runs :=
  List.mem_of_find?_eq_some h

theorem run_eq_of_same_id (s : Store) (hu : RunIdsUnique s) (a b : Run)
    (ha : a ∈ s.runs) (hb : b ∈ s.runs) (hid : a.id = b.id) : a = b :=
  List.inj_on_of_nodup_map hu ha hb hid

theorem runIdsUnique_updateRun (s : Store) (runID : String) (f : Run → Run)
    (hid : ∀ x, (f x).id = x.id) (hu : RunIdsUnique s) :
    RunIdsUnique (s.updateRun runID f) := by
  have hids : (s.updateRun runID f).runs.map (fun r => r.id) = s.runs.map (fun r => r.id) := by
    simp only [Store.updateRun, List.map_map]
    apply List.map_congr_left
    intro x _
    by_cases hx : (x.id == runID) = true
    · simp only [Function.comp, hx, if_true, hid]
    · have hx' : (x.id == runID) = false := Bool.eq_false_iff.mpr hx
      simp only [Function.comp, hx', Bool.false_eq_true, if_false]
  unfold RunIdsUnique
  rw [hids]
  exact hu

theorem guarded_update_stamped (s : Store) (run : Run) (f : Run → Run)
    (hrun : run ∈ s.runs) (hu : RunIdsUnique s) (hinv : CompletionStampInvariant s)
    (hst : CompletionStamped (f run)) :
    CompletionStampInvariant (s.updateRun run.id f) := by
  intro x hx
  simp only [Store.updateRun, List.mem_map] at hx
  obtain ⟨r, hr, rfl⟩ := hx
  by_cases hid : r.id = run.id
  · have : r = run := run_eq_of_same_id s hu r run hr hrun hid
    subst this
    simpa using hst
  · have hb : (r.id == run.id) = false := by simpa using hid
    simp only [hb, Bool.false_eq_true, if_false]
    exact hinv r hr

theorem guarded_update_keeps (s : Store) (run : Run) (f : Run → Run)
    (hrun : run ∈ s.runs) (hu : RunIdsUnique s) (r : Run) (hr : r ∈ s.runs)
    (hne : r ≠ run) : r ∈ (s.updateRun run.id f).runs := by
  have hid : r.id ≠ run.id := fun h => hne (run_eq_of_same_id s hu r run hr hrun h)
  simp only [Store.updateRun, List.mem_map]
  refine ⟨r, hr, ?_⟩
  have hb : (r.id == run.id) = false := by simpa using hid
  simp only [hb, Bool.false_eq_true, if_false]

theorem approve_result (s : Store) (runID : String) (env : Env) :
    (RunHandler.Approve s runID env).2 = s ∨
    ∃ run, s.firstRun runID = some run ∧ run.status = RunStatusNeedsConfirm ∧
      (RunHandler.Approve s runID env).2 =
        s.updateRun run.id (fun r =>
          { r with status := RunStatusApplying, updatedAt := env.dbNow }) := by
  cases hr : s.firstRun runID with
  | none => left; simp only [RunHandler.Approve, hr]
  | some run =>
    by_cases hs : run.status = RunStatusNeedsConfirm
    · right
      refine ⟨run, rfl, hs, ?_⟩
      simp only [RunHandler.Approve, hr, hs, bne_self_eq_false, Bool.false_eq_true, if_false]
    · left
      rw [approve_rejects s runID env run hr hs]

theorem cancel_result (s : Store) (runID : String) (env : Env) :
    (RunHandler.Cancel s runID env).2 = s ∨
    ∃ run, s.firstRun runID = some run ∧
      (run.status = RunStatusPending ∨ run.status = RunStatusPlanning) ∧
      (RunHandler.Cancel s runID env).2 =
        s.updateRun run.id (fun r =>
          { r with status := RunStatusCancelled, completedAt := some env.now,
                   updatedAt := env.dbNow }) := by
  cases hr : s.firstRun runID with
  | none => left; simp only [RunHandler.Cancel, hr]
  | some run =>
    by_cases hs : run.status = RunStatusPending ∨ run.status = RunStatusPlanning
    · right
      refine ⟨run, rfl, hs, ?_⟩
      have hb : (run.status != RunStatusPending && run.status != RunStatusPlanning) = false := by
        rcases hs with h | h <;> simp [h]
      simp only [RunHandler.Cancel, hr, hb, Bool.false_eq_true, if_false]
    · left
      rw [cancel_rejects s runID env run hr hs]

theorem discard_result (s : Store) (runID : String) (env : Env) :
    (RunHandler.Discard s runID env).2 = s ∨
    ∃ run, s.firstRun runID = some run ∧
      (run.status = RunStatusNeedsConfirm ∨ run.status = RunStatusPlanned) ∧
      (RunHandler.Discard s runID env).2 =
        s.updateRun run.id (fun r =>
          { r with status := RunStatusDiscarded, completedAt := some env.now,
                   updatedAt := env.dbNow }) := by
  cases hr : s.firstRun runID with
  | none => left; simp only [RunHandler.Discard, hr]
  | some run =>
    by_cases hs : run.status = RunStatusNeedsConfirm ∨ run.status = RunStatusPlanned
    · right
      refine ⟨run, rfl, hs, ?_⟩
      have hb : (run.status != RunStatusNeedsConfirm && run.status != RunStatusPlanned) =
          false := by
        rcases hs with h | h <;> simp [h]
      simp only [RunHandler.Discard, hr, hb, Bool.false_eq_true, if_false]
    · left
      rw [discard_rejects s runID env run hr hs]

theorem create_result (s : Store) (wsID : String) (user : Option User)
    (req : Option CreateRunRequest) (env : Env) (resp : Response) (s' : Store)
    (h : RunHandler.Create s wsID user req env = some (resp, s')) :
    s' = s ∨ ∃ row, s' = { s with runs := s.runs ++ [row] } ∧
      row.status = RunStatusPending ∧ row.completedAt = none ∧
      ∀ r ∈ s.runs, r.id ≠ row.id := by
  have hsame : ∀ r : Response, some (r, s) = some (resp, s') → s' = s := by
    intro r hr
    simp only [Option.some.injEq, Prod.mk.injEq] at hr
    exact hr.2.symm
  cases req with
  | none => exact Or.inl (hsame _ (by simpa [RunHandler.Create] using h))
  | some req =>
    cases hw : s.firstWorkspace wsID with
    | none => exact Or.inl (hsame _ (by simpa [RunHandler.Create, hw] using h))
    | some w =>
      by_cases hl : w.locked = true
      · exact Or.inl (hsame _ (by simpa [RunHandler.Create, hw, hl] using h))
      · by_cases hc : s.countRuns wsID activeStatuses > 0
        · exact Or.inl (hsame _ (by simpa [RunHandler.Create, hw, hl, hc] using h))
        · cases user with
          | none => simp [RunHandler.Create, hw, hl, hc] at h
          | some u =>
            simp only [RunHandler.Create, hw, hl, hc, if_false, Bool.false_eq_true] at h
            split at h
            · exact Or.inl (hsame _ h)
            · rename_i row s₂ hcreate
              simp only [Option.some.injEq, Prod.mk.injEq] at h
              right
              unfold Store.createRun at hcreate
              split at hcreate
              · rename_i hcond
                simp only [Option.some.injEq, Prod.mk.injEq] at hcreate
                refine ⟨row, ?_, ?_, ?_, ?_⟩
                · rw [← h.2, ← hcreate.2, ← hcreate.1]
                · rw [← hcreate.1]
                · rw [← hcreate.1]
                · intro r hr
                  simp only [Bool.and_eq_true, Bool.not_eq_true_eq_eq_false,
                    List.any_eq_false] at hcond
                  rw [← hcreate.1]
                  simpa using hcond.2 r hr
              · exact absurd hcreate (by simp)

theorem pending_not_terminal : RunStatusPending ∉ terminalStatuses := by decide

theorem planning_not_terminal : RunStatusPlanning ∉ terminalStatuses := by decide

theorem planned_not_terminal : RunStatusPlanned ∉ terminalStatuses := by decide

theorem needsConfirm_not_terminal : RunStatusNeedsConfirm ∉ terminalStatuses := by decide

theorem applying_not_terminal : RunStatusApplying ∉ terminalStatuses := by decide

theorem cancelled_terminal : RunStatusCancelled ∈ terminalStatuses := by decide

theorem discarded_terminal : RunStatusDiscarded ∈ terminalStatuses := by decide

/-- One run request keeps the primary key, keeps the completion-stamp
invariant and leaves every run with a terminal status as it was. -/
theorem applyRunRequest_preserves (s : Store) (req : RunRequest) (hu : RunIdsUnique s)
    (hinv : CompletionStampInvariant s) :
    RunIdsUnique (applyRunRequest s req) ∧ CompletionStampInvariant (applyRunRequest s req) ∧
      ∀ r ∈ s.runs, r.status ∈ terminalStatuses → r ∈ (applyRunRequest s req).runs := by
  have hself : RunIdsUnique s ∧ CompletionStampInvariant s ∧
      ∀ r ∈ s.runs, r.status ∈ terminalStatuses → r ∈ s.runs :=
    ⟨hu, hinv, fun _ hr _ => hr⟩
  cases req with
  | create wsID user creq env =>
    simp only [applyRunRequest]
    cases hc : RunHandler.Create s wsID user creq env with
    | none => exact hself
    | some p =>
      obtain ⟨resp, s'⟩ := p
      rcases create_result s wsID user creq env resp s' hc with h | ⟨row, h, hst, hcomp, hfresh⟩
      · simp only [h]; exact hself
      · simp only [h]
        refine ⟨?_, ?_, ?_⟩
        · unfold RunIdsUnique
          simp only [List.map_append, List.map_cons, List.map_nil]
          rw [List.nodup_append]
          refine ⟨hu, List.nodup_singleton _, ?_⟩
          intro a ha hb
          simp only [List.mem_singleton] at hb
          obtain ⟨r, hr, hra⟩ := List.mem_map.mp ha
          exact hfresh r hr (hra.trans hb)
        · intro x hx
          rcases List.mem_append.mp hx with hx | hx
          · exact hinv x hx
          · simp only [List.mem_singleton] at hx
            subst hx
            unfold CompletionStamped
            rw [hst, hcomp]
            simp only [Option.isSome_none, Bool.false_eq_true, false_iff]
            exact pending_not_terminal
        · intro r hr _
          exact List.mem_append_left _ hr
  | approve runID env =>
    simp only [applyRunRequest]
    rcases approve_result s runID env with h | ⟨run, hrun, hst, h⟩
    · rw [h]; exact hself
    · rw [h]
      have hmem := firstRun_mem s runID run hrun
      have hnone : run.completedAt.isSome = false := by
        have := hinv run hmem
        unfold CompletionStamped at this
        rw [hst] at this
        cases hc : run.completedAt.isSome
        · rfl
        · exact absurd (this.mp hc) needsConfirm_not_terminal
      refine ⟨runIdsUnique_updateRun s _ _ (fun _ => rfl) hu, ?_, ?_⟩
      · apply guarded_update_stamped s run _ hmem hu hinv
        unfold CompletionStamped
        show run.completedAt.isSome = true ↔ RunStatusApplying ∈ terminalStatuses
        rw [hnone]
        simp only [Bool.false_eq_true, false_iff]
        exact applying_not_terminal
      · intro r hr hterm
        apply guarded_update_keeps s run _ hmem hu r hr
        intro heq
        rw [heq, hst] at hterm
        exact needsConfirm_not_terminal hterm
  | cancel runID env =>
    simp only [applyRunRequest]
    rcases cancel_result s runID env with h | ⟨run, hrun, hst, h⟩
    · rw [h]; exact hself
    · rw [h]
      have hmem := firstRun_mem s runID run hrun
      refine ⟨runIdsUnique_updateRun s _ _ (fun _ => rfl) hu, ?_, ?_⟩
      · apply guarded_update_stamped s run _ hmem hu hinv
        unfold CompletionStamped
        show (some env.now).isSome = true ↔ RunStatusCancelled ∈ terminalStatuses
        simp only [Option.isSome_some, true_iff]
        exact cancelled_terminal
      · intro r hr hterm
        apply guarded_update_keeps s run _ hmem hu r hr
        intro heq
        rw [heq] at hterm
        rcases hst with h1 | h1 <;> rw [h1] at hterm
        · exact pending_not_terminal hterm
        · exact planning_not_terminal hterm
  | discard runID env =>
    simp only [applyRunRequest]
    rcases discard_result s runID env with h | ⟨run, hrun, hst, h⟩
    · rw [h]; exact hself
    · rw [h]
      have hmem := firstRun_mem s runID run hrun
      refine ⟨runIdsUnique_updateRun s _ _ (fun _ => rfl) hu, ?_, ?_⟩
      · apply guarded_update_stamped s run _ hmem hu hinv
        unfold CompletionStamped
        show (some env.now).isSome = true ↔ RunStatusDiscarded ∈ terminalStatuses
        simp only [Option.isSome_some, true_iff]
        exact discarded_terminal
      · intro r hr hterm
        apply guarded_update_keeps s run _ hmem hu r hr
        intro heq
        rw [heq] at hterm
        rcases hst with h1 | h1 <;> rw [h1] at hterm
        · exact needsConfirm_not_terminal hterm
        · exact planned_not_terminal hterm

/-- C29: from a store whose Run table respects its primary key and in which
every run has `completedAt` exactly when its status is applied, errored,
cancelled, discarded or planned_and_finished, every sequence of
`RunHandler.Create`, `Approve`, `Cancel` and `Discard` requests leads to a
store with the same two properties; along the way a run whose status is
terminal, or whose `completedAt` is present, is never modified again, so
`completedAt` is written at most once and no transition leaves a terminal
status. -/
theorem completion_stamp_invariant (s : Store) (reqs : List RunRequest)
    (hu : RunIdsUnique s) (hinv : CompletionStampInvariant s) :
    CompletionStampInvariant (applyRunRequests s reqs) ∧
    RunIdsUnique (applyRunRequests s reqs) ∧
    (∀ r ∈ s.runs, r.status ∈ terminalStatuses → r ∈ (applyRunRequests s reqs).runs) ∧
    (∀ r ∈ s.runs, r.completedAt.isSome = true → r ∈ (applyRunRequests s reqs).runs) := by
  have hmain : CompletionStampInvariant (applyRunRequests s reqs) ∧
      RunIdsUnique (applyRunRequests s reqs) ∧
      (∀ r ∈ s.runs, r.status ∈ terminalStatuses → r ∈ (applyRunRequests s reqs).runs) := by
    induction reqs generalizing s with
    | nil => exact ⟨hinv, hu, fun _ hr _ => hr⟩
    | cons req reqs ih =>
      obtain ⟨h1, h2, h3⟩ := applyRunRequest_preserves s req hu hinv
      obtain ⟨i1, i2, i3⟩ := ih (applyRunRequest s req) h1 h2
      refine ⟨i1, i2, ?_⟩
      intro r hr hterm
      exact i3 r (h3 r hr hterm) hterm
  refine ⟨hmain.1, hmain.2.1, hmain.2.2, ?_⟩
  intro r hr hsome
  exact hmain.2.2 r hr ((hinv r hr).mp hsome)

theorem completion_stamp_invariant_witness :
    RunIdsUnique (storeOneRun RunStatusPending) ∧
    CompletionStampInvariant (storeOneRun RunStatusPending) ∧
    CompletionStampInvariant (applyRunRequests (storeOneRun RunStatusPending)
      [.cancel "A" sampleEnv, .approve "A" sampleEnvLater,
       .create "W" (some ⟨"u1"⟩) (some sampleRequest) sampleEnvLater]) ∧
    (applyRunRequests (storeOneRun RunStatusPending)
      [.cancel "A" sampleEnv, .approve "A" sampleEnvLater,
       .create "W" (some ⟨"u1"⟩) (some sampleRequest) sampleEnvLater]).runs.map
        (fun r => (r.id, r.status, r.completedAt)) =
      [("A", "cancelled", some 10), ("new2", "pending", none)] := by
  have hu : RunIdsUnique (storeOneRun RunStatusPending) := by
    unfold RunIdsUnique
    decide
  have hinv : CompletionStampInvariant (storeOneRun RunStatusPending) := by
    intro r hr
    simp only [storeOneRun, List.mem_singleton] at hr
    subst hr
    unfold CompletionStamped
    decide
  exact ⟨hu, hinv,
    (completion_stamp_invariant (storeOneRun RunStatusPending)
      [.cancel "A" sampleEnv, .approve "A" sampleEnvLater,
       .create "W" (some ⟨"u1"⟩) (some sampleRequest) sampleEnvLater] hu hinv).1,
    by decide⟩


end TerraConsole
